import Mathlib

/-!
# kinetic-c: the operation layer (`src/lib/kinetic_operation.c`)

A shallow embedding of the sender (`KineticOperation_SendRequest`, `WritePDU`), the
deadline accessors, the response correlation, the timeout sweep, the twelve builders and
the completion thunks they install, and of the listener's table of pending messages
(`src/lib/bus/listener_internal.h`).

Conventions of the embedding.

* A C pointer to an object the functions only read or update in place is an `Option`
  of the object; `none` is `NULL`.  An object's address, where identity matters, is a
  natural number (`KineticOperation.addr`, `KineticConnection.addr`).
* `size_t` values (buffer lengths, packed sizes) are `Nat`; `int64_t` and `time_t`
  values are `Int`.  The two length fields of the frame header are 32-bit words (the
  header is nine bytes): a store into them reduces the value modulo `2^32`, written
  explicitly as `uint32_t`.
* A failed `assert` aborts the process: the embedded function returns `none`.
* What a function does to the world outside the operation (socket, mutexes, user
  callbacks) is recorded, in order, as a list of `Event`s.
* The clock (`gettimeofday`) and the replies of the socket are inputs.
-/

namespace Kinetic

/-! ## Status codes and time -/

/-- The status codes the operation layer names; `KINETIC_STATUS_OTHER c` stands for every
other member of the enumeration (socket and device errors). -/
inductive KineticStatus where
  | KINETIC_STATUS_INVALID
  | KINETIC_STATUS_SUCCESS
  | KINETIC_STATUS_BUFFER_OVERRUN
  | KINETIC_STATUS_OPERATION_INVALID
  | KINETIC_STATUS_OPERATION_FAILED
  | KINETIC_STATUS_OPERATION_TIMEDOUT
  | KINETIC_STATUS_OTHER (code : Nat)
  deriving DecidableEq, Repr

open KineticStatus

/-- The C `struct timeval`. -/
structure Timeval where
  tv_sec : Int := 0
  tv_usec : Int := 0
  deriving DecidableEq, Repr

/-- Modelled from the spec: `Kinetic_TimevalAdd` is not among the sources.  The spec sets
the deadline to `now + KINETIC_OPERATION_TIMEOUT_SECS`: seconds and microseconds are
added, and a microsecond sum of a million or more carries into the seconds. -/
def Kinetic_TimevalAdd (a b : Timeval) : Timeval :=
  let sec := a.tv_sec + b.tv_sec
  let usec := a.tv_usec + b.tv_usec
  if 1000000 ≤ usec then { tv_sec := sec + 1, tv_usec := usec - 1000000 }
  else { tv_sec := sec, tv_usec := usec }

/-- Modelled from the spec: `Kinetic_TimevalIsZero` is not among the sources.  The zero
time has both fields zero. -/
def Kinetic_TimevalIsZero (tv : Timeval) : Bool :=
  tv.tv_sec == 0 && tv.tv_usec == 0

/-- Modelled from the spec: `Kinetic_TimevalCmp` is not among the sources.  A three-way
comparison, seconds first: negative, zero or positive as `a` is before, at or after `b`
(the spec's sweep fires when `now >= deadline`). -/
def Kinetic_TimevalCmp (a b : Timeval) : Int :=
  if a.tv_sec = b.tv_sec then
    (if a.tv_usec < b.tv_usec then -1 else if a.tv_usec = b.tv_usec then 0 else 1)
  else if a.tv_sec < b.tv_sec then -1 else 1

/-! ## Byte buffers and entries -/

/-- The C `ByteArray`: a pointer to `len` bytes.  `data = none` is the NULL pointer,
otherwise the bytes the pointer addresses. -/
structure ByteArray where
  data : Option (List Nat) := none
  len : Nat := 0
  deriving DecidableEq, Repr

/-- The C `ByteBuffer`: an array and the number of its bytes in use. -/
structure ByteBuffer where
  array : ByteArray := {}
  bytesUsed : Nat := 0
  deriving DecidableEq, Repr

/-- `ByteBuffer_Create(data, max_len, used)`. -/
def ByteBuffer_Create (data : List Nat) (max_len used : Nat) : ByteBuffer :=
  { array := { data := some data, len := max_len }, bytesUsed := used }

/-- The fields of `KineticEntry` the operation layer touches. -/
structure KineticEntry where
  key : ByteBuffer := {}
  dbVersion : ByteBuffer := {}
  newVersion : ByteBuffer := {}
  value : ByteBuffer := {}
  metadataOnly : Bool := false
  deriving DecidableEq, Repr

/-- The bytes a buffer holds: the first `bytesUsed` bytes its array addresses. -/
def ByteBuffer.bytes (buffer : ByteBuffer) : List Nat :=
  (buffer.array.data.getD []).take buffer.bytesUsed

/-- The constant `BYTE_BUFFER_NONE`: no array, nothing in use. -/
def BYTE_BUFFER_NONE : ByteBuffer := { array := { data := none, len := 0 }, bytesUsed := 0 }

/-- Modelled from the spec: `ByteBuffer_IsNull` is not among the sources.  A buffer is
null when it has no array. -/
def ByteBuffer_IsNull (buffer : ByteBuffer) : Bool :=
  buffer.array.data.isNone

/-- Modelled from the spec: `ByteBuffer_Reset` is not among the sources.  The spec has the
completion thunk clear the buffer: nothing of it is in use any more, the array stays. -/
def ByteBuffer_Reset (buffer : ByteBuffer) : ByteBuffer :=
  { buffer with bytesUsed := 0 }

/-- Modelled from the spec: `ByteBuffer_Append` is not among the sources.  The spec has the
completion thunk copy bytes into a buffer: `len` bytes of `data` go behind the bytes in
use.  A buffer holds at most `array.len` bytes; an append of no bytes, or one that does
not fit, leaves the buffer as it was (the caller in these sources ignores the result). -/
def ByteBuffer_Append (buffer : ByteBuffer) (data : List Nat) (len : Nat) : ByteBuffer :=
  if len = 0 ∨ buffer.bytesUsed + len > buffer.array.len then buffer
  else
    { array := { buffer.array with
        data := some ((buffer.array.data.getD []).take buffer.bytesUsed ++ data.take len
          ++ (buffer.array.data.getD []).drop (buffer.bytesUsed + len)) },
      bytesUsed := buffer.bytesUsed + len }

/-- The C `ByteBufferArray`: the caller's buffers for a key-range reply. -/
structure ByteBufferArray where
  buffers : List ByteBuffer := []
  count : Nat := 0
  used : Nat := 0
  deriving DecidableEq, Repr

/-- The fields of `KineticKeyRange`. -/
structure KineticKeyRange where
  startKey : ByteBuffer := {}
  endKey : ByteBuffer := {}
  startKeyInclusive : Bool := false
  endKeyInclusive : Bool := false
  maxReturned : Nat := 0
  reverse : Bool := false
  deriving DecidableEq, Repr

/-! ## Peer-to-peer requests -/

/-- The peer of a P2P request (`p2pOp->peer`). -/
structure KineticP2P_Peer where
  hostname : String := ""
  port : Nat := 0
  tls : Bool := false
  deriving DecidableEq, Repr

mutual
/-- The C `KineticP2P_Operation`: a peer, `numOperations` and the array `operations`. -/
inductive KineticP2P_Operation where
  | mk (peer : KineticP2P_Peer) (numOperations : Nat) (operations : KineticP2P_OperationArray)
  deriving DecidableEq, Repr
/-- The array `p2pOp->operations`, element by element. -/
inductive KineticP2P_OperationArray where
  | nil
  | cons (head : KineticP2P_OperationData) (tail : KineticP2P_OperationArray)
  deriving DecidableEq, Repr
/-- The C `KineticP2P_OperationData`: one operation of a P2P request. -/
inductive KineticP2P_OperationData where
  | mk (key version newKey : ByteBuffer) (chainedOperation : KineticP2P_OperationPtr)
      (resultStatus : KineticStatus)
  deriving DecidableEq, Repr
/-- The pointer `chainedOperation`: NULL or a nested P2P request. -/
inductive KineticP2P_OperationPtr where
  | null
  | ptr (target : KineticP2P_Operation)
  deriving DecidableEq, Repr
end

/-! ## Protocol messages -/

inductive KineticProto_Message_AuthType where
  | KINETIC_PROTO_MESSAGE_AUTH_TYPE_INVALID_AUTH_TYPE
  | KINETIC_PROTO_MESSAGE_AUTH_TYPE_HMACAUTH
  | KINETIC_PROTO_MESSAGE_AUTH_TYPE_PINAUTH
  | KINETIC_PROTO_MESSAGE_AUTH_TYPE_UNSOLICITEDSTATUS
  deriving DecidableEq, Repr

open KineticProto_Message_AuthType

inductive KineticProto_Command_MessageType where
  | KINETIC_PROTO_COMMAND_MESSAGE_TYPE_INVALID_MESSAGE_TYPE
  | KINETIC_PROTO_COMMAND_MESSAGE_TYPE_NOOP
  | KINETIC_PROTO_COMMAND_MESSAGE_TYPE_PUT
  | KINETIC_PROTO_COMMAND_MESSAGE_TYPE_GET
  | KINETIC_PROTO_COMMAND_MESSAGE_TYPE_GETNEXT
  | KINETIC_PROTO_COMMAND_MESSAGE_TYPE_GETPREVIOUS
  | KINETIC_PROTO_COMMAND_MESSAGE_TYPE_DELETE
  | KINETIC_PROTO_COMMAND_MESSAGE_TYPE_FLUSHALLDATA
  | KINETIC_PROTO_COMMAND_MESSAGE_TYPE_GETKEYRANGE
  | KINETIC_PROTO_COMMAND_MESSAGE_TYPE_GETLOG
  | KINETIC_PROTO_COMMAND_MESSAGE_TYPE_PEER2PEERPUSH
  | KINETIC_PROTO_COMMAND_MESSAGE_TYPE_SETUP
  deriving DecidableEq, Repr

/-- The fields of the command header the operation layer reads and writes. -/
structure KineticProto_Command_Header where
  has_sequence : Bool := false
  sequence : Int := 0
  has_ackSequence : Bool := false
  ackSequence : Int := 0
  has_messageType : Bool := false
  messageType : KineticProto_Command_MessageType :=
    KineticProto_Command_MessageType.KINETIC_PROTO_COMMAND_MESSAGE_TYPE_INVALID_MESSAGE_TYPE
  deriving DecidableEq, Repr

/-- The status of a command or of one P2P operation in a reply. -/
structure KineticProto_Command_Status where
  has_code : Bool := false
  code : Nat := 0
  deriving DecidableEq, Repr

/-- The peer of a protobuf P2P operation. -/
structure KineticProto_Command_P2POperation_Peer where
  hostname : String := ""
  has_port : Bool := false
  port : Nat := 0
  has_tls : Bool := false
  tls : Bool := false
  deriving DecidableEq, Repr

mutual
/-- The protobuf `P2POperation`: `peer` pointer, `n_operation` and the array `operation`. -/
inductive KineticProto_Command_P2POperation where
  | mk (peer : Option KineticProto_Command_P2POperation_Peer) (n_operation : Nat)
      (operation : KineticProto_Command_P2POperation_OperationArray)
  deriving DecidableEq, Repr
/-- The array `proto_p2pOp->operation`, element by element. -/
inductive KineticProto_Command_P2POperation_OperationArray where
  | nil
  | cons (head : KineticProto_Command_P2POperation_Operation)
      (tail : KineticProto_Command_P2POperation_OperationArray)
  deriving DecidableEq, Repr
/-- The protobuf `P2POperation.Operation`; `key`, `newKey` and `version` are binary data
(pointer and length). -/
inductive KineticProto_Command_P2POperation_Operation where
  | mk (has_key : Bool) (key : ByteArray) (has_newKey : Bool) (newKey : ByteArray)
      (has_version : Bool) (version : ByteArray) (has_force : Bool) (force : Bool)
      (p2pop : KineticProto_Command_P2POperation_Ptr)
      (status : Option KineticProto_Command_Status)
  deriving DecidableEq, Repr
/-- The pointer `p2pop`: NULL or a nested protobuf P2P operation. -/
inductive KineticProto_Command_P2POperation_Ptr where
  | null
  | ptr (target : KineticProto_Command_P2POperation)
  deriving DecidableEq, Repr
end

/-- The protobuf `GetLog`: the pointer `types` (the array it addresses) and `n_types`. -/
structure KineticProto_Command_GetLog where
  types : Option (List Nat) := none
  n_types : Nat := 0
  deriving DecidableEq, Repr

inductive KineticProto_Command_PinOperation_PinOpType where
  | KINETIC_PROTO_COMMAND_PIN_OPERATION_PIN_OP_TYPE_INVALID_PINOP
  | KINETIC_PROTO_COMMAND_PIN_OPERATION_PIN_OP_TYPE_UNLOCK_PINOP
  | KINETIC_PROTO_COMMAND_PIN_OPERATION_PIN_OP_TYPE_LOCK_PINOP
  | KINETIC_PROTO_COMMAND_PIN_OPERATION_PIN_OP_TYPE_ERASE_PINOP
  | KINETIC_PROTO_COMMAND_PIN_OPERATION_PIN_OP_TYPE_SECURE_ERASE_PINOP
  deriving DecidableEq, Repr

structure KineticProto_Command_PinOperation where
  has_pinOpType : Bool := false
  pinOpType : KineticProto_Command_PinOperation_PinOpType :=
    KineticProto_Command_PinOperation_PinOpType.KINETIC_PROTO_COMMAND_PIN_OPERATION_PIN_OP_TYPE_INVALID_PINOP
  deriving DecidableEq, Repr

structure KineticProto_Command_Setup where
  has_newClusterVersion : Bool := false
  newClusterVersion : Int := 0
  deriving DecidableEq, Repr

/-- The fields of the command body the operation layer touches.  A pointer of the body
(`getLog`, `pinOp`, `setup`, `p2pOperation`) is the object it addresses, `none` for
NULL. -/
structure KineticProto_Command_Body where
  getLog : Option KineticProto_Command_GetLog := none
  p2pOperation : Option KineticProto_Command_P2POperation := none
  pinOp : Option KineticProto_Command_PinOperation := none
  setup : Option KineticProto_Command_Setup := none
  deriving DecidableEq, Repr

/-- Where `command->body` points: nowhere, at the PDU's own `protoData.message.body`, or
at a body unpacked from a received frame. -/
inductive BodyPtr where
  | null
  | protoData
  | unpacked (body : KineticProto_Command_Body)
  deriving DecidableEq, Repr

/-- A command: `header` is the pointer `command->header`, `body` the pointer
`command->body`. -/
structure KineticProto_Command where
  header : Option KineticProto_Command_Header := none
  body : BodyPtr := BodyPtr.null
  deriving DecidableEq, Repr

structure KineticProto_Message_HMACauth where
  has_identity : Bool := false
  identity : Int := 0
  has_hmac : Bool := false
  hmac : List Nat := []
  deriving DecidableEq, Repr

structure KineticProto_Message_PINauth where
  has_pin : Bool := false
  pin : List Nat := []
  deriving DecidableEq, Repr

/-- The outer protobuf message: the authentication envelope and the packed command. -/
structure KineticProto_Message where
  has_authType : Bool := false
  authType : KineticProto_Message_AuthType := KINETIC_PROTO_MESSAGE_AUTH_TYPE_INVALID_AUTH_TYPE
  hmacAuth : Option KineticProto_Message_HMACauth := none
  pinAuth : Option KineticProto_Message_PINauth := none
  has_commandBytes : Bool := false
  commandBytes : List Nat := []
  deriving DecidableEq, Repr

/-- The C `KineticMessage` (`pdu->protoData.message`): storage for the message, its
command and the parts of the command the builders attach (`body`, `getLog`,
`getLogType`, `pinOp`, `pinAuth`). -/
structure KineticMessage where
  message : KineticProto_Message := {}
  has_command : Bool := false
  command : KineticProto_Command := {}
  body : KineticProto_Command_Body := {}
  getLog : KineticProto_Command_GetLog := {}
  getLogType : Nat := 0
  pinOp : KineticProto_Command_PinOperation := {}
  pinAuth : KineticProto_Message_PINauth := {}
  deriving DecidableEq, Repr

/-! ## PDUs -/

inductive KineticPDUType where
  | KINETIC_PDU_TYPE_INVALID
  | KINETIC_PDU_TYPE_REQUEST
  | KINETIC_PDU_TYPE_RESPONSE
  | KINETIC_PDU_TYPE_UNSOLICITED
  deriving DecidableEq, Repr

open KineticPDUType

/-- Conversion of an integer to the C type `uint32_t`. -/
def uint32_t (v : Nat) : Nat := v % 4294967296

/-- Modelled from the spec: the declaration of `KineticPDUHeader` is not among the
sources.  The spec lays the frame header out as nine bytes: one byte of version prefix,
then the protobuf length and the value length, four bytes each.  The two length fields
therefore hold values below `2^32`; the code stores into them through `uint32_t`. -/
structure KineticPDUHeader where
  versionPrefix : Nat := 0
  protobufLength : Nat := 0
  valueLength : Nat := 0
  deriving DecidableEq, Repr

/-- Where `pdu->command` points: nowhere, at the PDU's own `protoData.message.command`,
or at a command unpacked from a received frame. -/
inductive CommandPtr where
  | null
  | protoData
  | unpacked (command : KineticProto_Command)
  deriving DecidableEq, Repr

/-- The HMAC context of a PDU (`pdu->hmac`). -/
structure KineticHMAC where
  algorithm : Nat := 0
  data : List Nat := []
  deriving DecidableEq, Repr

/-- The C `KineticPDU`.  `protoIsSet` tells whether `pdu->proto` points at
`protoData.message.message` (the only target the operation layer gives it). -/
structure KineticPDU where
  type : KineticPDUType := KINETIC_PDU_TYPE_INVALID
  connection : Option Nat := none
  header : KineticPDUHeader := {}
  headerNBO : KineticPDUHeader := {}
  protoData : KineticMessage := {}
  protoIsSet : Bool := false
  command : CommandPtr := CommandPtr.null
  hmac : KineticHMAC := {}
  deriving DecidableEq, Repr

/-- The command `pdu->command` points at, `none` for NULL. -/
def KineticPDU.commandTarget (pdu : KineticPDU) : Option KineticProto_Command :=
  match pdu.command with
  | CommandPtr.null => none
  | CommandPtr.protoData => some pdu.protoData.command
  | CommandPtr.unpacked c => some c

/-- The body `pdu->command->body` points at, `none` when a pointer on the way is NULL. -/
def KineticPDU.bodyTarget (pdu : KineticPDU) : Option KineticProto_Command_Body :=
  match pdu.commandTarget with
  | none => none
  | some command =>
    match command.body with
    | BodyPtr.null => none
    | BodyPtr.protoData => some pdu.protoData.body
    | BodyPtr.unpacked body => some body

/-- A store through `pdu->command`: the command the pointer addresses becomes
`f command`; `none` when the pointer is NULL. -/
def KineticPDU.updateCommand (pdu : KineticPDU)
    (f : KineticProto_Command → KineticProto_Command) : Option KineticPDU :=
  match pdu.command with
  | CommandPtr.null => none
  | CommandPtr.protoData =>
    some { pdu with protoData := { pdu.protoData with command := f pdu.protoData.command } }
  | CommandPtr.unpacked command => some { pdu with command := CommandPtr.unpacked (f command) }

/-- A store through `pdu->command->body`: the body the pointers address becomes `f body`;
`none` when a pointer on the way is NULL. -/
def KineticPDU.updateBody (pdu : KineticPDU)
    (f : KineticProto_Command_Body → KineticProto_Command_Body) : Option KineticPDU :=
  match pdu.commandTarget with
  | none => none
  | some command =>
    match command.body with
    | BodyPtr.null => none
    | BodyPtr.protoData =>
      some { pdu with protoData := { pdu.protoData with body := f pdu.protoData.body } }
    | BodyPtr.unpacked body =>
      pdu.updateCommand (fun c => { c with body := BodyPtr.unpacked (f body) })

/-! ## Operations, sessions and connections -/

/-- The user's completion closure: `callback` is the function pointer (`none` for NULL,
otherwise the function's address) and `clientData` the opaque pointer handed back. -/
structure KineticCompletionClosure where
  callback : Option Nat := none
  clientData : Nat := 0
  deriving DecidableEq, Repr

/-- The completion thunks a builder can install in `operation->callback`. -/
inductive KineticOperationCallback where
  | KineticOperation_NoopCallback
  | KineticOperation_PutCallback
  | get_cmd_cb
  | getprevious_cmd_cb
  | getnext_cmd_cb
  | KineticOperation_FlushCallback
  | KineticOperation_DeleteCallback
  | KineticOperation_GetKeyRangeCallback
  | KineticOperation_GetLogCallback
  | KineticOperation_P2POperationCallback
  | KineticOperation_InstantSecureEraseCallback
  | KineticOperation_SetClusterVersionCallback
  deriving DecidableEq, Repr

/-- The C `KineticOperation`.  `addr` is the object's address, `connection` the address
of the connection it points back to; `entry`, `buffers` and `p2pOp` are the caller's
objects the pointers address, `deviceInfo` the address of the caller's out-pointer and
`deviceInfoTarget` what that out-pointer holds (`*operation->deviceInfo`). -/
structure KineticOperation where
  addr : Nat := 0
  connection : Option Nat := none
  request : Option KineticPDU := none
  response : Option KineticPDU := none
  entry : Option KineticEntry := none
  valueEnabled : Bool := false
  sendValue : Bool := false
  callback : Option KineticOperationCallback := none
  closure : KineticCompletionClosure := {}
  timeoutTime : Timeval := {}
  buffers : Option ByteBufferArray := none
  deviceInfo : Option Nat := none
  p2pOp : Option KineticP2P_Operation := none
  deviceInfoTarget : Option Nat := none
  deriving DecidableEq, Repr

/-- The fields of `KineticSession` the operation layer touches. -/
structure KineticSession where
  hmacKey : List Nat := []
  identity : Int := 0
  clusterVersion : Int := 0
  sequence : Int := 0
  deriving DecidableEq, Repr

/-- The C `KineticConnection`: its address, the socket descriptor, the session and the
list of operations the allocator keeps for it, in list order. -/
structure KineticConnection where
  addr : Nat := 0
  socket : Int := 0
  session : KineticSession := {}
  operations : List KineticOperation := []
  deriving DecidableEq, Repr

/-! ## Replies the completion thunks read -/

/-- Modelled from the spec: the protobuf `KeyValue` of a reply is not declared among the
sources.  The spec has the GET thunk copy it back into the entry; the operation layer
only hands it from `KineticPDU_GetKeyValue` to the copy helper. -/
structure KineticProto_Command_KeyValue where
  key : ByteArray := {}
  dbVersion : ByteArray := {}
  deriving DecidableEq, Repr

/-- Modelled from the spec: the protobuf `Range` of a reply is not declared among the
sources.  The spec has the GETKEYRANGE thunk copy its key list into the caller's
byte-buffer array. -/
structure KineticProto_Command_Range where
  keys : List ByteArray := []
  deriving DecidableEq, Repr

/-! ## The world outside: events, constants, encoders, socket -/

/-- The mutexes the operation layer takes: a connection's `writeMutex` and an
operation's `timeoutTimeMutex`, each named by the address of its owner. -/
inductive Mutex where
  | writeMutex (connection : Nat)
  | timeoutTimeMutex (operation : Nat)
  deriving DecidableEq, Repr

/-- The calls a function makes, recorded in the order the code makes them: mutexes,
socket, the entry into `KineticOperation_Complete`, the user's closure callback
(`operation->closure.callback`), the operation's completion thunk
(`operation->callback`) and the allocator's free. -/
inductive Event where
  | pthread_mutex_lock (m : Mutex)
  | pthread_mutex_unlock (m : Mutex)
  | KineticSocket_BeginPacket (socket : Int)
  | KineticSocket_Write (socket : Int) (buffer : ByteBuffer)
  | KineticSocket_WriteProtobuf (socket : Int) (pdu : KineticPDU)
  | KineticSocket_FinishPacket (socket : Int)
  | KineticOperation_Complete (operation : Nat) (status : KineticStatus)
  | closure_callback (callback : Nat) (status : KineticStatus) (clientData : Nat)
  | operation_callback (operation : Nat) (status : KineticStatus)
  | KineticAllocator_FreeOperation (connection : Nat) (operation : Nat)
  deriving DecidableEq, Repr

/-- Modelled from the spec: the constants and external encoders the sources use and do not
define.  `PDU_PROTO_MAX_LEN` is the spec's bound on both frame lengths,
`KINETIC_OPERATION_TIMEOUT_SECS` the default operation timeout, a number of seconds that
fits the `uint32_t` parameter it is passed as; the protocol-buffer encoder, the HMAC,
`KineticMessage_ConfigureKeyValue`, `KineticMessage_ConfigureKeyRange` and the conversion
of a device-info type are opaque functions (the spec treats the schema as an opaque
encoder), and the byte order of the host is a parameter.  So are the helpers the
completion thunks call on a reply: `KineticPDU_GetKeyValue` and `KineticPDU_GetKeyRange`
(NULL is `none`), the two copy helpers (whether the copy fitted, and the caller's object
as the copy leaves it), `KineticDeviceInfo_Create` (the address of the new structure) and
`KineticProtoStatusCode_to_KineticStatus`. -/
structure Env where
  PDU_PROTO_MAX_LEN : Nat
  KINETIC_OPERATION_TIMEOUT_SECS : Nat
  hostIsLittleEndian : Bool
  KineticProto_command__pack : KineticProto_Command → List Nat
  KineticProto_Message__get_packed_size : KineticProto_Message → Nat
  KineticHMAC_Compute : List Nat → List Nat → List Nat
  KineticMessage_ConfigureKeyValue : KineticMessage → KineticEntry → KineticMessage
  KineticMessage_ConfigureKeyRange : KineticMessage → KineticKeyRange → KineticMessage
  KineticDeviceInfo_Type_to_KineticProto_Command_GetLog_Type : Nat → Nat
  KineticPDU_GetKeyValue : KineticPDU → Option KineticProto_Command_KeyValue
  Copy_KineticProto_Command_KeyValue_to_KineticEntry :
    KineticProto_Command_KeyValue → KineticEntry → Bool × KineticEntry
  KineticPDU_GetKeyRange : KineticPDU → Option KineticProto_Command_Range
  Copy_KineticProto_Command_Range_to_ByteBufferArray :
    KineticProto_Command_Range → ByteBufferArray → Bool × ByteBufferArray
  KineticDeviceInfo_Create : KineticProto_Command_GetLog → Nat
  KineticProtoStatusCode_to_KineticStatus : Nat → KineticStatus

/-- What the socket answers to the three writes of one frame: the status
`KineticSocket_Write` returns for the header, `KineticSocket_WriteProtobuf` for the
message, and `KineticSocket_Write` for the value. -/
structure SocketReplies where
  header : KineticStatus
  protobuf : KineticStatus
  value : KineticStatus
  deriving DecidableEq, Repr

/-! ## Network byte order -/

/-- The four bytes of a 32-bit word, most significant first. -/
def bigEndian32 (v : Nat) : List Nat :=
  [v / 16777216 % 256, v / 65536 % 256, v / 256 % 256, v % 256]

/-- The 32-bit word with the bytes of `v` in reverse order. -/
def byteSwap32 (v : Nat) : Nat :=
  (v % 256) * 16777216 + (v / 256 % 256) * 65536 + (v / 65536 % 256) * 256
    + v / 16777216 % 256

/-- Modelled from the spec: `KineticNBO_FromHostU32` is not among the sources.  It takes a
`uint32_t` (the argument is reduced to 32 bits) and returns the word whose bytes in
memory are in network (big-endian) order: the byte-swapped word on a little-endian host,
the word itself on a big-endian one. -/
def KineticNBO_FromHostU32 (env : Env) (v : Nat) : Nat :=
  if env.hostIsLittleEndian then byteSwap32 (v % 4294967296) else v % 4294967296

/-- The bytes a 32-bit word occupies in the host's memory, in address order. -/
def memoryOfU32 (env : Env) (w : Nat) : List Nat :=
  if env.hostIsLittleEndian then (bigEndian32 w).reverse else bigEndian32 w

/-- The nine bytes the packed struct `KineticPDUHeader` occupies in memory: what
`ByteBuffer_Create(&request->headerNBO, sizeof(KineticPDUHeader), ...)` addresses. -/
def memoryOfHeader (env : Env) (h : KineticPDUHeader) : List Nat :=
  (h.versionPrefix % 256) :: (memoryOfU32 env h.protobufLength ++ memoryOfU32 env h.valueLength)

/-- `sizeof(KineticPDUHeader)`: one byte and two 32-bit words, packed. -/
def sizeof_KineticPDUHeader : Nat := 9

/-! ## Deadlines -/

/-- `KineticOperation_GetTimeoutTime`: the deadline, read under the operation's
`timeoutTimeMutex`. -/
def KineticOperation_GetTimeoutTime (operation : KineticOperation) : Timeval × List Event :=
  (operation.timeoutTime,
    [Event.pthread_mutex_lock (Mutex.timeoutTimeMutex operation.addr),
     Event.pthread_mutex_unlock (Mutex.timeoutTimeMutex operation.addr)])

/-- `KineticOperation_SetTimeoutTime`: the deadline becomes the clock reading
`currentTime` (what `gettimeofday` returns inside the call) plus `timeout_in_sec`
seconds, under the operation's `timeoutTimeMutex`.  `timeout_in_sec` is a `uint32_t`. -/
def KineticOperation_SetTimeoutTime (currentTime : Timeval) (operation : KineticOperation)
    (timeout_in_sec : Nat) : KineticOperation × List Event :=
  let timeoutIn : Timeval := { tv_sec := (timeout_in_sec : Int), tv_usec := 0 }
  ({ operation with timeoutTime := Kinetic_TimevalAdd currentTime timeoutIn },
    [Event.pthread_mutex_lock (Mutex.timeoutTimeMutex operation.addr),
     Event.pthread_mutex_unlock (Mutex.timeoutTimeMutex operation.addr)])

/-! ## The sender -/

/-- `WritePDU` (lines 36-78): cork, header, protobuf, value if `valueEnabled` and
`sendValue`, uncork; the first failing write uncorks and returns its status.  The value
is reached through `operation->entry`: with both flags set and no entry the code
dereferences NULL, and the function returns `none`. -/
def WritePDU (env : Env) (sock : SocketReplies) (connection : KineticConnection)
    (operation : KineticOperation) (request : KineticPDU) :
    Option (KineticStatus × List Event) :=
  let socket := connection.socket
  let hdr := ByteBuffer_Create (memoryOfHeader env request.headerNBO)
    sizeof_KineticPDUHeader sizeof_KineticPDUHeader
  let ev1 := [Event.KineticSocket_BeginPacket socket, Event.KineticSocket_Write socket hdr]
  if sock.header ≠ KINETIC_STATUS_SUCCESS then
    some (sock.header, ev1 ++ [Event.KineticSocket_FinishPacket socket])
  else
    let ev2 := ev1 ++ [Event.KineticSocket_WriteProtobuf socket request]
    if sock.protobuf ≠ KINETIC_STATUS_SUCCESS then
      some (sock.protobuf, ev2 ++ [Event.KineticSocket_FinishPacket socket])
    else if operation.valueEnabled && operation.sendValue then
      match operation.entry with
      | none => none
      | some entry =>
        let ev3 := ev2 ++ [Event.KineticSocket_Write socket entry.value]
        if sock.value ≠ KINETIC_STATUS_SUCCESS then
          some (sock.value, ev3 ++ [Event.KineticSocket_FinishPacket socket])
        else
          some (KINETIC_STATUS_SUCCESS, ev3 ++ [Event.KineticSocket_FinishPacket socket])
    else
      some (KINETIC_STATUS_SUCCESS, ev2 ++ [Event.KineticSocket_FinishPacket socket])

/-- Lines 90-105 of `KineticOperation_SendRequest`: the command, if the message has one,
is packed into `commandBytes` (the allocation is taken to succeed). -/
def packCommand (env : Env) (request : KineticPDU) : KineticPDU :=
  if request.protoData.has_command then
    { request with protoData := { request.protoData with
        message := { request.protoData.message with
          commandBytes := env.KineticProto_command__pack request.protoData.command,
          has_commandBytes := true } } }
  else request

/-- The algorithm constant `KINETIC_PROTO_COMMAND_SECURITY_ACL_HMACALGORITHM_HmacSHA1`. -/
def HmacSHA1 : Nat := 1

/-- Modelled from the spec: `KineticHMAC_Init` and `KineticHMAC_Populate` are not among
the sources.  The spec has the HMAC engine compute the SHA-1 HMAC of the serialized
`commandBytes` under the session's shared secret and store it in `hmacAuth.hmac` (here:
in the envelope the message has, if it has one). -/
def KineticHMAC_Populate (env : Env) (hmacKey : List Nat) (request : KineticPDU) : KineticPDU :=
  let mac := env.KineticHMAC_Compute hmacKey request.protoData.message.commandBytes
  { request with
      hmac := { algorithm := HmacSHA1, data := mac },
      protoData := { request.protoData with
        message := { request.protoData.message with
          hmacAuth := request.protoData.message.hmacAuth.map
            (fun h => { h with hmac := mac, has_hmac := true }) } } }

/-- Lines 107-118: the `switch` on the message's `authType`.  Only `HMACAUTH` does
anything. -/
def populateAuth (env : Env) (connection : KineticConnection) (request : KineticPDU) :
    KineticPDU :=
  match request.protoData.message.authType with
  | KINETIC_PROTO_MESSAGE_AUTH_TYPE_HMACAUTH =>
      KineticHMAC_Populate env connection.session.hmacKey request
  | _ => request

/-- The request as it stands at line 120, before the header is configured: `proto` set,
command packed, authentication populated. -/
def preparedRequest (env : Env) (connection : KineticConnection) (request : KineticPDU) :
    KineticPDU :=
  populateAuth env connection (packCommand env { request with protoIsSet := true })

/-- The packed size of the message, `KineticProto_Message__get_packed_size(request->proto)`
as called on line 122 (a `size_t`). -/
def packedProtobufLength (env : Env) (connection : KineticConnection) (request : KineticPDU) :
    Nat :=
  env.KineticProto_Message__get_packed_size
    (preparedRequest env connection request).protoData.message

/-- Lines 141-152 of `KineticOperation_SendRequest`: the network-byte-order copy of the
header, then, under the connection's write mutex, the deadline and `WritePDU`. -/
def sendFrame (env : Env) (sock : SocketReplies) (currentTime : Timeval)
    (connection : KineticConnection) (operation : KineticOperation) (request : KineticPDU) :
    Option (KineticStatus × KineticOperation × List Event) :=
  let request := { request with headerNBO :=
    { versionPrefix := 70,
      protobufLength := KineticNBO_FromHostU32 env request.header.protobufLength,
      valueLength := KineticNBO_FromHostU32 env request.header.valueLength } }
  let operation := { operation with request := some request }
  let (operation, evT) :=
    KineticOperation_SetTimeoutTime currentTime operation env.KINETIC_OPERATION_TIMEOUT_SECS
  match WritePDU env sock connection operation request with
  | none => none
  | some (status, evW) =>
    some (status, operation,
      [Event.pthread_mutex_lock (Mutex.writeMutex connection.addr)] ++ evT ++ evW
        ++ [Event.pthread_mutex_unlock (Mutex.writeMutex connection.addr)])

/-- `KineticOperation_SendRequest` (lines 80-153).  Returns the status, the operation as
the call leaves it, and the events in order; `none` when an `assert` fails or NULL is
dereferenced. -/
def KineticOperation_SendRequest (env : Env) (sock : SocketReplies) (currentTime : Timeval)
    (connection : KineticConnection) (operation : KineticOperation) :
    Option (KineticStatus × KineticOperation × List Event) :=
  match operation.request with
  | none => none
  | some request0 =>
    if operation.connection ≠ some connection.addr then none
    else if request0.connection ≠ operation.connection then none
    else
      let request := preparedRequest env connection request0
      -- Configure PDU header length fields
      let request := { request with header := { request.header with
        versionPrefix := 70,
        protobufLength := uint32_t
          (env.KineticProto_Message__get_packed_size request.protoData.message) } }
      if request.header.protobufLength > env.PDU_PROTO_MAX_LEN then
        some (KINETIC_STATUS_BUFFER_OVERRUN, { operation with request := some request }, [])
      else
        match operation.entry, operation.sendValue with
        | some entry, true =>
          let request := { request with header := { request.header with
            valueLength := uint32_t entry.value.bytesUsed } }
          if request.header.valueLength > env.PDU_PROTO_MAX_LEN then
            some (KINETIC_STATUS_BUFFER_OVERRUN, { operation with request := some request }, [])
          else sendFrame env sock currentTime connection operation request
        | _, _ =>
          let request := { request with header := { request.header with valueLength := 0 } }
          sendFrame env sock currentTime connection operation request

/-! ### Vocabulary for the sender's claims -/

/-- The asserts at the head of `KineticOperation_SendRequest` hold: the operation has
the request `request`, and both point at `connection`. -/
def SendRequestAsserts (connection : KineticConnection) (operation : KineticOperation)
    (request : KineticPDU) : Prop :=
  operation.request = some request ∧ operation.connection = some connection.addr
    ∧ request.connection = some connection.addr

instance (connection : KineticConnection) (operation : KineticOperation)
    (request : KineticPDU) : Decidable (SendRequestAsserts connection operation request) := by
  unfold SendRequestAsserts; infer_instance

/-- The value length the sender means to announce: the entry's `value.bytesUsed` when an
entry is present and `sendValue` is set, and 0 otherwise. -/
def announcedValueLength (operation : KineticOperation) : Nat :=
  match operation.entry, operation.sendValue with
  | some entry, true => entry.value.bytesUsed
  | _, _ => 0

/-- The operation passes the size check of lines 124-137: neither 32-bit header length
exceeds `PDU_PROTO_MAX_LEN`. -/
def PassesSizeCheck (env : Env) (connection : KineticConnection)
    (operation : KineticOperation) (request : KineticPDU) : Prop :=
  uint32_t (packedProtobufLength env connection request) ≤ env.PDU_PROTO_MAX_LEN
    ∧ uint32_t (announcedValueLength operation) ≤ env.PDU_PROTO_MAX_LEN

instance (env : Env) (connection : KineticConnection) (operation : KineticOperation)
    (request : KineticPDU) : Decidable (PassesSizeCheck env connection operation request) := by
  unfold PassesSizeCheck; infer_instance

/-- The socket-level events of a trace: begin/finish packet and the writes. -/
def Event.isTransport : Event → Bool
  | Event.KineticSocket_BeginPacket _ => true
  | Event.KineticSocket_Write _ _ => true
  | Event.KineticSocket_WriteProtobuf _ _ => true
  | Event.KineticSocket_FinishPacket _ => true
  | _ => false

/-- The number of bytes a write event puts on the wire after the protobuf: the
`bytesUsed` of the buffer handed to `KineticSocket_Write`. -/
def Event.bytesWritten : Event → Nat
  | Event.KineticSocket_Write _ buffer => buffer.bytesUsed
  | _ => 0

/-! ## The connection's operation list -/

/-- Modelled from the spec: `KineticAllocator_FreeOperation` is not among the sources.
The spec has completion free the operation, after which it is no longer pending: the
operation at the given address leaves the connection's list. -/
def KineticAllocator_FreeOperation (connection : KineticConnection)
    (operation : KineticOperation) : KineticConnection :=
  { connection with
      operations := connection.operations.filter (fun o => decide (o.addr ≠ operation.addr)) }

/-- Modelled from the spec: `KineticAllocator_GetFirstOperation` is not among the
sources.  The first operation of the connection's list, `none` when the list is empty. -/
def KineticAllocator_GetFirstOperation (connection : KineticConnection) :
    Option KineticOperation :=
  connection.operations.head?

/-- Modelled from the spec: `KineticAllocator_GetNextOperation` is not among the sources.
The spec keeps the pending operations of a session in a list that the sweep and the
lookup scan: the operation that follows, in the connection's list, the operation at the
address of `operation`; `none` (NULL) when that operation is the last of the list or is
not in the list. -/
def KineticAllocator_GetNextOperation (connection : KineticConnection)
    (operation : KineticOperation) : Option KineticOperation :=
  match connection.operations.dropWhile (fun o => decide (o.addr ≠ operation.addr)) with
  | _ :: next :: _ => some next
  | _ => none

/-! ## Completion and the timeout sweep -/

/-- `KineticOperation_Complete` (lines 778-787): nothing when the closure has no
callback; otherwise the callback is called with the status and the client data, and the
operation is freed. -/
def KineticOperation_Complete (connection : KineticConnection) (operation : KineticOperation)
    (status : KineticStatus) : KineticConnection × List Event :=
  match operation.closure.callback with
  | none => (connection, [Event.KineticOperation_Complete operation.addr status])
  | some callback =>
    (KineticAllocator_FreeOperation connection operation,
      [Event.KineticOperation_Complete operation.addr status,
       Event.closure_callback callback status operation.closure.clientData,
       Event.KineticAllocator_FreeOperation connection.addr operation.addr])

/-- The test of lines 802-803: the deadline is not the zero time and the current time is
at or after it. -/
def timedOut (currentTime : Timeval) (operation : KineticOperation) : Bool :=
  !Kinetic_TimevalIsZero (KineticOperation_GetTimeoutTime operation).1
    && decide (Kinetic_TimevalCmp currentTime operation.timeoutTime ≥ 0)

/-- The `for` loop of lines 794-807 from the cursor `operation` on: the body (lines
798-806), then the step `operation = KineticAllocator_GetNextOperation(connection,
operation)`, which asks the allocator for the successor of the operation the body may
just have completed and freed.  The loop of the source has no bound of its own; `fuel`
bounds the number of passes of the embedding (a walk through a list of operations at
pairwise distinct addresses makes at most as many passes as the list has operations). -/
def timeoutLoop (currentTime : Timeval) :
    Nat → Option KineticOperation → KineticConnection → KineticConnection × List Event
  | 0, _, connection => (connection, [])
  | _ + 1, none, connection => (connection, [])
  | fuel + 1, some operation, connection =>
    let evG := (KineticOperation_GetTimeoutTime operation).2
    if timedOut currentTime operation then
      let (connection1, evC) :=
        KineticOperation_Complete connection operation KINETIC_STATUS_OPERATION_TIMEDOUT
      let (connection2, evR) := timeoutLoop currentTime fuel
        (KineticAllocator_GetNextOperation connection1 operation) connection1
      (connection2, evG ++ evC ++ evR)
    else
      let (connection2, evR) := timeoutLoop currentTime fuel
        (KineticAllocator_GetNextOperation connection operation) connection
      (connection2, evG ++ evR)

/-- `KineticOperation_TimeoutOperations` (lines 789-808); `currentTime` is the clock
reading taken on entry.  The walk starts at `KineticAllocator_GetFirstOperation` and is
given one pass for every operation of the list. -/
def KineticOperation_TimeoutOperations (currentTime : Timeval)
    (connection : KineticConnection) : KineticConnection × List Event :=
  timeoutLoop currentTime connection.operations.length
    (KineticAllocator_GetFirstOperation connection) connection

/-! ## Correlating a response with its operation -/

/-- The guard of lines 190-194: the response is usable for correlation. -/
def validResponse (response : Option KineticPDU) : Option (KineticPDU × Int) :=
  match response with
  | none => none
  | some pdu =>
    match pdu.commandTarget with
    | none => none
    | some command =>
      match command.header with
      | none => none
      | some header =>
        if !header.has_ackSequence || decide (pdu.type ≠ KINETIC_PDU_TYPE_RESPONSE) then none
        else some (pdu, header.ackSequence)

/-- The test of lines 208-216: the operation's request is a REQUEST PDU whose command
header carries a sequence equal to `targetSequence`. -/
def carriesSequence (operation : KineticOperation) (targetSequence : Int) : Bool :=
  match operation.request with
  | none => false
  | some request =>
    decide (request.type = KINETIC_PDU_TYPE_REQUEST) &&
      (match request.commandTarget with
       | none => false
       | some command =>
         match command.header with
         | none => false
         | some header => header.has_sequence && decide (header.sequence = targetSequence))

/-- The `while` loop of lines 207-222 over the connection's list: the first operation
that carries the sequence gets the response and is returned, together with the list as
the loop leaves it. -/
def associateLoop (response : KineticPDU) (targetSequence : Int) :
    List KineticOperation → Option KineticOperation × List KineticOperation
  | [] => (none, [])
  | operation :: rest =>
    if carriesSequence operation targetSequence then
      let operation1 := { operation with response := some response }
      (some operation1, operation1 :: rest)
    else
      let (found, rest1) := associateLoop response targetSequence rest
      (found, operation :: rest1)

/-- `KineticOperation_AssociateResponseWithOperation` (lines 188-224).  `connection` is
the connection `response->connection` points at.  Returns the operation found (`none`
for NULL) and the connection as the call leaves it. -/
def KineticOperation_AssociateResponseWithOperation (connection : KineticConnection)
    (response : Option KineticPDU) : Option KineticOperation × KineticConnection :=
  match validResponse response with
  | none => (none, connection)
  | some (pdu, targetSequence) =>
    match KineticAllocator_GetFirstOperation connection with
    | none => (none, connection)
    | some _ =>
      let (found, operations) := associateLoop pdu targetSequence connection.operations
      (found, { connection with operations := operations })

/-! ## Builders -/

/-- `KineticOperation_ValidateOperation` (lines 765-776): the asserts every builder
makes first. -/
def KineticOperation_ValidateOperation (operation : KineticOperation) : Bool :=
  match operation.connection, operation.request with
  | some _, some request =>
    request.connection.isSome && request.protoIsSet && request.protoData.has_command &&
      (match request.commandTarget with
       | none => false
       | some command =>
         match command.header with
         | none => false
         | some header => header.has_sequence)
  | _, _ => false

/-- Modelled from the spec: `KineticSession_IncrementSequence` is not among the sources.
The spec has every builder advance the session's sequence counter by one. -/
def KineticSession_IncrementSequence (session : KineticSession) : KineticSession :=
  { session with sequence := session.sequence + 1 }

/-- The two stores `protoData.message.command.header->messageType = t` and
`->has_messageType = true`; `none` when that header pointer is NULL. -/
def setMessageType (request : KineticPDU) (t : KineticProto_Command_MessageType) :
    Option KineticPDU :=
  match request.protoData.command.header with
  | none => none
  | some header =>
    some { request with protoData := { request.protoData with
      command := { request.protoData.command with
        header := some { header with messageType := t, has_messageType := true } } } }

/-- `KineticOperation_BuildPut` (lines 278-293), on the connection `operation->connection`
points at.  Returns the connection and the operation as the builder leaves them. -/
def KineticOperation_BuildPut (env : Env) (connection : KineticConnection)
    (operation : KineticOperation) (entry : KineticEntry) :
    Option (KineticConnection × KineticOperation) :=
  if !KineticOperation_ValidateOperation operation then none
  else
    let connection :=
      { connection with session := KineticSession_IncrementSequence connection.session }
    match operation.request with
    | none => none
    | some request =>
      match setMessageType request
          KineticProto_Command_MessageType.KINETIC_PROTO_COMMAND_MESSAGE_TYPE_PUT with
      | none => none
      | some request =>
        let operation := { operation with entry := some entry }
        let request := { request with
          protoData := env.KineticMessage_ConfigureKeyValue request.protoData entry }
        some (connection,
          { operation with
              request := some request,
              valueEnabled := !entry.metadataOnly,
              sendValue := true,
              callback := some KineticOperationCallback.KineticOperation_PutCallback })

/-- Modelled from the spec: `KineticConnection_IncrementSequence`, which
`KineticOperation_BuildSetClusterVersion` calls, is not among the sources.  The spec
knows one sequence counter, the session's, and has every builder advance it by one. -/
def KineticConnection_IncrementSequence (connection : KineticConnection) : KineticConnection :=
  { connection with session := KineticSession_IncrementSequence connection.session }

/-- The two stores `request->command->header->messageType = t` and
`->has_messageType = true`, through the pointer `request->command`; `none` when a
pointer on the way is NULL. -/
def setMessageTypeThroughCommand (request : KineticPDU)
    (t : KineticProto_Command_MessageType) : Option KineticPDU :=
  match request.commandTarget with
  | none => none
  | some command =>
    match command.header with
    | none => none
    | some header =>
      request.updateCommand (fun c =>
        { c with header := some { header with messageType := t, has_messageType := true } })

/-- `KineticOperation_BuildNoop` (lines 235-244). -/
def KineticOperation_BuildNoop (connection : KineticConnection)
    (operation : KineticOperation) : Option (KineticConnection × KineticOperation) :=
  if !KineticOperation_ValidateOperation operation then none
  else
    let connection :=
      { connection with session := KineticSession_IncrementSequence connection.session }
    match operation.request with
    | none => none
    | some request =>
      match setMessageType request
          KineticProto_Command_MessageType.KINETIC_PROTO_COMMAND_MESSAGE_TYPE_NOOP with
      | none => none
      | some request =>
        some (connection,
          { operation with
              request := some request,
              valueEnabled := false,
              sendValue := false,
              callback := some KineticOperationCallback.KineticOperation_NoopCallback })

/-- `build_get_command` (lines 318-339), the body of the three GET builders. -/
def build_get_command (env : Env) (connection : KineticConnection)
    (operation : KineticOperation) (entry : KineticEntry) (cb : KineticOperationCallback)
    (command_id : KineticProto_Command_MessageType) :
    Option (KineticConnection × KineticOperation) :=
  if !KineticOperation_ValidateOperation operation then none
  else
    let connection :=
      { connection with session := KineticSession_IncrementSequence connection.session }
    match operation.request with
    | none => none
    | some request =>
      match setMessageType request command_id with
      | none => none
      | some request =>
        let request := { request with
          protoData := env.KineticMessage_ConfigureKeyValue request.protoData entry }
        let entry :=
          if entry.value.array.data.isSome then
            { entry with value := ByteBuffer_Reset entry.value }
          else entry
        some (connection,
          { operation with
              request := some request,
              entry := some entry,
              valueEnabled := !entry.metadataOnly,
              sendValue := false,
              callback := some cb })

/-- `KineticOperation_BuildGet` (lines 346-351). -/
def KineticOperation_BuildGet (env : Env) (connection : KineticConnection)
    (operation : KineticOperation) (entry : KineticEntry) :
    Option (KineticConnection × KineticOperation) :=
  build_get_command env connection operation entry KineticOperationCallback.get_cmd_cb
    KineticProto_Command_MessageType.KINETIC_PROTO_COMMAND_MESSAGE_TYPE_GET

/-- `KineticOperation_BuildGetPrevious` (lines 358-363). -/
def KineticOperation_BuildGetPrevious (env : Env) (connection : KineticConnection)
    (operation : KineticOperation) (entry : KineticEntry) :
    Option (KineticConnection × KineticOperation) :=
  build_get_command env connection operation entry KineticOperationCallback.getprevious_cmd_cb
    KineticProto_Command_MessageType.KINETIC_PROTO_COMMAND_MESSAGE_TYPE_GETPREVIOUS

/-- `KineticOperation_BuildGetNext` (lines 370-375). -/
def KineticOperation_BuildGetNext (env : Env) (connection : KineticConnection)
    (operation : KineticOperation) (entry : KineticEntry) :
    Option (KineticConnection × KineticOperation) :=
  build_get_command env connection operation entry KineticOperationCallback.getnext_cmd_cb
    KineticProto_Command_MessageType.KINETIC_PROTO_COMMAND_MESSAGE_TYPE_GETNEXT

/-- `KineticOperation_BuildFlush` (lines 387-397). -/
def KineticOperation_BuildFlush (connection : KineticConnection)
    (operation : KineticOperation) : Option (KineticConnection × KineticOperation) :=
  if !KineticOperation_ValidateOperation operation then none
  else
    let connection :=
      { connection with session := KineticSession_IncrementSequence connection.session }
    match operation.request with
    | none => none
    | some request =>
      match setMessageType request
          KineticProto_Command_MessageType.KINETIC_PROTO_COMMAND_MESSAGE_TYPE_FLUSHALLDATA with
      | none => none
      | some request =>
        some (connection,
          { operation with
              request := some request,
              valueEnabled := false,
              sendValue := false,
              callback := some KineticOperationCallback.KineticOperation_FlushCallback })

/-- `KineticOperation_BuildDelete` (lines 410-429). -/
def KineticOperation_BuildDelete (env : Env) (connection : KineticConnection)
    (operation : KineticOperation) (entry : KineticEntry) :
    Option (KineticConnection × KineticOperation) :=
  if !KineticOperation_ValidateOperation operation then none
  else
    let connection :=
      { connection with session := KineticSession_IncrementSequence connection.session }
    match operation.request with
    | none => none
    | some request =>
      match setMessageType request
          KineticProto_Command_MessageType.KINETIC_PROTO_COMMAND_MESSAGE_TYPE_DELETE with
      | none => none
      | some request =>
        let request := { request with
          protoData := env.KineticMessage_ConfigureKeyValue request.protoData entry }
        let entry :=
          if entry.value.array.data.isSome then
            { entry with value := ByteBuffer_Reset entry.value }
          else entry
        some (connection,
          { operation with
              request := some request,
              entry := some entry,
              valueEnabled := false,
              sendValue := false,
              callback := some KineticOperationCallback.KineticOperation_DeleteCallback })

/-- `KineticOperation_BuildGetKeyRange` (lines 454-471); `range` and `buffers` are the
objects the two pointers address (the asserts on them hold). -/
def KineticOperation_BuildGetKeyRange (env : Env) (connection : KineticConnection)
    (operation : KineticOperation) (range : KineticKeyRange) (buffers : ByteBufferArray) :
    Option (KineticConnection × KineticOperation) :=
  if !KineticOperation_ValidateOperation operation then none
  else
    let connection :=
      { connection with session := KineticSession_IncrementSequence connection.session }
    match operation.request with
    | none => none
    | some request =>
      match setMessageTypeThroughCommand request
          KineticProto_Command_MessageType.KINETIC_PROTO_COMMAND_MESSAGE_TYPE_GETKEYRANGE with
      | none => none
      | some request =>
        let request := { request with
          protoData := env.KineticMessage_ConfigureKeyRange request.protoData range }
        some (connection,
          { operation with
              request := some request,
              valueEnabled := false,
              sendValue := false,
              buffers := some buffers,
              callback := some KineticOperationCallback.KineticOperation_GetKeyRangeCallback })

/-- `KineticOperation_BuildGetLog` (lines 497-515); `type` is the device-info type and
`info` the address of the caller's out-pointer.  The builder does not store into
`valueEnabled` or `sendValue`. -/
def KineticOperation_BuildGetLog (env : Env) (connection : KineticConnection)
    (operation : KineticOperation) (type : Nat) (info : Nat) :
    Option (KineticConnection × KineticOperation) :=
  if !KineticOperation_ValidateOperation operation then none
  else
    let connection :=
      { connection with session := KineticSession_IncrementSequence connection.session }
    let protoType := env.KineticDeviceInfo_Type_to_KineticProto_Command_GetLog_Type type
    match operation.request with
    | none => none
    | some request =>
      match setMessageTypeThroughCommand request
          KineticProto_Command_MessageType.KINETIC_PROTO_COMMAND_MESSAGE_TYPE_GETLOG with
      | none => none
      | some request =>
        match request.updateCommand (fun c => { c with body := BodyPtr.protoData }) with
        | none => none
        | some request =>
          let getLog : KineticProto_Command_GetLog :=
            { request.protoData.getLog with types := some [protoType], n_types := 1 }
          let request := { request with protoData := { request.protoData with
            body := { request.protoData.body with getLog := some getLog },
            getLog := getLog,
            getLogType := protoType } }
          some (connection,
            { operation with
                request := some request,
                deviceInfo := some info,
                callback := some KineticOperationCallback.KineticOperation_GetLogCallback })

/-! ## The peer-to-peer builder -/

mutual
/-- `build_p2pOp` (lines 548-616).  The result is `none` when an `assert` fails or the
loop reads past the end of `operations`, `some none` when the function returns NULL,
and the protobuf tree otherwise.  Allocations are taken to succeed. -/
def build_p2pOp (nestingLevel : Nat) :
    KineticP2P_Operation → Option (Option KineticProto_Command_P2POperation)
  | KineticP2P_Operation.mk peer numOperations operations =>
    if nestingLevel = 1000 then some none
    else
      match build_p2pOp_operations nestingLevel numOperations operations with
      | none => none
      | some none => some none
      | some (some operation) =>
        some (some (KineticProto_Command_P2POperation.mk
          (some { hostname := peer.hostname, has_port := true, port := peer.port,
                  has_tls := true, tls := peer.tls })
          numOperations operation))
/-- The `for` loop of `build_p2pOp` (lines 576-610) over the `n` operations still to
build. -/
def build_p2pOp_operations (nestingLevel : Nat) :
    Nat → KineticP2P_OperationArray →
      Option (Option KineticProto_Command_P2POperation_OperationArray)
  | 0, _ => some (some KineticProto_Command_P2POperation_OperationArray.nil)
  | _ + 1, KineticP2P_OperationArray.nil => none
  | n + 1, KineticP2P_OperationArray.cons head tail =>
    match build_p2pOp_operation nestingLevel head with
    | none => none
    | some none => some none
    | some (some p2p_op_op) =>
      match build_p2pOp_operations nestingLevel n tail with
      | none => none
      | some none => some none
      | some (some rest) =>
        some (some (KineticProto_Command_P2POperation_OperationArray.cons p2p_op_op rest))
/-- One pass of the loop body (lines 577-609): the protobuf operation for
`p2pOp->operations[i]`. -/
def build_p2pOp_operation (nestingLevel : Nat) :
    KineticP2P_OperationData → Option (Option KineticProto_Command_P2POperation_Operation)
  | KineticP2P_OperationData.mk key version newKey chainedOperation _ =>
    if ByteBuffer_IsNull key then none
    else
      match chainedOperation with
      | KineticP2P_OperationPtr.null =>
        some (some (KineticProto_Command_P2POperation_Operation.mk
          true { data := key.array.data, len := key.bytesUsed }
          (!ByteBuffer_IsNull newKey) { data := newKey.array.data, len := newKey.bytesUsed }
          (!ByteBuffer_IsNull version) { data := version.array.data, len := version.bytesUsed }
          (ByteBuffer_IsNull version) (ByteBuffer_IsNull version)
          KineticProto_Command_P2POperation_Ptr.null none))
      | KineticP2P_OperationPtr.ptr chained =>
        match build_p2pOp (nestingLevel + 1) chained with
        | none => none
        | some none => some none
        | some (some p2pop) =>
          some (some (KineticProto_Command_P2POperation_Operation.mk
            true { data := key.array.data, len := key.bytesUsed }
            (!ByteBuffer_IsNull newKey) { data := newKey.array.data, len := newKey.bytesUsed }
            (!ByteBuffer_IsNull version)
            { data := version.array.data, len := version.bytesUsed }
            (ByteBuffer_IsNull version) (ByteBuffer_IsNull version)
            (KineticProto_Command_P2POperation_Ptr.ptr p2pop) none))
end

/-- `KineticOperation_BuildP2POperation` (lines 667-686); `p2pOp` is the caller's request
tree.  Returns the status with the connection and the operation as the builder leaves
them.  The builder does not store into `valueEnabled` or `sendValue`. -/
def KineticOperation_BuildP2POperation (connection : KineticConnection)
    (operation : KineticOperation) (p2pOp : KineticP2P_Operation) :
    Option (KineticStatus × KineticConnection × KineticOperation) :=
  if !KineticOperation_ValidateOperation operation then none
  else
    let connection :=
      { connection with session := KineticSession_IncrementSequence connection.session }
    match operation.request with
    | none => none
    | some request =>
      match setMessageTypeThroughCommand request
          KineticProto_Command_MessageType.KINETIC_PROTO_COMMAND_MESSAGE_TYPE_PEER2PEERPUSH with
      | none => none
      | some request =>
        match request.updateCommand (fun c => { c with body := BodyPtr.protoData }) with
        | none => none
        | some request =>
          match build_p2pOp 0 p2pOp with
          | none => none
          | some built =>
            let request := { request with protoData := { request.protoData with
              body := { request.protoData.body with p2pOperation := built } } }
            match built with
            | none =>
              some (KINETIC_STATUS_OPERATION_INVALID, connection,
                { operation with request := some request })
            | some _ =>
              some (KINETIC_STATUS_SUCCESS, connection,
                { operation with
                    request := some request,
                    p2pOp := some p2pOp,
                    callback :=
                      some KineticOperationCallback.KineticOperation_P2POperationCallback })

/-- `KineticOperation_BuildInstantSecureErase` (lines 697-735). -/
def KineticOperation_BuildInstantSecureErase (connection : KineticConnection)
    (operation : KineticOperation) : Option (KineticConnection × KineticOperation) :=
  if !KineticOperation_ValidateOperation operation then none
  else
    let connection :=
      { connection with session := KineticSession_IncrementSequence connection.session }
    match operation.request with
    | none => none
    | some request =>
      match setMessageType request
          KineticProto_Command_MessageType.KINETIC_PROTO_COMMAND_MESSAGE_TYPE_SETUP with
      | none => none
      | some request =>
        match request.updateCommand (fun c => { c with body := BodyPtr.protoData }) with
        | none => none
        | some request =>
          if !request.protoIsSet then none
          else
            -- Replace HMAC auth with pin auth
            let message : KineticProto_Message :=
              { request.protoData.message with
                  has_authType := true,
                  authType := KINETIC_PROTO_MESSAGE_AUTH_TYPE_PINAUTH,
                  hmacAuth := none,
                  pinAuth := some { request.protoData.pinAuth with pin := [], has_pin := true } }
            let pinOp : KineticProto_Command_PinOperation :=
              { request.protoData.pinOp with
                  pinOpType := KineticProto_Command_PinOperation_PinOpType.KINETIC_PROTO_COMMAND_PIN_OPERATION_PIN_OP_TYPE_SECURE_ERASE_PINOP,
                  has_pinOpType := true }
            let request := { request with protoData := { request.protoData with
              message := message,
              pinAuth := { request.protoData.pinAuth with pin := [], has_pin := true },
              pinOp := pinOp,
              body := { request.protoData.body with pinOp := some pinOp } } }
            some (connection,
              { operation with
                  request := some request,
                  valueEnabled := false,
                  sendValue := false,
                  callback :=
                    some KineticOperationCallback.KineticOperation_InstantSecureEraseCallback })

/-- `KineticOperation_BuildSetClusterVersion` (lines 748-763).  The stores into
`command->body->setup` come before `command->body` is pointed at the PDU's own body: with
`body` or `setup` NULL on entry the builder dereferences NULL. -/
def KineticOperation_BuildSetClusterVersion (connection : KineticConnection)
    (operation : KineticOperation) (newClusterVersion : Int) :
    Option (KineticConnection × KineticOperation) :=
  if !KineticOperation_ValidateOperation operation then none
  else
    let connection := KineticConnection_IncrementSequence connection
    match operation.request with
    | none => none
    | some request =>
      match setMessageType request
          KineticProto_Command_MessageType.KINETIC_PROTO_COMMAND_MESSAGE_TYPE_SETUP with
      | none => none
      | some request =>
        match request.bodyTarget with
        | none => none
        | some body =>
          match body.setup with
          | none => none
          | some setup =>
            let setup : KineticProto_Command_Setup :=
              { setup with newClusterVersion := newClusterVersion,
                           has_newClusterVersion := true }
            match request.updateBody (fun b => { b with setup := some setup }) with
            | none => none
            | some request =>
              match request.updateCommand (fun c => { c with body := BodyPtr.protoData }) with
              | none => none
              | some request =>
                some (connection,
                  { operation with
                      request := some request,
                      valueEnabled := false,
                      sendValue := false,
                      callback :=
                        some KineticOperationCallback.KineticOperation_SetClusterVersionCallback })

/-! ## Completion thunks -/

/-- `KineticOperation_PutCallback` (lines 246-276).  Returns the status and the operation
with the caller's entry as the thunk leaves it; `none` when an `assert` fails. -/
def KineticOperation_PutCallback (operation : KineticOperation) (status : KineticStatus) :
    Option (KineticStatus × KineticOperation) :=
  match operation.connection, operation.response, operation.entry with
  | some _, some _, some entry =>
    if status = KINETIC_STATUS_SUCCESS then
      if entry.newVersion.array.data.isSome && decide (entry.newVersion.array.len > 0) then
        if entry.dbVersion.array.data.isSome && decide (entry.dbVersion.array.len > 0) then
          let dbVersion := ByteBuffer_Reset entry.dbVersion
          let dbVersion := ByteBuffer_Append dbVersion (entry.newVersion.array.data.getD [])
            entry.newVersion.bytesUsed
          let newVersion := ByteBuffer_Reset entry.newVersion
          some (status, { operation with
            entry := some { entry with dbVersion := dbVersion, newVersion := newVersion } })
        else
          some (status, { operation with
            entry := some { entry with dbVersion := entry.newVersion,
                                       newVersion := BYTE_BUFFER_NONE } })
      else some (status, operation)
    else some (status, operation)
  | _, _, _ => none

/-- `KineticOperation_NoopCallback` (lines 226-233). -/
def KineticOperation_NoopCallback (operation : KineticOperation) (status : KineticStatus) :
    Option (KineticStatus × KineticOperation) :=
  match operation.connection with
  | none => none
  | some _ => some (status, operation)

/-- `get_cb` (lines 295-316), the body of the three GET thunks; `cmd_name` is only
logged. -/
def get_cb (env : Env) (cmd_name : String) (operation : KineticOperation)
    (status : KineticStatus) : Option (KineticStatus × KineticOperation) :=
  let _ := cmd_name
  match operation.connection, operation.response, operation.entry with
  | some _, some response, some entry =>
    if status = KINETIC_STATUS_SUCCESS then
      -- Update the entry upon success
      match env.KineticPDU_GetKeyValue response with
      | none => some (status, operation)
      | some keyValue =>
        let copied := env.Copy_KineticProto_Command_KeyValue_to_KineticEntry keyValue entry
        if !copied.1 then
          some (KINETIC_STATUS_BUFFER_OVERRUN, { operation with entry := some copied.2 })
        else some (status, { operation with entry := some copied.2 })
    else some (status, operation)
  | _, _, _ => none

/-- `get_cmd_cb` (lines 341-344). -/
def get_cmd_cb (env : Env) (operation : KineticOperation) (status : KineticStatus) :
    Option (KineticStatus × KineticOperation) :=
  get_cb env "GET" operation status

/-- `getprevious_cmd_cb` (lines 353-356). -/
def getprevious_cmd_cb (env : Env) (operation : KineticOperation) (status : KineticStatus) :
    Option (KineticStatus × KineticOperation) :=
  get_cb env "GETPREVIOUS" operation status

/-- `getnext_cmd_cb` (lines 365-368). -/
def getnext_cmd_cb (env : Env) (operation : KineticOperation) (status : KineticStatus) :
    Option (KineticStatus × KineticOperation) :=
  get_cb env "GETNEXT" operation status

/-- `KineticOperation_FlushCallback` (lines 377-385). -/
def KineticOperation_FlushCallback (operation : KineticOperation) (status : KineticStatus) :
    Option (KineticStatus × KineticOperation) :=
  match operation.connection with
  | none => none
  | some _ => some (status, operation)

/-- `KineticOperation_DeleteCallback` (lines 399-408). -/
def KineticOperation_DeleteCallback (operation : KineticOperation) (status : KineticStatus) :
    Option (KineticStatus × KineticOperation) :=
  match operation.connection, operation.response, operation.entry with
  | some _, some _, some _ => some (status, operation)
  | _, _, _ => none

/-- `KineticOperation_GetKeyRangeCallback` (lines 431-452). -/
def KineticOperation_GetKeyRangeCallback (env : Env) (operation : KineticOperation)
    (status : KineticStatus) : Option (KineticStatus × KineticOperation) :=
  match operation.connection, operation.response, operation.buffers with
  | some _, some response, some buffers =>
    if !decide (buffers.count > 0) then none
    else if status = KINETIC_STATUS_SUCCESS then
      -- Report the key list upon success
      match env.KineticPDU_GetKeyRange response with
      | none => some (status, operation)
      | some keyRange =>
        let copied := env.Copy_KineticProto_Command_Range_to_ByteBufferArray keyRange buffers
        if !copied.1 then
          some (KINETIC_STATUS_BUFFER_OVERRUN, { operation with buffers := some copied.2 })
        else some (status, { operation with buffers := some copied.2 })
    else some (status, operation)
  | _, _, _ => none

/-- `KineticOperation_GetLogCallback` (lines 473-495).  The `assert` of line 481 reads
`operation->response->command->body->getLog`: a NULL pointer on the way is a NULL
dereference.  On success the new device-info structure is stored through
`operation->deviceInfo`. -/
def KineticOperation_GetLogCallback (env : Env) (operation : KineticOperation)
    (status : KineticStatus) : Option (KineticStatus × KineticOperation) :=
  match operation.connection, operation.deviceInfo, operation.response with
  | some _, some _, some response =>
    match response.bodyTarget with
    | none => none
    | some body =>
      if body.getLog.isNone then none
      else if status = KINETIC_STATUS_SUCCESS then
        -- Copy the data from the response protobuf into a new info struct
        match body.getLog with
        | none => some (KINETIC_STATUS_OPERATION_FAILED, operation)
        | some getLog =>
          some (KINETIC_STATUS_SUCCESS,
            { operation with deviceInfoTarget := some (env.KineticDeviceInfo_Create getLog) })
      else some (status, operation)
  | _, _, _ => none

/-! ### The peer-to-peer thunk -/

/-- The element `operations[i]` of a request's array, `none` past its end. -/
def KineticP2P_OperationArray.get? :
    KineticP2P_OperationArray → Nat → Option KineticP2P_OperationData
  | KineticP2P_OperationArray.nil, _ => none
  | KineticP2P_OperationArray.cons head _, 0 => some head
  | KineticP2P_OperationArray.cons _ tail, i + 1 => tail.get? i

/-- The element `operation[i]` of a reply's array, `none` past its end. -/
def KineticProto_Command_P2POperation_OperationArray.get? :
    KineticProto_Command_P2POperation_OperationArray → Nat →
      Option KineticProto_Command_P2POperation_Operation
  | KineticProto_Command_P2POperation_OperationArray.nil, _ => none
  | KineticProto_Command_P2POperation_OperationArray.cons head _, 0 => some head
  | KineticProto_Command_P2POperation_OperationArray.cons _ tail, i + 1 => tail.get? i

mutual
/-- `populateP2PStatusCodes` (lines 618-645): the request tree as the walk leaves it,
`none` when the loop reads past the end of an array. -/
def populateP2PStatusCodes (env : Env) :
    KineticP2P_Operation → KineticProto_Command_P2POperation_Ptr → Option KineticP2P_Operation
  | KineticP2P_Operation.mk peer numOperations operations, p2pOperation =>
    match p2pOperation with
    | KineticProto_Command_P2POperation_Ptr.null =>
      some (KineticP2P_Operation.mk peer numOperations operations)
    | KineticProto_Command_P2POperation_Ptr.ptr
        (KineticProto_Command_P2POperation.mk _ n_operation operation) =>
      match populateP2PStatusCodes_operations env 0 numOperations operations
          n_operation operation with
      | none => none
      | some operations1 => some (KineticP2P_Operation.mk peer numOperations operations1)
/-- The `for` loop of `populateP2PStatusCodes` (lines 621-644) from index `i` on, over the
`n` operations still to visit; `operations` is the rest of the array from `i` on. -/
def populateP2PStatusCodes_operations (env : Env) (i : Nat) :
    Nat → KineticP2P_OperationArray → Nat → KineticProto_Command_P2POperation_OperationArray →
      Option KineticP2P_OperationArray
  | 0, operations, _, _ => some operations
  | _ + 1, KineticP2P_OperationArray.nil, _, _ => none
  | n + 1, KineticP2P_OperationArray.cons head tail, n_operation, operation =>
    match populateP2PStatusCodes_operation env i head n_operation operation with
    | none => none
    | some head1 =>
      match populateP2PStatusCodes_operations env (i + 1) n tail n_operation operation with
      | none => none
      | some tail1 => some (KineticP2P_OperationArray.cons head1 tail1)
/-- One pass of the loop body (lines 623-643) for `p2pOp->operations[i]`. -/
def populateP2PStatusCodes_operation (env : Env) (i : Nat) :
    KineticP2P_OperationData → Nat → KineticProto_Command_P2POperation_OperationArray →
      Option KineticP2P_OperationData
  | KineticP2P_OperationData.mk key version newKey chainedOperation _, n_operation, operation =>
    if i < n_operation then
      match operation.get? i with
      | none => none
      | some (KineticProto_Command_P2POperation_Operation.mk _ _ _ _ _ _ _ _ p2pop status) =>
        let resultStatus :=
          match status with
          | some status =>
            if status.has_code then env.KineticProtoStatusCode_to_KineticStatus status.code
            else KINETIC_STATUS_INVALID
          | none => KINETIC_STATUS_INVALID
        match chainedOperation, p2pop with
        | KineticP2P_OperationPtr.ptr chained, KineticProto_Command_P2POperation_Ptr.ptr reply =>
          match populateP2PStatusCodes env chained
              (KineticProto_Command_P2POperation_Ptr.ptr reply) with
          | none => none
          | some chained1 =>
            some (KineticP2P_OperationData.mk key version newKey
              (KineticP2P_OperationPtr.ptr chained1) resultStatus)
        | _, _ =>
          some (KineticP2P_OperationData.mk key version newKey chainedOperation resultStatus)
    else
      some (KineticP2P_OperationData.mk key version newKey chainedOperation
        KINETIC_STATUS_INVALID)
end

/-- `KineticOperation_P2POperationCallback` (lines 648-665).  On success, with a reply
that carries a P2P operation, the status codes are walked into the caller's request tree
(`operation->p2pOp`, dereferenced by the walk).  `destroy_p2pOp` then releases the
protobuf tree of the request, read through `operation->request->command->body`; the
pointer in the body is left as it is and nothing reads it afterwards, so the embedding
leaves the request as it is. -/
def KineticOperation_P2POperationCallback (env : Env) (operation : KineticOperation)
    (status : KineticStatus) : Option (KineticStatus × KineticOperation) :=
  let populated : Option (Option KineticP2P_Operation) :=
    if status = KINETIC_STATUS_SUCCESS then
      match operation.response with
      | none => some operation.p2pOp
      | some response =>
        match response.bodyTarget with
        | none => some operation.p2pOp
        | some body =>
          match body.p2pOperation with
          | none => some operation.p2pOp
          | some p2pOperation =>
            match operation.p2pOp with
            | none => none
            | some p2pOp =>
              (populateP2PStatusCodes env p2pOp
                (KineticProto_Command_P2POperation_Ptr.ptr p2pOperation)).map some
    else some operation.p2pOp
  match populated with
  | none => none
  | some p2pOp1 =>
    match operation.request with
    | none => none
    | some request =>
      match request.bodyTarget with
      | none => none
      | some _ => some (status, { operation with p2pOp := p2pOp1 })

/-- `KineticOperation_InstantSecureEraseCallback` (lines 688-695). -/
def KineticOperation_InstantSecureEraseCallback (operation : KineticOperation)
    (status : KineticStatus) : Option (KineticStatus × KineticOperation) :=
  match operation.connection with
  | none => none
  | some _ => some (status, operation)

/-- `KineticOperation_SetClusterVersionCallback` (lines 737-746): the status is cast to
`void` and `KINETIC_STATUS_SUCCESS` is returned. -/
def KineticOperation_SetClusterVersionCallback (operation : KineticOperation)
    (status : KineticStatus) : Option (KineticStatus × KineticOperation) :=
  match operation.connection with
  | none => none
  | some _ =>
    let _ := status
    some (KINETIC_STATUS_SUCCESS, operation)

/-- The call `operation->callback(operation, status)` of a thunk a builder installed. -/
def callOperationCallback (env : Env) (callback : KineticOperationCallback)
    (operation : KineticOperation) (status : KineticStatus) :
    Option (KineticStatus × KineticOperation) :=
  match callback with
  | KineticOperationCallback.KineticOperation_NoopCallback =>
    KineticOperation_NoopCallback operation status
  | KineticOperationCallback.KineticOperation_PutCallback =>
    KineticOperation_PutCallback operation status
  | KineticOperationCallback.get_cmd_cb => get_cmd_cb env operation status
  | KineticOperationCallback.getprevious_cmd_cb => getprevious_cmd_cb env operation status
  | KineticOperationCallback.getnext_cmd_cb => getnext_cmd_cb env operation status
  | KineticOperationCallback.KineticOperation_FlushCallback =>
    KineticOperation_FlushCallback operation status
  | KineticOperationCallback.KineticOperation_DeleteCallback =>
    KineticOperation_DeleteCallback operation status
  | KineticOperationCallback.KineticOperation_GetKeyRangeCallback =>
    KineticOperation_GetKeyRangeCallback env operation status
  | KineticOperationCallback.KineticOperation_GetLogCallback =>
    KineticOperation_GetLogCallback env operation status
  | KineticOperationCallback.KineticOperation_P2POperationCallback =>
    KineticOperation_P2POperationCallback env operation status
  | KineticOperationCallback.KineticOperation_InstantSecureEraseCallback =>
    KineticOperation_InstantSecureEraseCallback operation status
  | KineticOperationCallback.KineticOperation_SetClusterVersionCallback =>
    KineticOperation_SetClusterVersionCallback operation status

/-! ## Measures on a trace -/

/-- The number of value bytes a trace puts on the wire after the protobuf message: the
bytes of every `KineticSocket_Write` that follows `KineticSocket_WriteProtobuf`. -/
def valueBytesWritten : List Event → Nat
  | [] => 0
  | Event.KineticSocket_WriteProtobuf _ _ :: rest => (rest.map Event.bytesWritten).sum
  | _ :: rest => valueBytesWritten rest

/-- The 32-bit integer four bytes spell, most significant first. -/
def fromBigEndian32 : List Nat → Nat
  | [b3, b2, b1, b0] => b3 * 16777216 + b2 * 65536 + b1 * 256 + b0
  | _ => 0

/-- The value length a nine-byte frame header announces: bytes 5 to 8, big-endian. -/
def headerValueLength (header : List Nat) : Nat :=
  fromBigEndian32 (header.drop 5)

/-! ## The sender's results, named -/

/-- The request as `KineticOperation_SendRequest` leaves it when the size check passes:
prepared, with both header copies filled in. -/
def sentRequest (env : Env) (connection : KineticConnection) (operation : KineticOperation)
    (request : KineticPDU) : KineticPDU :=
  let prepared := preparedRequest env connection request
  let header : KineticPDUHeader :=
    { versionPrefix := 70,
      protobufLength := uint32_t (packedProtobufLength env connection request),
      valueLength := uint32_t (announcedValueLength operation) }
  { prepared with
      header := header,
      headerNBO :=
        { versionPrefix := 70,
          protobufLength := KineticNBO_FromHostU32 env header.protobufLength,
          valueLength := KineticNBO_FromHostU32 env header.valueLength } }

/-- The operation as `KineticOperation_SendRequest` leaves it when the size check
passes: the request updated and the deadline set from the clock reading. -/
def sentOperation (env : Env) (currentTime : Timeval) (connection : KineticConnection)
    (operation : KineticOperation) (request : KineticPDU) : KineticOperation :=
  { operation with
      request := some (sentRequest env connection operation request),
      timeoutTime := Kinetic_TimevalAdd currentTime
        { tv_sec := (env.KINETIC_OPERATION_TIMEOUT_SECS : Int), tv_usec := 0 } }

/-- The nine header bytes of the frame: `'F'`, then both lengths, 32 bits each, most
significant byte first. -/
def frameHeaderBytes (env : Env) (connection : KineticConnection)
    (operation : KineticOperation) (request : KineticPDU) : List Nat :=
  70 :: (bigEndian32 (packedProtobufLength env connection request)
    ++ bigEndian32 (announcedValueLength operation))

/-- With both flags set the value is reached through `operation->entry`, which must not
be NULL for `WritePDU` to have defined behaviour. -/
def ValueReachable (operation : KineticOperation) : Prop :=
  operation.valueEnabled = true → operation.sendValue = true → operation.entry ≠ none

/-- The value write of the frame: the entry's value buffer when `valueEnabled` and
`sendValue` are both set, nothing otherwise. -/
def valueWrites (connection : KineticConnection) (operation : KineticOperation) : List Event :=
  if operation.valueEnabled && operation.sendValue then
    match operation.entry with
    | some entry => [Event.KineticSocket_Write connection.socket entry.value]
    | none => []
  else []

/-- The events that run completion code: the entry into `KineticOperation_Complete`, the
user's closure callback and the operation's completion thunk. -/
def Event.isCallback : Event → Bool
  | Event.KineticOperation_Complete _ _ => true
  | Event.closure_callback _ _ _ => true
  | Event.operation_callback _ _ => true
  | _ => false

/-- The operation's deadline has expired at `currentTime`: the deadline is not the zero
time, and the current time is at or after it. -/
def Expired (currentTime : Timeval) (operation : KineticOperation) : Prop :=
  operation.timeoutTime ≠ { tv_sec := 0, tv_usec := 0 } ∧
    (operation.timeoutTime.tv_sec < currentTime.tv_sec ∨
      (operation.timeoutTime.tv_sec = currentTime.tv_sec ∧
        operation.timeoutTime.tv_usec ≤ currentTime.tv_usec))

instance (currentTime : Timeval) (operation : KineticOperation) :
    Decidable (Expired currentTime operation) := by
  unfold Expired; infer_instance

/-! ## Vocabulary for the correlation -/

/-- The operation matches the sequence `q`, in the words of the specification: its
request is there and is a REQUEST PDU, and the header of the request's command is there,
has `has_sequence` set and carries the sequence `q`. -/
def MatchesSequence (operation : KineticOperation) (q : Int) : Prop :=
  ∃ request command header,
    operation.request = some request ∧ request.type = KINETIC_PDU_TYPE_REQUEST
      ∧ request.commandTarget = some command ∧ command.header = some header
      ∧ header.has_sequence = true ∧ header.sequence = q

/-! ## Vocabulary for the builders' claims -/

/-- The request with message type `t` stored in the header `header` of its own command
and marked present. -/
def withMessageType (request : KineticPDU) (header : KineticProto_Command_Header)
    (t : KineticProto_Command_MessageType) : KineticPDU :=
  { request with protoData := { request.protoData with
      command := { request.protoData.command with
        header := some { header with messageType := t, has_messageType := true } } } }

/-- The command header `request->command->header` addresses, `none` when a pointer on
the way is NULL. -/
def KineticPDU.headerTarget (pdu : KineticPDU) : Option KineticProto_Command_Header :=
  match pdu.commandTarget with
  | none => none
  | some command => command.header

/-- The operation is ready for a builder: the asserts of
`KineticOperation_ValidateOperation` hold for it and its request `request`, whose
`command` pointer addresses the PDU's own command. -/
def ReadyToBuild (operation : KineticOperation) (request : KineticPDU) : Prop :=
  KineticOperation_ValidateOperation operation = true ∧ operation.request = some request
    ∧ request.command = CommandPtr.protoData

instance (operation : KineticOperation) (request : KineticPDU) :
    Decidable (ReadyToBuild operation request) := by
  unfold ReadyToBuild; infer_instance

/-- The two opaque helpers that fill in the message for a key or a key range leave the
command's header pointer and the header it addresses as they are. -/
def KeepsCommandHeader (env : Env) : Prop :=
  (∀ m entry, (env.KineticMessage_ConfigureKeyValue m entry).command.header = m.command.header)
    ∧ (∀ m range,
        (env.KineticMessage_ConfigureKeyRange m range).command.header = m.command.header)

/-- The builder returned, and the command header of the request it leaves carries message
type `t`, marked present. -/
def BuiltWithMessageType (result : Option (KineticConnection × KineticOperation))
    (t : KineticProto_Command_MessageType) : Prop :=
  ∃ connection operation request header,
    result = some (connection, operation) ∧ operation.request = some request
      ∧ request.headerTarget = some header
      ∧ header.messageType = t ∧ header.has_messageType = true

/-- The builder returned with the value-transfer flags `valueEnabled` and `sendValue` as
given. -/
def BuiltWithFlags (result : Option (KineticConnection × KineticOperation))
    (valueEnabled sendValue : Bool) : Prop :=
  ∃ connection operation,
    result = some (connection, operation) ∧ operation.valueEnabled = valueEnabled
      ∧ operation.sendValue = sendValue

/-- A concrete environment: the limit is one mebibyte, the timeout twenty seconds, the
host little-endian; a packed command has two bytes and the message four more.  A reply
carries no key-value and no key range, every copy fits, and the protocol status code 1
is success. -/
def exampleEnv : Env :=
  { PDU_PROTO_MAX_LEN := 1048576,
    KINETIC_OPERATION_TIMEOUT_SECS := 20,
    hostIsLittleEndian := true,
    KineticProto_command__pack := fun _ => [8, 1],
    KineticProto_Message__get_packed_size := fun m => m.commandBytes.length + 4,
    KineticHMAC_Compute := fun _ _ => [171],
    KineticMessage_ConfigureKeyValue := fun m _ => m,
    KineticMessage_ConfigureKeyRange := fun m _ => m,
    KineticDeviceInfo_Type_to_KineticProto_Command_GetLog_Type := fun t => t,
    KineticPDU_GetKeyValue := fun _ => none,
    Copy_KineticProto_Command_KeyValue_to_KineticEntry := fun _ entry => (true, entry),
    KineticPDU_GetKeyRange := fun _ => none,
    Copy_KineticProto_Command_Range_to_ByteBufferArray := fun _ buffers => (true, buffers),
    KineticDeviceInfo_Create := fun _ => 8080,
    KineticProtoStatusCode_to_KineticStatus := fun code =>
      if code = 1 then KINETIC_STATUS_SUCCESS else KINETIC_STATUS_OTHER code }

/-- A socket on which every write succeeds. -/
def okSocket : SocketReplies :=
  { header := KINETIC_STATUS_SUCCESS, protobuf := KINETIC_STATUS_SUCCESS,
    value := KINETIC_STATUS_SUCCESS }

/-- A connection at address 1 with socket descriptor 7 and no pending operations. -/
def exampleConnection : KineticConnection :=
  { addr := 1, socket := 7, session := { hmacKey := [1, 2, 3], sequence := 4 } }

/-- A request PDU of connection 1, initialised as a builder expects it: command present,
header with sequence 5, HMAC authentication. -/
def exampleRequest : KineticPDU :=
  { type := KINETIC_PDU_TYPE_REQUEST,
    connection := some 1,
    protoIsSet := true,
    command := CommandPtr.protoData,
    protoData :=
      { has_command := true,
        command := { header := some { has_sequence := true, sequence := 5 } },
        message :=
          { has_authType := true,
            authType := KINETIC_PROTO_MESSAGE_AUTH_TYPE_HMACAUTH,
            hmacAuth := some { has_identity := true, identity := 1 } } } }

/-- A fresh operation at address 100 on connection 1, with a user callback. -/
def exampleOperation : KineticOperation :=
  { addr := 100, connection := some 1, request := some exampleRequest,
    closure := { callback := some 4096, clientData := 9 } }

/-- A clock reading. -/
def exampleTime : Timeval := { tv_sec := 1000, tv_usec := 250 }

/-- The example operation with `KineticOperation_SetTimeoutTime(op, 0)` called at the
example clock reading. -/
def zeroTimeoutOperation : KineticOperation :=
  (KineticOperation_SetTimeoutTime exampleTime exampleOperation 0).1

/-- A second operation, at address 200, with request sequence 6 and a deadline at second
2000. -/
def laterOperation : KineticOperation :=
  { addr := 200, connection := some 1,
    request := some { exampleRequest with
      protoData := { exampleRequest.protoData with
        command := { header := some { has_sequence := true, sequence := 6 } } } },
    closure := { callback := some 8192, clientData := 10 },
    timeoutTime := { tv_sec := 2000, tv_usec := 0 } }

/-- The example operation with a deadline at second 1020, as the sender leaves it. -/
def sentExampleOperation : KineticOperation :=
  { exampleOperation with timeoutTime := { tv_sec := 1020, tv_usec := 250 } }

/-- The example connection with two pending operations. -/
def busyConnection : KineticConnection :=
  { exampleConnection with operations := [sentExampleOperation, laterOperation] }

/-- A response PDU acknowledging sequence 5. -/
def exampleResponse : KineticPDU :=
  { type := KINETIC_PDU_TYPE_RESPONSE,
    connection := some 1,
    command := CommandPtr.unpacked
      { header := some { has_ackSequence := true, ackSequence := 5 } } }

/-- A response PDU acknowledging sequence 6, the sequence of the second pending
operation. -/
def laterResponse : KineticPDU :=
  { type := KINETIC_PDU_TYPE_RESPONSE,
    connection := some 1,
    command := CommandPtr.unpacked
      { header := some { has_ackSequence := true, ackSequence := 6 } } }

/-- A pending operation at address 300 whose request PDU has the type RESPONSE; its
header has `has_sequence` set and the sequence 6. -/
def responseTypedOperation : KineticOperation :=
  { addr := 300, connection := some 1,
    request := some { exampleRequest with
      type := KINETIC_PDU_TYPE_RESPONSE,
      protoData := { exampleRequest.protoData with
        command := { header := some { has_sequence := true, sequence := 6 } } } },
    closure := { callback := some 12288, clientData := 11 } }

/-- A pending operation at address 400 whose request is a REQUEST PDU with
`has_sequence` clear; the sequence field of its header holds 6. -/
def unsequencedOperation : KineticOperation :=
  { addr := 400, connection := some 1,
    request := some { exampleRequest with
      protoData := { exampleRequest.protoData with
        command := { header := some { has_sequence := false, sequence := 6 } } } },
    closure := { callback := some 16384, clientData := 12 } }

/-- The example connection with four pending operations: sequence 5, the two operations
that hold the number 6 without matching it, and the operation with sequence 6. -/
def decoyConnection : KineticConnection :=
  { exampleConnection with
      operations :=
        [sentExampleOperation, responseTypedOperation, unsequencedOperation, laterOperation] }

/-- A response PDU acknowledging sequence 7, which no pending operation carries. -/
def strayResponse : KineticPDU :=
  { type := KINETIC_PDU_TYPE_RESPONSE,
    connection := some 1,
    command := CommandPtr.unpacked
      { header := some { has_ackSequence := true, ackSequence := 7 } } }

/-- An entry with the five-byte value `hello` in an eight-byte buffer. -/
def helloEntry : KineticEntry :=
  { key := { array := { data := some [75, 49], len := 2 }, bytesUsed := 2 },
    value := { array := { data := some [104, 101, 108, 108, 111, 0, 0, 0], len := 8 },
               bytesUsed := 5 } }

/-- The same entry with `metadataOnly` set. -/
def metadataOnlyEntry : KineticEntry := { helloEntry with metadataOnly := true }

/-- An entry whose value buffer has four gibibytes in use (`2^32` bytes, a valid
`size_t` on a 64-bit host). -/
def fourGiBEntry : KineticEntry :=
  { helloEntry with value := { array := { data := some (List.replicate 4294967296 0),
                                          len := 4294967296 },
                               bytesUsed := 4294967296 } }

/-- The hello entry's operation as a PUT builder leaves its value flags: entry attached,
`valueEnabled` and `sendValue` set. -/
def helloPutOperation : KineticOperation :=
  { exampleOperation with entry := some helloEntry, valueEnabled := true, sendValue := true }

/-- Build a PUT for `entry` on the example operation and send it on a socket that
accepts every write: `KineticOperation_BuildPut` followed by
`KineticOperation_SendRequest`. -/
def buildPutAndSend (entry : KineticEntry) :
    Option (KineticStatus × KineticOperation × List Event) :=
  (KineticOperation_BuildPut exampleEnv exampleConnection exampleOperation entry).bind
    (fun built =>
      KineticOperation_SendRequest exampleEnv okSocket exampleTime built.1 built.2)

/-- A P2P request with one operation (key `K`) and no chained operation. -/
def simpleP2P : KineticP2P_Operation :=
  KineticP2P_Operation.mk { hostname := "peer", port := 8123, tls := false } 1
    (KineticP2P_OperationArray.cons
      (KineticP2P_OperationData.mk
        { array := { data := some [75], len := 1 }, bytesUsed := 1 } {} {}
        KineticP2P_OperationPtr.null KINETIC_STATUS_INVALID)
      KineticP2P_OperationArray.nil)

/-- A P2P request whose single operation chains to a request of the same shape, `n`
times over: its deepest request sits at nesting level `n`. -/
def p2pChain : Nat → KineticP2P_Operation
  | 0 => simpleP2P
  | n + 1 =>
    KineticP2P_Operation.mk { hostname := "peer", port := 8123, tls := false } 1
      (KineticP2P_OperationArray.cons
        (KineticP2P_OperationData.mk
          { array := { data := some [75], len := 1 }, bytesUsed := 1 } {} {}
          (KineticP2P_OperationPtr.ptr (p2pChain n)) KINETIC_STATUS_INVALID)
        KineticP2P_OperationArray.nil)

/-- The example operation with both value-transfer flags set when the builder is called. -/
def flaggedOperation : KineticOperation :=
  { exampleOperation with valueEnabled := true, sendValue := true }

/-- An entry with the three-byte newVersion `v10` and an allocated dbVersion buffer of
`capacity` bytes that holds the two bytes `v9`. -/
def versionedEntry (capacity : Nat) : KineticEntry :=
  { helloEntry with
      newVersion := { array := { data := some [118, 49, 48], len := 3 }, bytesUsed := 3 },
      dbVersion := { array := { data := some ([118, 57] ++ List.replicate (capacity - 2) 0),
                                len := capacity },
                     bytesUsed := 2 } }

/-- A PUT operation for `versionedEntry capacity` whose response has arrived. -/
def answeredPut (capacity : Nat) : KineticOperation :=
  { exampleOperation with
      entry := some (versionedEntry capacity),
      response := some exampleResponse,
      valueEnabled := true, sendValue := true,
      callback := some KineticOperationCallback.KineticOperation_PutCallback }

/-- A socket whose value write fails with a status other than success. -/
def valueFailSocket : SocketReplies :=
  { header := KINETIC_STATUS_SUCCESS, protobuf := KINETIC_STATUS_SUCCESS,
    value := KINETIC_STATUS_OTHER 9 }

/-- An entry whose newVersion buffer is allocated (three bytes of capacity) and holds no
bytes, and whose dbVersion has no buffer. -/
def emptyNewVersionEntry : KineticEntry :=
  { helloEntry with
      newVersion := { array := { data := some [0, 0, 0], len := 3 }, bytesUsed := 0 } }

/-- The same entry with an allocated dbVersion buffer that holds the two bytes `v9`. -/
def storedVersionEntry : KineticEntry :=
  { emptyNewVersionEntry with
      dbVersion := { array := { data := some [118, 57, 0, 0], len := 4 }, bytesUsed := 2 } }

/-- A PUT operation for `entry` whose response has arrived. -/
def answeredPutOf (entry : KineticEntry) : KineticOperation :=
  { exampleOperation with
      entry := some entry,
      response := some exampleResponse,
      valueEnabled := true, sendValue := true,
      callback := some KineticOperationCallback.KineticOperation_PutCallback }

/-! ## The listener's table of pending messages (`src/lib/bus/listener_internal.h`) -/

/-- Conversion of an integer to the C type `uint8_t`. -/
def uint8_t (v : Nat) : Nat := v % 256

/-- `MAX_PENDING_MESSAGES`: the number of slots of the table (line 50). -/
def MAX_PENDING_MESSAGES : Nat := 1024

/-- The C `rx_info_t` (lines 34-41), the record of one slot.  `id` is declared
`const uint8_t`; `next` is the index of the next free slot (`none` for NULL), `box` the
address of the boxed message. -/
structure rx_info_t where
  id : Nat := 0
  next : Option Nat := none
  active : Bool := false
  timeout_sec : Int := 0
  error : Nat := 0
  box : Option Nat := none
  deriving DecidableEq, Repr

/-- The fields of the C `listener` (lines 57-66) that make up the table of pending
messages: the array `rx_info`, the freelist and the two counters. -/
structure listener where
  rx_info : List rx_info_t := []
  info_available : Int := 0
  rx_info_freelist : Option Nat := none
  rx_info_in_use : Nat := 0
  deriving DecidableEq, Repr

/-- The listener holds values of its C types: the array `rx_info` has
`MAX_PENDING_MESSAGES` elements, and the `id` of every slot is a `uint8_t` value. -/
def listener.WellTyped (l : listener) : Prop :=
  l.rx_info.length = MAX_PENDING_MESSAGES ∧ ∀ info, info ∈ l.rx_info → info.id = uint8_t info.id

instance (l : listener) : Decidable l.WellTyped := by
  unfold listener.WellTyped; infer_instance

/-- A table whose slot `i` was given the id `i`, stored through the `uint8_t` field. -/
def numberedListener : listener :=
  { rx_info := (List.range MAX_PENDING_MESSAGES).map (fun i => { id := uint8_t i }),
    rx_info_freelist := some 0 }

/-- What a thunk asserts and dereferences on entry when it is called with a status other
than success (the `assert`s of each thunk; the GETLOG thunk reads
`response->command->body->getLog`, the P2P thunk `request->command->body`). -/
def callbackAsserts (callback : KineticOperationCallback) (operation : KineticOperation) :
    Bool :=
  match callback with
  | KineticOperationCallback.KineticOperation_NoopCallback
  | KineticOperationCallback.KineticOperation_FlushCallback
  | KineticOperationCallback.KineticOperation_InstantSecureEraseCallback
  | KineticOperationCallback.KineticOperation_SetClusterVersionCallback =>
    operation.connection.isSome
  | KineticOperationCallback.KineticOperation_PutCallback
  | KineticOperationCallback.get_cmd_cb
  | KineticOperationCallback.getprevious_cmd_cb
  | KineticOperationCallback.getnext_cmd_cb
  | KineticOperationCallback.KineticOperation_DeleteCallback =>
    operation.connection.isSome && operation.response.isSome && operation.entry.isSome
  | KineticOperationCallback.KineticOperation_GetKeyRangeCallback =>
    operation.connection.isSome && operation.response.isSome &&
      (match operation.buffers with
       | none => false
       | some buffers => decide (buffers.count > 0))
  | KineticOperationCallback.KineticOperation_GetLogCallback =>
    operation.connection.isSome && operation.deviceInfo.isSome &&
      (match operation.response with
       | none => false
       | some response =>
         match response.bodyTarget with
         | none => false
         | some body => body.getLog.isSome)
  | KineticOperationCallback.KineticOperation_P2POperationCallback =>
    (match operation.request with
     | none => false
     | some request => request.bodyTarget.isSome)

/-- The example request with `command->body` pointing at the PDU's own body and the
body's `setup` present, as `KineticOperation_BuildSetClusterVersion` dereferences
them. -/
def setupRequest : KineticPDU :=
  { exampleRequest with protoData := { exampleRequest.protoData with
      command := { exampleRequest.protoData.command with body := BodyPtr.protoData },
      body := { setup := some {} } } }

/-- The example operation with that request. -/
def setupOperation : KineticOperation :=
  { exampleOperation with request := some setupRequest }

/-! ## Vocabulary for the peer-to-peer claims -/

mutual
/-- The deepest nesting level a chain of `chainedOperation` links reaches below a
request, over the `numOperations` operations the builder visits: 0 for a request none of
whose operations is chained. -/
def nestingDepth : KineticP2P_Operation → Nat
  | KineticP2P_Operation.mk _ numOperations operations =>
    nestingDepth_operations numOperations operations
/-- The deepest level below the first `n` operations of an array. -/
def nestingDepth_operations : Nat → KineticP2P_OperationArray → Nat
  | 0, _ => 0
  | _ + 1, KineticP2P_OperationArray.nil => 0
  | n + 1, KineticP2P_OperationArray.cons head tail =>
    max (nestingDepth_operation head) (nestingDepth_operations n tail)
/-- The deepest level below one operation: one more than its chained request's. -/
def nestingDepth_operation : KineticP2P_OperationData → Nat
  | KineticP2P_OperationData.mk _ _ _ chainedOperation _ =>
    match chainedOperation with
    | KineticP2P_OperationPtr.null => 0
    | KineticP2P_OperationPtr.ptr chained => nestingDepth chained + 1
end

mutual
/-- The request tree meets the `assert` of line 577 and holds the operations it
announces: at every request of the tree the array has `numOperations` elements, and the
key of each of them is not null. -/
def keysPresent : KineticP2P_Operation → Bool
  | KineticP2P_Operation.mk _ numOperations operations =>
    keysPresent_operations numOperations operations
/-- The first `n` operations of an array are there, with their keys. -/
def keysPresent_operations : Nat → KineticP2P_OperationArray → Bool
  | 0, _ => true
  | _ + 1, KineticP2P_OperationArray.nil => false
  | n + 1, KineticP2P_OperationArray.cons head tail =>
    keysPresent_operation head && keysPresent_operations n tail
/-- The key of one operation is not null, and its chained request has its keys. -/
def keysPresent_operation : KineticP2P_OperationData → Bool
  | KineticP2P_OperationData.mk key _ _ chainedOperation _ =>
    !ByteBuffer_IsNull key &&
      (match chainedOperation with
       | KineticP2P_OperationPtr.null => true
       | KineticP2P_OperationPtr.ptr chained => keysPresent chained)
end

mutual
/-- The protobuf tree mirrors the request, in the words of the specification: at every
node `n_operation` equals `numOperations` and the peer's hostname, port and tls are
copied, and the operations mirror each other one by one. -/
def mirrors : KineticP2P_Operation → KineticProto_Command_P2POperation → Bool
  | KineticP2P_Operation.mk peer numOperations operations,
      KineticProto_Command_P2POperation.mk proto_peer n_operation operation =>
    decide (n_operation = numOperations)
      && (match proto_peer with
          | none => false
          | some proto_peer =>
            decide (proto_peer.hostname = peer.hostname) && decide (proto_peer.port = peer.port)
              && decide (proto_peer.tls = peer.tls))
      && mirrors_operations numOperations operations operation
/-- The protobuf array has exactly `n` operations, and each mirrors the request's. -/
def mirrors_operations : Nat → KineticP2P_OperationArray →
    KineticProto_Command_P2POperation_OperationArray → Bool
  | 0, _, KineticProto_Command_P2POperation_OperationArray.nil => true
  | 0, _, KineticProto_Command_P2POperation_OperationArray.cons _ _ => false
  | _ + 1, KineticP2P_OperationArray.nil, _ => false
  | _ + 1, KineticP2P_OperationArray.cons _ _,
      KineticProto_Command_P2POperation_OperationArray.nil => false
  | n + 1, KineticP2P_OperationArray.cons head tail,
      KineticProto_Command_P2POperation_OperationArray.cons proto_head proto_tail =>
    mirrors_operation head proto_head && mirrors_operations n tail proto_tail
/-- One protobuf operation mirrors one operation of the request: the key, newKey and
version bytes are copied (pointer and bytes in use), `has_newKey` and `has_version` are
true exactly when the buffer is not null, `force` and `has_force` are true exactly when
no version was given, and a nested `p2pop` is present exactly when `chainedOperation` is,
mirroring it in turn. -/
def mirrors_operation : KineticP2P_OperationData →
    KineticProto_Command_P2POperation_Operation → Bool
  | KineticP2P_OperationData.mk key version newKey chainedOperation _,
      KineticProto_Command_P2POperation_Operation.mk _ proto_key has_newKey proto_newKey
        has_version proto_version has_force force p2pop _ =>
    decide (proto_key = { data := key.array.data, len := key.bytesUsed })
      && decide (proto_newKey = { data := newKey.array.data, len := newKey.bytesUsed })
      && decide (proto_version = { data := version.array.data, len := version.bytesUsed })
      && decide (has_newKey = !ByteBuffer_IsNull newKey)
      && decide (has_version = !ByteBuffer_IsNull version)
      && decide (force = ByteBuffer_IsNull version)
      && decide (has_force = ByteBuffer_IsNull version)
      && (match chainedOperation, p2pop with
          | KineticP2P_OperationPtr.null, KineticProto_Command_P2POperation_Ptr.null => true
          | KineticP2P_OperationPtr.ptr chained,
              KineticProto_Command_P2POperation_Ptr.ptr nested => mirrors chained nested
          | _, _ => false)
end

/-! ## Vocabulary for the peer-to-peer thunk -/

mutual
/-- The request tree holds the operations it announces: at every request of the tree the
array `operations` has `numOperations` elements. -/
def operationsInBounds : KineticP2P_Operation → Bool
  | KineticP2P_Operation.mk _ numOperations operations =>
    operationsInBounds_operations numOperations operations
/-- The first `n` operations of an array are there. -/
def operationsInBounds_operations : Nat → KineticP2P_OperationArray → Bool
  | 0, _ => true
  | _ + 1, KineticP2P_OperationArray.nil => false
  | n + 1, KineticP2P_OperationArray.cons head tail =>
    operationsInBounds_operation head && operationsInBounds_operations n tail
/-- The chained request of one operation holds the operations it announces. -/
def operationsInBounds_operation : KineticP2P_OperationData → Bool
  | KineticP2P_OperationData.mk _ _ _ chainedOperation _ =>
    match chainedOperation with
    | KineticP2P_OperationPtr.null => true
    | KineticP2P_OperationPtr.ptr chained => operationsInBounds chained
end

mutual
/-- The reply tree holds the operations it announces: at every node the array `operation`
has `n_operation` elements (as the protocol-buffer decoder leaves it). -/
def replyInBounds : KineticProto_Command_P2POperation → Bool
  | KineticProto_Command_P2POperation.mk _ n_operation operation =>
    replyInBounds_operations n_operation operation
/-- The first `n` operations of a reply's array are there. -/
def replyInBounds_operations : Nat → KineticProto_Command_P2POperation_OperationArray → Bool
  | 0, _ => true
  | _ + 1, KineticProto_Command_P2POperation_OperationArray.nil => false
  | n + 1, KineticProto_Command_P2POperation_OperationArray.cons head tail =>
    replyInBounds_operation head && replyInBounds_operations n tail
/-- The nested reply of one operation holds the operations it announces. -/
def replyInBounds_operation : KineticProto_Command_P2POperation_Operation → Bool
  | KineticProto_Command_P2POperation_Operation.mk _ _ _ _ _ _ _ _ p2pop _ =>
    match p2pop with
    | KineticProto_Command_P2POperation_Ptr.null => true
    | KineticProto_Command_P2POperation_Ptr.ptr nested => replyInBounds nested
end

/-- The result status the specification gives request operation `i` against a reply with
`n_operation` operations: the local status mapped from the reply's code when `i` is below
the reply's count and reply operation `i` has a status with `has_code`, and
`KINETIC_STATUS_INVALID` otherwise. -/
def expectedResultStatus (env : Env) (n_operation : Nat)
    (operation : KineticProto_Command_P2POperation_OperationArray) (i : Nat) : KineticStatus :=
  if i < n_operation then
    match operation.get? i with
    | some (KineticProto_Command_P2POperation_Operation.mk _ _ _ _ _ _ _ _ _ (some status)) =>
      if status.has_code then env.KineticProtoStatusCode_to_KineticStatus status.code
      else KINETIC_STATUS_INVALID
    | _ => KINETIC_STATUS_INVALID
  else KINETIC_STATUS_INVALID

/-- The nested `p2pop` of reply operation `i`: NULL when `i` is at or beyond the reply's
count. -/
def replyChain (n_operation : Nat)
    (operation : KineticProto_Command_P2POperation_OperationArray) (i : Nat) :
    KineticProto_Command_P2POperation_Ptr :=
  if i < n_operation then
    match operation.get? i with
    | some (KineticProto_Command_P2POperation_Operation.mk _ _ _ _ _ _ _ _ p2pop _) => p2pop
    | none => KineticProto_Command_P2POperation_Ptr.null
  else KineticProto_Command_P2POperation_Ptr.null

/-- What the walk leaves of request operation `i` of a visited node, in the words of the
specification.  `operation` is the request operation before the walk and `operation1`
after it: key, version and newKey are as before, the result status is the expected one,
and the chained request is the walked chained request exactly when the request operation
has a chained request and reply operation `i` has a nested `p2pop`; otherwise the chained
request is as before. -/
def WalkedOperation (env : Env) (n_operation : Nat)
    (reply : KineticProto_Command_P2POperation_OperationArray) (i : Nat)
    (operation operation1 : KineticP2P_OperationData) : Prop :=
  ∃ key version newKey chainedOperation resultStatus chainedOperation1,
    operation = KineticP2P_OperationData.mk key version newKey chainedOperation resultStatus
    ∧ operation1 = KineticP2P_OperationData.mk key version newKey chainedOperation1
        (expectedResultStatus env n_operation reply i)
    ∧ (∀ chained nested, chainedOperation = KineticP2P_OperationPtr.ptr chained →
        replyChain n_operation reply i = KineticProto_Command_P2POperation_Ptr.ptr nested →
        ∃ chained1,
          populateP2PStatusCodes env chained
              (KineticProto_Command_P2POperation_Ptr.ptr nested) = some chained1
          ∧ chainedOperation1 = KineticP2P_OperationPtr.ptr chained1)
    ∧ (chainedOperation = KineticP2P_OperationPtr.null
          ∨ replyChain n_operation reply i = KineticProto_Command_P2POperation_Ptr.null →
        chainedOperation1 = chainedOperation)

/-- What the walk leaves of a visited node: the peer and the count are as before, and
every operation at an index below `numOperations` is walked. -/
def WalkedNode (env : Env) (node : KineticP2P_Operation)
    (reply : KineticProto_Command_P2POperation) (node1 : KineticP2P_Operation) : Prop :=
  match node, reply, node1 with
  | KineticP2P_Operation.mk peer numOperations operations,
      KineticProto_Command_P2POperation.mk _ n_operation operation,
      KineticP2P_Operation.mk peer1 numOperations1 operations1 =>
    peer1 = peer ∧ numOperations1 = numOperations
      ∧ ∀ i, i < numOperations →
        ∃ requestOperation requestOperation1,
          operations.get? i = some requestOperation
          ∧ operations1.get? i = some requestOperation1
          ∧ WalkedOperation env n_operation operation i requestOperation requestOperation1

/-- A reply to the chain of two nested requests: the outer operation succeeded (code 1),
the nested one failed with code 9. -/
def p2pReply : KineticProto_Command_P2POperation :=
  KineticProto_Command_P2POperation.mk none 1
    (KineticProto_Command_P2POperation_OperationArray.cons
      (KineticProto_Command_P2POperation_Operation.mk true {} false {} false {} false false
        (KineticProto_Command_P2POperation_Ptr.ptr
          (KineticProto_Command_P2POperation.mk none 1
            (KineticProto_Command_P2POperation_OperationArray.cons
              (KineticProto_Command_P2POperation_Operation.mk true {} false {} false {} false
                false KineticProto_Command_P2POperation_Ptr.null
                (some { has_code := true, code := 9 }))
              KineticProto_Command_P2POperation_OperationArray.nil)))
        (some { has_code := true, code := 1 }))
      KineticProto_Command_P2POperation_OperationArray.nil)

/-- A response PDU acknowledging sequence 5 whose body carries `p2pReply`. -/
def p2pResponse : KineticPDU :=
  { type := KINETIC_PDU_TYPE_RESPONSE,
    connection := some 1,
    command := CommandPtr.unpacked
      { header := some { has_ackSequence := true, ackSequence := 5 },
        body := BodyPtr.unpacked { p2pOperation := some p2pReply } } }

/-- The example operation after `KineticOperation_BuildP2POperation` for the chain of two
nested requests, with the response attached. -/
def answeredP2P : KineticOperation :=
  match KineticOperation_BuildP2POperation exampleConnection exampleOperation (p2pChain 1) with
  | some (_, _, operation) => { operation with response := some p2pResponse }
  | none => exampleOperation

/-- The chain of two nested requests with the status codes of `p2pReply` walked in. -/
def walkedChain : KineticP2P_Operation :=
  KineticP2P_Operation.mk { hostname := "peer", port := 8123, tls := false } 1
    (KineticP2P_OperationArray.cons
      (KineticP2P_OperationData.mk
        { array := { data := some [75], len := 1 }, bytesUsed := 1 } {} {}
        (KineticP2P_OperationPtr.ptr
          (KineticP2P_Operation.mk { hostname := "peer", port := 8123, tls := false } 1
            (KineticP2P_OperationArray.cons
              (KineticP2P_OperationData.mk
                { array := { data := some [75], len := 1 }, bytesUsed := 1 } {} {}
                KineticP2P_OperationPtr.null (KINETIC_STATUS_OTHER 9))
              KineticP2P_OperationArray.nil)))
        KINETIC_STATUS_SUCCESS)
      KineticP2P_OperationArray.nil)

/-! ## Operations built one after another -/

/-- The sequence number an operation carries: the sequence of its request's command
header, when `has_sequence` is set. -/
def KineticOperation.sequence (operation : KineticOperation) : Option Int :=
  match operation.request with
  | none => none
  | some request =>
    match request.headerTarget with
    | none => none
    | some header => if header.has_sequence then some header.sequence else none

theorem bigEndian32_uint32_t (v : Nat) : bigEndian32 (uint32_t v) = bigEndian32 v := by
  simp only [bigEndian32, uint32_t]
  refine congrArg₂ List.cons (by omega) (congrArg₂ List.cons (by omega)
    (congrArg₂ List.cons (by omega) (congrArg₂ List.cons (by omega) rfl)))

theorem bigEndian32_of_bytes (b3 b2 b1 b0 : Nat) (h3 : b3 < 256) (h2 : b2 < 256)
    (h1 : b1 < 256) (h0 : b0 < 256) :
    bigEndian32 (b3 * 16777216 + b2 * 65536 + b1 * 256 + b0) = [b3, b2, b1, b0] := by
  simp only [bigEndian32]
  refine congrArg₂ List.cons (by omega) (congrArg₂ List.cons (by omega)
    (congrArg₂ List.cons (by omega) (congrArg₂ List.cons (by omega) rfl)))

theorem bigEndian32_byteSwap32_reverse (w : Nat) :
    (bigEndian32 (byteSwap32 w)).reverse = bigEndian32 w := by
  unfold byteSwap32
  rw [bigEndian32_of_bytes _ _ _ _ (Nat.mod_lt _ (by norm_num)) (Nat.mod_lt _ (by norm_num))
    (Nat.mod_lt _ (by norm_num)) (Nat.mod_lt _ (by norm_num))]
  simp [bigEndian32]

/-- On either host, the memory image of `KineticNBO_FromHostU32 v` is `v` in big-endian
order. -/
theorem memoryOfU32_FromHostU32 (env : Env) (v : Nat) :
    memoryOfU32 env (KineticNBO_FromHostU32 env v) = bigEndian32 v := by
  unfold memoryOfU32 KineticNBO_FromHostU32
  have hmod : bigEndian32 (v % 4294967296) = bigEndian32 v := bigEndian32_uint32_t v
  cases env.hostIsLittleEndian with
  | true => simp only [if_true]; rw [bigEndian32_byteSwap32_reverse, hmod]
  | false => simpa using hmod

theorem fromBigEndian32_bigEndian32 (v : Nat) :
    fromBigEndian32 (bigEndian32 v) = uint32_t v := by
  simp only [fromBigEndian32, bigEndian32, uint32_t]
  omega

/-! ## The sender, step by step -/

/-- The events of the sender around `WritePDU`, given the events `evW` of `WritePDU`. -/
theorem sendFrame_eq (env : Env) (sock : SocketReplies) (currentTime : Timeval)
    (connection : KineticConnection) (operation : KineticOperation) (request : KineticPDU)
    (hA : SendRequestAsserts connection operation request)
    (hP : PassesSizeCheck env connection operation request) :
    KineticOperation_SendRequest env sock currentTime connection operation =
      (WritePDU env sock connection
          (sentOperation env currentTime connection operation request)
          (sentRequest env connection operation request)).map
        (fun r => (r.1, sentOperation env currentTime connection operation request,
          [Event.pthread_mutex_lock (Mutex.writeMutex connection.addr),
           Event.pthread_mutex_lock (Mutex.timeoutTimeMutex operation.addr),
           Event.pthread_mutex_unlock (Mutex.timeoutTimeMutex operation.addr)] ++ r.2
            ++ [Event.pthread_mutex_unlock (Mutex.writeMutex connection.addr)])) := by
  obtain ⟨hr, hc, hrc⟩ := hA
  obtain ⟨hL, hV⟩ := hP
  unfold KineticOperation_SendRequest
  simp only [hr, hc, hrc, ne_eq, not_true_eq_false, if_false]
  have hL' : ¬ uint32_t (env.KineticProto_Message__get_packed_size
      (preparedRequest env connection request).protoData.message) > env.PDU_PROTO_MAX_LEN := by
    simpa [packedProtobufLength] using hL
  simp only [hL', if_false]
  unfold announcedValueLength at hV
  unfold sentOperation sentRequest announcedValueLength packedProtobufLength sendFrame
    KineticOperation_SetTimeoutTime
  split
  · next entry he hs =>
    simp only [he, hs] at hV
    have hV' : ¬ uint32_t entry.value.bytesUsed > env.PDU_PROTO_MAX_LEN := by omega
    simp only [hV', if_false, he, hs]
    cases WritePDU env sock connection _ _ <;> rfl
  · next hne =>
    have h0 : (match operation.entry, operation.sendValue with
        | some entry, true => entry.value.bytesUsed
        | _, _ => 0) = 0 := by
      split
      · next entry he hs => exact absurd hs (by intro hs; exact hne entry he hs)
      · rfl
    simp only [h0, show uint32_t 0 = 0 from rfl]
    cases WritePDU env sock connection _ _ <;> rfl

/-- The header copy in network byte order occupies, on either host, the nine bytes
`'F'`, protobuf length, value length, the lengths big-endian. -/
theorem memoryOfHeader_sentRequest (env : Env) (connection : KineticConnection)
    (operation : KineticOperation) (request : KineticPDU) :
    memoryOfHeader env (sentRequest env connection operation request).headerNBO =
      frameHeaderBytes env connection operation request := by
  simp only [memoryOfHeader, sentRequest, frameHeaderBytes, memoryOfU32_FromHostU32,
    bigEndian32_uint32_t]

/-- With the value reachable `WritePDU` returns. -/
theorem writePDU_isSome (env : Env) (sock : SocketReplies) (connection : KineticConnection)
    (operation : KineticOperation) (request : KineticPDU) (hV : ValueReachable operation) :
    ∃ status events, WritePDU env sock connection operation request = some (status, events) := by
  unfold WritePDU
  by_cases hh : sock.header = KINETIC_STATUS_SUCCESS
  · by_cases hp : sock.protobuf = KINETIC_STATUS_SUCCESS
    · by_cases hf : (operation.valueEnabled && operation.sendValue) = true
      · have hf' := hf
        simp only [Bool.and_eq_true] at hf'
        cases he : operation.entry with
        | none => exact absurd he (hV hf'.1 hf'.2)
        | some entry =>
          by_cases hv : sock.value = KINETIC_STATUS_SUCCESS
          · simp [hh, hp, hf, hv]
          · simp [hh, hp, hf, hv]
      · simp [hh, hp, hf]
    · simp [hh, hp]
  · simp [hh]

theorem valueReachable_sentOperation (env : Env) (currentTime : Timeval)
    (connection : KineticConnection) (operation : KineticOperation) (request : KineticPDU)
    (hV : ValueReachable operation) :
    ValueReachable (sentOperation env currentTime connection operation request) := hV

/-- The size check on lengths the 32-bit header fields can hold: with the asserts
satisfied, a packed protobuf length or an announced value length below `2^32` that
exceeds `PDU_PROTO_MAX_LEN` is rejected with `KINETIC_STATUS_BUFFER_OVERRUN` before any
mutex is taken or anything is handed to the socket. -/
theorem sendRequest_rejects_over_limit (env : Env) (sock : SocketReplies)
    (currentTime : Timeval) (connection : KineticConnection) (operation : KineticOperation)
    (request : KineticPDU)
    (hA : SendRequestAsserts connection operation request)
    (hL : packedProtobufLength env connection request < 4294967296)
    (hV : announcedValueLength operation < 4294967296)
    (hover : packedProtobufLength env connection request > env.PDU_PROTO_MAX_LEN
      ∨ announcedValueLength operation > env.PDU_PROTO_MAX_LEN) :
    ∃ operation1, KineticOperation_SendRequest env sock currentTime connection operation =
      some (KINETIC_STATUS_BUFFER_OVERRUN, operation1, []) := by
  obtain ⟨hr, hc, hrc⟩ := hA
  unfold KineticOperation_SendRequest
  simp only [hr, hc, hrc, ne_eq, not_true_eq_false, if_false]
  have e1 : uint32_t (packedProtobufLength env connection request)
      = packedProtobufLength env connection request := Nat.mod_eq_of_lt hL
  unfold packedProtobufLength at e1 hover
  rw [e1]
  by_cases h1 : env.KineticProto_Message__get_packed_size
      (preparedRequest env connection request).protoData.message > env.PDU_PROTO_MAX_LEN
  · rw [if_pos h1]; exact ⟨_, rfl⟩
  · have h2 : announcedValueLength operation > env.PDU_PROTO_MAX_LEN := by
      rcases hover with h | h
      · exact absurd h h1
      · exact h
    rw [if_neg h1]
    unfold announcedValueLength at h2 hV
    split
    · next entry he hs =>
      simp only [he, hs] at h2 hV
      have e2 : uint32_t entry.value.bytesUsed = entry.value.bytesUsed := Nat.mod_eq_of_lt hV
      rw [e2, if_pos h2]; exact ⟨_, rfl⟩
    · next hne =>
      have h0 : (match operation.entry, operation.sendValue with
          | some entry, true => entry.value.bytesUsed
          | _, _ => 0) = 0 := by
        split
        · next entry he hs => exact absurd hs (by intro hs; exact hne entry he hs)
        · rfl
      rw [h0] at h2
      exact absurd h2 (by omega)

/-! ## Claims about the sender -/

/-- C2: for every operation that passes the size check, the first thing the sender hands to
the socket after corking is a nine-byte buffer: `0x46`, the packed protobuf length as a
big-endian 32-bit integer, then the value length as a big-endian 32-bit integer, where
the value length is the entry's `value.bytesUsed` when an entry is present and
`sendValue` is set and 0 otherwise.  The four-byte fields spell the lengths as 32-bit
integers (the lengths themselves when they are below `2^32`). -/
theorem sendRequest_header_bytes (env : Env) (sock : SocketReplies) (currentTime : Timeval)
    (connection : KineticConnection) (operation : KineticOperation) (request : KineticPDU)
    (hA : SendRequestAsserts connection operation request)
    (hP : PassesSizeCheck env connection operation request)
    (hV : ValueReachable operation) :
    (∃ status rest,
      KineticOperation_SendRequest env sock currentTime connection operation =
        some (status, sentOperation env currentTime connection operation request,
          Event.pthread_mutex_lock (Mutex.writeMutex connection.addr) ::
          Event.pthread_mutex_lock (Mutex.timeoutTimeMutex operation.addr) ::
          Event.pthread_mutex_unlock (Mutex.timeoutTimeMutex operation.addr) ::
          Event.KineticSocket_BeginPacket connection.socket ::
          Event.KineticSocket_Write connection.socket
            (ByteBuffer_Create
              (70 :: (bigEndian32 (packedProtobufLength env connection request)
                ++ bigEndian32 (announcedValueLength operation))) 9 9) :: rest))
    ∧ (70 :: (bigEndian32 (packedProtobufLength env connection request)
          ++ bigEndian32 (announcedValueLength operation))).length = 9
    ∧ fromBigEndian32 (bigEndian32 (packedProtobufLength env connection request))
        = uint32_t (packedProtobufLength env connection request)
    ∧ fromBigEndian32 (bigEndian32 (announcedValueLength operation))
        = uint32_t (announcedValueLength operation)
    ∧ (∀ entry, operation.entry = some entry → operation.sendValue = true →
        announcedValueLength operation = entry.value.bytesUsed)
    ∧ (operation.entry = none ∨ operation.sendValue = false →
        bigEndian32 (announcedValueLength operation) = [0, 0, 0, 0]) := by
  refine ⟨?_, by simp [bigEndian32], fromBigEndian32_bigEndian32 _,
    fromBigEndian32_bigEndian32 _, ?_, ?_⟩
  · rw [sendFrame_eq env sock currentTime connection operation request hA hP]
    obtain ⟨status, events, hW⟩ := writePDU_isSome env sock connection
      (sentOperation env currentTime connection operation request)
      (sentRequest env connection operation request)
      (valueReachable_sentOperation env currentTime connection operation request hV)
    have hW' := hW
    unfold WritePDU at hW'
    rw [memoryOfHeader_sentRequest] at hW'
    simp only [frameHeaderBytes, sizeof_KineticPDUHeader] at hW'
    rw [hW]
    refine ⟨status, events.drop 2 ++
      [Event.pthread_mutex_unlock (Mutex.writeMutex connection.addr)], ?_⟩
    simp only [Option.map_some', List.cons_append, List.nil_append]
    split at hW'
    · simp only [Option.some.injEq, Prod.mk.injEq] at hW'
      rw [← hW'.2]; rfl
    · split at hW'
      · simp only [Option.some.injEq, Prod.mk.injEq] at hW'
        rw [← hW'.2]; rfl
      · split at hW'
        · split at hW'
          · exact absurd hW' (by simp)
          · split at hW'
            · simp only [Option.some.injEq, Prod.mk.injEq] at hW'
              rw [← hW'.2]; rfl
            · simp only [Option.some.injEq, Prod.mk.injEq] at hW'
              rw [← hW'.2]; rfl
        · simp only [Option.some.injEq, Prod.mk.injEq] at hW'
          rw [← hW'.2]; rfl
  · intro entry he hs
    simp [announcedValueLength, he, hs]
  · intro h
    have h0 : announcedValueLength operation = 0 := by
      unfold announcedValueLength
      rcases h with h | h
      · simp [h]
      · rw [h]; cases operation.entry <;> rfl
    rw [h0]; rfl

/-- C4: for every operation that passes the size check and whose socket writes all succeed,
the sender's events are exactly: lock the connection's write mutex, set the deadline,
begin packet, write header, write protobuf, write the entry's value exactly when
`valueEnabled` and `sendValue` are both set, finish packet, unlock the write mutex; and
the result is `KINETIC_STATUS_SUCCESS`. -/
theorem sendRequest_success_trace (env : Env) (sock : SocketReplies) (currentTime : Timeval)
    (connection : KineticConnection) (operation : KineticOperation) (request : KineticPDU)
    (hA : SendRequestAsserts connection operation request)
    (hP : PassesSizeCheck env connection operation request)
    (hV : ValueReachable operation)
    (hh : sock.header = KINETIC_STATUS_SUCCESS)
    (hp : sock.protobuf = KINETIC_STATUS_SUCCESS)
    (hv : operation.valueEnabled = true → operation.sendValue = true →
      sock.value = KINETIC_STATUS_SUCCESS) :
    KineticOperation_SendRequest env sock currentTime connection operation =
      some (KINETIC_STATUS_SUCCESS, sentOperation env currentTime connection operation request,
        [Event.pthread_mutex_lock (Mutex.writeMutex connection.addr),
         Event.pthread_mutex_lock (Mutex.timeoutTimeMutex operation.addr),
         Event.pthread_mutex_unlock (Mutex.timeoutTimeMutex operation.addr),
         Event.KineticSocket_BeginPacket connection.socket,
         Event.KineticSocket_Write connection.socket
           (ByteBuffer_Create (frameHeaderBytes env connection operation request) 9 9),
         Event.KineticSocket_WriteProtobuf connection.socket
           (sentRequest env connection operation request)]
        ++ valueWrites connection operation
        ++ [Event.KineticSocket_FinishPacket connection.socket,
            Event.pthread_mutex_unlock (Mutex.writeMutex connection.addr)])
    ∧ (operation.valueEnabled = true ∧ operation.sendValue = true →
        ∃ entry, operation.entry = some entry ∧
          valueWrites connection operation =
            [Event.KineticSocket_Write connection.socket entry.value])
    ∧ (¬ (operation.valueEnabled = true ∧ operation.sendValue = true) →
        valueWrites connection operation = []) := by
  refine ⟨?_, ?_, ?_⟩
  · rw [sendFrame_eq env sock currentTime connection operation request hA hP]
    unfold WritePDU
    rw [memoryOfHeader_sentRequest]
    simp only [hh, hp, ne_eq, not_true_eq_false, if_false, sizeof_KineticPDUHeader]
    unfold valueWrites
    by_cases hf : (operation.valueEnabled && operation.sendValue) = true
    · have hf' := hf
      simp only [Bool.and_eq_true] at hf'
      cases he : operation.entry with
      | none => exact absurd he (hV hf'.1 hf'.2)
      | some entry =>
        have hf2 : ((sentOperation env currentTime connection operation request).valueEnabled
            && (sentOperation env currentTime connection operation request).sendValue) = true := hf
        have he2 : (sentOperation env currentTime connection operation request).entry
            = some entry := he
        simp [hf, hf2, he2, hv hf'.1 hf'.2]
    · have hf2 : ¬ ((sentOperation env currentTime connection operation request).valueEnabled
          && (sentOperation env currentTime connection operation request).sendValue) = true := hf
      simp [hf, hf2]
  · rintro ⟨h1, h2⟩
    cases he : operation.entry with
    | none => exact absurd he (hV h1 h2)
    | some entry => exact ⟨entry, rfl, by simp [valueWrites, h1, h2, he]⟩
  · intro h
    have hf : ¬ (operation.valueEnabled && operation.sendValue) = true := by
      simpa [Bool.and_eq_true] using h
    simp [valueWrites, hf]

/-- No event of `WritePDU` runs completion code. -/
theorem writePDU_no_callback (env : Env) (sock : SocketReplies) (connection : KineticConnection)
    (operation : KineticOperation) (request : KineticPDU) (status : KineticStatus)
    (events : List Event)
    (h : WritePDU env sock connection operation request = some (status, events)) :
    ∀ e ∈ events, e.isCallback = false := by
  unfold WritePDU at h
  split at h
  · simp only [Option.some.injEq, Prod.mk.injEq] at h
    rw [← h.2]; simp [Event.isCallback]
  · split at h
    · simp only [Option.some.injEq, Prod.mk.injEq] at h
      rw [← h.2]; simp [Event.isCallback]
    · split at h
      · split at h
        · exact absurd h (by simp)
        · split at h
          · simp only [Option.some.injEq, Prod.mk.injEq] at h
            rw [← h.2]; simp [Event.isCallback]
          · simp only [Option.some.injEq, Prod.mk.injEq] at h
            rw [← h.2]; simp [Event.isCallback]
      · simp only [Option.some.injEq, Prod.mk.injEq] at h
        rw [← h.2]; simp [Event.isCallback]

/-- C5: when a socket write fails while sending (header, protobuf or value), the sender makes
no further write, uncorks once, releases the write mutex and returns exactly the status
the failing write returned; no event of the call runs the completion thunk or the
user's closure callback. -/
theorem sendRequest_write_failure (env : Env) (sock : SocketReplies) (currentTime : Timeval)
    (connection : KineticConnection) (operation : KineticOperation) (request : KineticPDU)
    (hA : SendRequestAsserts connection operation request)
    (hP : PassesSizeCheck env connection operation request)
    (hV : ValueReachable operation) :
    (sock.header ≠ KINETIC_STATUS_SUCCESS →
      KineticOperation_SendRequest env sock currentTime connection operation =
        some (sock.header, sentOperation env currentTime connection operation request,
          [Event.pthread_mutex_lock (Mutex.writeMutex connection.addr),
           Event.pthread_mutex_lock (Mutex.timeoutTimeMutex operation.addr),
           Event.pthread_mutex_unlock (Mutex.timeoutTimeMutex operation.addr),
           Event.KineticSocket_BeginPacket connection.socket,
           Event.KineticSocket_Write connection.socket
             (ByteBuffer_Create (frameHeaderBytes env connection operation request) 9 9),
           Event.KineticSocket_FinishPacket connection.socket,
           Event.pthread_mutex_unlock (Mutex.writeMutex connection.addr)]))
    ∧ (sock.header = KINETIC_STATUS_SUCCESS → sock.protobuf ≠ KINETIC_STATUS_SUCCESS →
      KineticOperation_SendRequest env sock currentTime connection operation =
        some (sock.protobuf, sentOperation env currentTime connection operation request,
          [Event.pthread_mutex_lock (Mutex.writeMutex connection.addr),
           Event.pthread_mutex_lock (Mutex.timeoutTimeMutex operation.addr),
           Event.pthread_mutex_unlock (Mutex.timeoutTimeMutex operation.addr),
           Event.KineticSocket_BeginPacket connection.socket,
           Event.KineticSocket_Write connection.socket
             (ByteBuffer_Create (frameHeaderBytes env connection operation request) 9 9),
           Event.KineticSocket_WriteProtobuf connection.socket
             (sentRequest env connection operation request),
           Event.KineticSocket_FinishPacket connection.socket,
           Event.pthread_mutex_unlock (Mutex.writeMutex connection.addr)]))
    ∧ (sock.header = KINETIC_STATUS_SUCCESS → sock.protobuf = KINETIC_STATUS_SUCCESS →
      operation.valueEnabled = true → operation.sendValue = true →
      sock.value ≠ KINETIC_STATUS_SUCCESS →
      ∃ entry, operation.entry = some entry ∧
        KineticOperation_SendRequest env sock currentTime connection operation =
          some (sock.value, sentOperation env currentTime connection operation request,
            [Event.pthread_mutex_lock (Mutex.writeMutex connection.addr),
             Event.pthread_mutex_lock (Mutex.timeoutTimeMutex operation.addr),
             Event.pthread_mutex_unlock (Mutex.timeoutTimeMutex operation.addr),
             Event.KineticSocket_BeginPacket connection.socket,
             Event.KineticSocket_Write connection.socket
               (ByteBuffer_Create (frameHeaderBytes env connection operation request) 9 9),
             Event.KineticSocket_WriteProtobuf connection.socket
               (sentRequest env connection operation request),
             Event.KineticSocket_Write connection.socket entry.value,
             Event.KineticSocket_FinishPacket connection.socket,
             Event.pthread_mutex_unlock (Mutex.writeMutex connection.addr)]))
    ∧ (∀ status operation1 events,
        KineticOperation_SendRequest env sock currentTime connection operation =
          some (status, operation1, events) →
        ∀ e ∈ events, e.isCallback = false) := by
  have hS := sendFrame_eq env sock currentTime connection operation request hA hP
  refine ⟨?_, ?_, ?_, ?_⟩
  · intro hh
    rw [hS]
    unfold WritePDU
    rw [memoryOfHeader_sentRequest]
    simp [hh, sizeof_KineticPDUHeader]
  · intro hh hp
    rw [hS]
    unfold WritePDU
    rw [memoryOfHeader_sentRequest]
    simp [hh, hp, sizeof_KineticPDUHeader]
  · intro hh hp h1 h2 hv
    cases he : operation.entry with
    | none => exact absurd he (hV h1 h2)
    | some entry =>
      refine ⟨entry, rfl, ?_⟩
      rw [hS]
      unfold WritePDU
      rw [memoryOfHeader_sentRequest]
      have e1 : (sentOperation env currentTime connection operation request).valueEnabled
          = true := h1
      have e2 : (sentOperation env currentTime connection operation request).sendValue
          = true := h2
      have e3 : (sentOperation env currentTime connection operation request).entry
          = some entry := he
      simp [hh, hp, hv, e1, e2, e3, sizeof_KineticPDUHeader]
  · intro status operation1 events h e he
    rw [hS] at h
    cases hW : WritePDU env sock connection
        (sentOperation env currentTime connection operation request)
        (sentRequest env connection operation request) with
    | none => rw [hW] at h; exact absurd h (by simp)
    | some r =>
      obtain ⟨st, evW⟩ := r
      rw [hW] at h
      simp only [Option.map_some', Option.some.injEq, Prod.mk.injEq] at h
      have hE := h.2.2
      rw [← hE] at he
      simp only [List.cons_append, List.nil_append, List.mem_cons, List.mem_append,
        List.mem_singleton] at he
      rcases he with he | he | he | he | he
      · rw [he]; rfl
      · rw [he]; rfl
      · rw [he]; rfl
      · exact writePDU_no_callback env sock connection _ _ st evW hW e he
      · rcases he with he | he
        · rw [he]; rfl
        · exact absurd he (List.not_mem_nil e)

/-- C6: for every operation that passes the size check the sender sets the deadline to the
current time plus `KINETIC_OPERATION_TIMEOUT_SECS` seconds, whatever deadline the
operation carried before and whatever the socket answers to the writes. -/
theorem sendRequest_sets_deadline (env : Env) (sock : SocketReplies) (currentTime : Timeval)
    (connection : KineticConnection) (operation : KineticOperation) (request : KineticPDU)
    (hA : SendRequestAsserts connection operation request)
    (hP : PassesSizeCheck env connection operation request)
    (hV : ValueReachable operation) :
    ∃ status operation1 events,
      KineticOperation_SendRequest env sock currentTime connection operation =
        some (status, operation1, events)
      ∧ (KineticOperation_GetTimeoutTime operation1).1 =
          Kinetic_TimevalAdd currentTime
            { tv_sec := (env.KINETIC_OPERATION_TIMEOUT_SECS : Int), tv_usec := 0 }
      ∧ (currentTime.tv_usec < 1000000 →
          (KineticOperation_GetTimeoutTime operation1).1 =
            { tv_sec := currentTime.tv_sec + (env.KINETIC_OPERATION_TIMEOUT_SECS : Int),
              tv_usec := currentTime.tv_usec }) := by
  obtain ⟨status, events, hW⟩ := writePDU_isSome env sock connection
    (sentOperation env currentTime connection operation request)
    (sentRequest env connection operation request)
    (valueReachable_sentOperation env currentTime connection operation request hV)
  refine ⟨status, sentOperation env currentTime connection operation request,
    [Event.pthread_mutex_lock (Mutex.writeMutex connection.addr),
     Event.pthread_mutex_lock (Mutex.timeoutTimeMutex operation.addr),
     Event.pthread_mutex_unlock (Mutex.timeoutTimeMutex operation.addr)] ++ events
      ++ [Event.pthread_mutex_unlock (Mutex.writeMutex connection.addr)], ?_, rfl, ?_⟩
  · rw [sendFrame_eq env sock currentTime connection operation request hA hP, hW]
    rfl
  · intro hu
    simp [KineticOperation_GetTimeoutTime, sentOperation, Kinetic_TimevalAdd, hu]

/-- C7: two calls of `KineticOperation_SetTimeoutTime` leave the deadline the second call
alone determines: read back, it is the second call's clock reading plus `t2` seconds,
whatever `t1` and the first call's clock reading were. -/
theorem setTimeoutTime_twice (operation : KineticOperation) (t1 t2 : Nat)
    (time1 time2 : Timeval) :
    (KineticOperation_GetTimeoutTime
        (KineticOperation_SetTimeoutTime time2
          (KineticOperation_SetTimeoutTime time1 operation t1).1 t2).1).1
      = Kinetic_TimevalAdd time2 { tv_sec := (t2 : Int), tv_usec := 0 }
    ∧ (KineticOperation_GetTimeoutTime
        (KineticOperation_SetTimeoutTime time2
          (KineticOperation_SetTimeoutTime time1 operation t1).1 t2).1).1
      = (KineticOperation_GetTimeoutTime
          (KineticOperation_SetTimeoutTime time2 operation t2).1).1 :=
  ⟨rfl, rfl⟩

/-! ## The sender on concrete inputs -/

/-- The header of the hello PUT: protobuf length 6, value length 5. -/
theorem sendRequest_header_bytes_witness :
    SendRequestAsserts exampleConnection helloPutOperation exampleRequest
    ∧ PassesSizeCheck exampleEnv exampleConnection helloPutOperation exampleRequest
    ∧ ValueReachable helloPutOperation
    ∧ ∃ status rest,
      KineticOperation_SendRequest exampleEnv okSocket exampleTime exampleConnection
          helloPutOperation =
        some (status,
          sentOperation exampleEnv exampleTime exampleConnection helloPutOperation
            exampleRequest,
          Event.pthread_mutex_lock (Mutex.writeMutex 1) ::
          Event.pthread_mutex_lock (Mutex.timeoutTimeMutex 100) ::
          Event.pthread_mutex_unlock (Mutex.timeoutTimeMutex 100) ::
          Event.KineticSocket_BeginPacket 7 ::
          Event.KineticSocket_Write 7
            (ByteBuffer_Create [70, 0, 0, 0, 6, 0, 0, 0, 5] 9 9) :: rest) :=
  ⟨by decide, by decide, fun _ _ => by decide,
    (sendRequest_header_bytes exampleEnv okSocket exampleTime exampleConnection
      helloPutOperation exampleRequest (by decide) (by decide) (fun _ _ => by decide)).1⟩

/-- The events of the hello PUT on a socket that accepts every write. -/
theorem sendRequest_success_trace_witness :
    SendRequestAsserts exampleConnection helloPutOperation exampleRequest
    ∧ PassesSizeCheck exampleEnv exampleConnection helloPutOperation exampleRequest
    ∧ ValueReachable helloPutOperation
    ∧ KineticOperation_SendRequest exampleEnv okSocket exampleTime exampleConnection
          helloPutOperation =
        some (KINETIC_STATUS_SUCCESS,
          sentOperation exampleEnv exampleTime exampleConnection helloPutOperation
            exampleRequest,
          [Event.pthread_mutex_lock (Mutex.writeMutex 1),
           Event.pthread_mutex_lock (Mutex.timeoutTimeMutex 100),
           Event.pthread_mutex_unlock (Mutex.timeoutTimeMutex 100),
           Event.KineticSocket_BeginPacket 7,
           Event.KineticSocket_Write 7 (ByteBuffer_Create [70, 0, 0, 0, 6, 0, 0, 0, 5] 9 9),
           Event.KineticSocket_WriteProtobuf 7
             (sentRequest exampleEnv exampleConnection helloPutOperation exampleRequest),
           Event.KineticSocket_Write 7 helloEntry.value,
           Event.KineticSocket_FinishPacket 7,
           Event.pthread_mutex_unlock (Mutex.writeMutex 1)]) :=
  ⟨by decide, by decide, fun _ _ => by decide,
    (sendRequest_success_trace exampleEnv okSocket exampleTime exampleConnection
      helloPutOperation exampleRequest (by decide) (by decide) (fun _ _ => by decide)
      rfl rfl (fun _ _ => rfl)).1⟩

/-- The events of the hello PUT when the value write fails with status 9. -/
theorem sendRequest_write_failure_witness :
    SendRequestAsserts exampleConnection helloPutOperation exampleRequest
    ∧ PassesSizeCheck exampleEnv exampleConnection helloPutOperation exampleRequest
    ∧ ValueReachable helloPutOperation
    ∧ ∃ entry, helloPutOperation.entry = some entry ∧
        KineticOperation_SendRequest exampleEnv valueFailSocket exampleTime exampleConnection
            helloPutOperation =
          some (KINETIC_STATUS_OTHER 9,
            sentOperation exampleEnv exampleTime exampleConnection helloPutOperation
              exampleRequest,
            [Event.pthread_mutex_lock (Mutex.writeMutex 1),
             Event.pthread_mutex_lock (Mutex.timeoutTimeMutex 100),
             Event.pthread_mutex_unlock (Mutex.timeoutTimeMutex 100),
             Event.KineticSocket_BeginPacket 7,
             Event.KineticSocket_Write 7 (ByteBuffer_Create [70, 0, 0, 0, 6, 0, 0, 0, 5] 9 9),
             Event.KineticSocket_WriteProtobuf 7
               (sentRequest exampleEnv exampleConnection helloPutOperation exampleRequest),
             Event.KineticSocket_Write 7 entry.value,
             Event.KineticSocket_FinishPacket 7,
             Event.pthread_mutex_unlock (Mutex.writeMutex 1)]) :=
  ⟨by decide, by decide, fun _ _ => by decide,
    (sendRequest_write_failure exampleEnv valueFailSocket exampleTime exampleConnection
      helloPutOperation exampleRequest (by decide) (by decide)
      (fun _ _ => by decide)).2.2.1 rfl rfl rfl rfl (by decide)⟩

/-- The deadline of the hello PUT sent at second 1000 with a timeout of 20 seconds, the
value write failing. -/
theorem sendRequest_sets_deadline_witness :
    SendRequestAsserts exampleConnection helloPutOperation exampleRequest
    ∧ PassesSizeCheck exampleEnv exampleConnection helloPutOperation exampleRequest
    ∧ ValueReachable helloPutOperation
    ∧ ∃ status operation1 events,
        KineticOperation_SendRequest exampleEnv valueFailSocket exampleTime exampleConnection
            helloPutOperation = some (status, operation1, events)
        ∧ (KineticOperation_GetTimeoutTime operation1).1 =
            Kinetic_TimevalAdd exampleTime { tv_sec := 20, tv_usec := 0 }
        ∧ (exampleTime.tv_usec < 1000000 →
            (KineticOperation_GetTimeoutTime operation1).1 =
              { tv_sec := 1020, tv_usec := 250 }) :=
  ⟨by decide, by decide, fun _ _ => by decide,
    sendRequest_sets_deadline exampleEnv valueFailSocket exampleTime exampleConnection
      helloPutOperation exampleRequest (by decide) (by decide) (fun _ _ => by decide)⟩

/-- C1: a PUT of an entry whose value has `2^32` bytes in use is not rejected.  Line 131
stores `bytesUsed` in the 32-bit `header.valueLength`, which becomes 0; line 132 compares
0 with `PDU_PROTO_MAX_LEN`; the sender corks, writes a header that announces no value
bytes, the protobuf and the whole value, and returns success. -/
theorem sendRequest_oversize_value_not_rejected :
    fourGiBEntry.value.bytesUsed > exampleEnv.PDU_PROTO_MAX_LEN
    ∧ (buildPutAndSend fourGiBEntry).map (fun r => r.1) = some KINETIC_STATUS_SUCCESS
    ∧ (buildPutAndSend fourGiBEntry).map
        (fun r => (r.2.1.entry.isSome, r.2.1.sendValue)) = some (true, true)
    ∧ (buildPutAndSend fourGiBEntry).map
        (fun r => (r.2.2.filter Event.isTransport).take 2) =
        some [Event.KineticSocket_BeginPacket 7,
          Event.KineticSocket_Write 7 (ByteBuffer_Create [70, 0, 0, 0, 6, 0, 0, 0, 0] 9 9)]
    ∧ (buildPutAndSend fourGiBEntry).map (fun r => valueBytesWritten r.2.2)
        = some 4294967296 := by
  refine ⟨by decide, ?_, ?_, ?_, ?_⟩ <;> rfl

/-- C3: a PUT built from an entry with `metadataOnly` set and five value bytes in use is
sent as a malformed frame.  `KineticOperation_BuildPut` leaves `valueEnabled` false and
`sendValue` true; `KineticOperation_SendRequest` announces five value bytes in the
header (its test is `entry != NULL && sendValue`), `WritePDU` writes none (its test is
`valueEnabled && sendValue`), and the call returns success. -/
theorem sendRequest_metadataOnly_put_malformed :
    (KineticOperation_BuildPut exampleEnv exampleConnection exampleOperation
        metadataOnlyEntry).map (fun built => (built.2.valueEnabled, built.2.sendValue))
      = some (false, true)
    ∧ (buildPutAndSend metadataOnlyEntry).map (fun r => r.1) = some KINETIC_STATUS_SUCCESS
    ∧ (buildPutAndSend metadataOnlyEntry).map (fun r => r.2.2.filter Event.isTransport) =
        some [Event.KineticSocket_BeginPacket 7,
          Event.KineticSocket_Write 7 (ByteBuffer_Create [70, 0, 0, 0, 6, 0, 0, 0, 5] 9 9),
          Event.KineticSocket_WriteProtobuf 7
            (sentRequest exampleEnv exampleConnection
              { exampleOperation with entry := some metadataOnlyEntry, sendValue := true }
              ((setMessageType exampleRequest
                KineticProto_Command_MessageType.KINETIC_PROTO_COMMAND_MESSAGE_TYPE_PUT).getD
                exampleRequest)),
          Event.KineticSocket_FinishPacket 7]
    ∧ headerValueLength [70, 0, 0, 0, 6, 0, 0, 0, 5] = 5
    ∧ (buildPutAndSend metadataOnlyEntry).map (fun r => valueBytesWritten r.2.2) = some 0 := by
  refine ⟨?_, ?_, ?_, ?_, ?_⟩ <;> rfl

/-! ## The timeout sweep -/

theorem timevalIsZero_iff (tv : Timeval) :
    Kinetic_TimevalIsZero tv = true ↔ tv = { tv_sec := 0, tv_usec := 0 } := by
  cases tv with
  | mk s u => simp [Kinetic_TimevalIsZero]

theorem timevalCmp_nonneg_iff (a b : Timeval) :
    Kinetic_TimevalCmp a b ≥ 0 ↔
      (b.tv_sec < a.tv_sec ∨ (b.tv_sec = a.tv_sec ∧ b.tv_usec ≤ a.tv_usec)) := by
  unfold Kinetic_TimevalCmp
  split
  · next h =>
    split
    · next h1 => constructor
                 · intro h2; omega
                 · intro h2; omega
    · split
      · next h1 h2 => constructor
                      · intro _; right; exact ⟨h.symm, by omega⟩
                      · intro _; omega
      · next h1 h2 => constructor
                      · intro _; right; exact ⟨h.symm, by omega⟩
                      · intro _; omega
  · next h =>
    split
    · next h1 => constructor
                 · intro h2; omega
                 · intro h2; omega
    · next h1 => constructor
                 · intro _; left; omega
                 · intro _; omega

/-- The test of the sweep is the expiry of the deadline. -/
theorem timedOut_iff (currentTime : Timeval) (operation : KineticOperation) :
    timedOut currentTime operation = true ↔ Expired currentTime operation := by
  unfold timedOut Expired KineticOperation_GetTimeoutTime
  simp only [Bool.and_eq_true, Bool.not_eq_true', decide_eq_true_eq, timevalCmp_nonneg_iff]
  constructor
  · rintro ⟨h1, h2⟩
    refine ⟨?_, h2⟩
    intro h
    rw [(timevalIsZero_iff _).2 h] at h1
    exact absurd h1 (by decide)
  · rintro ⟨h1, h2⟩
    refine ⟨?_, h2⟩
    cases hz : Kinetic_TimevalIsZero operation.timeoutTime with
    | false => rfl
    | true => exact absurd ((timevalIsZero_iff _).1 hz) h1

theorem complete_event_not_mem_getTimeoutTime (a : Nat) (status : KineticStatus)
    (o : KineticOperation) :
    Event.KineticOperation_Complete a status ∉ (KineticOperation_GetTimeoutTime o).2 := by
  simp [KineticOperation_GetTimeoutTime]

theorem complete_event_mem_complete (a : Nat) (status status1 : KineticStatus)
    (connection : KineticConnection) (o : KineticOperation) :
    Event.KineticOperation_Complete a status ∈ (KineticOperation_Complete connection o status1).2
      ↔ a = o.addr ∧ status = status1 := by
  unfold KineticOperation_Complete
  cases o.closure.callback <;> simp

/-- The successor the allocator returns is an operation of the list. -/
theorem getNextOperation_mem (connection : KineticConnection)
    (operation next : KineticOperation)
    (h : KineticAllocator_GetNextOperation connection operation = some next) :
    next ∈ connection.operations := by
  unfold KineticAllocator_GetNextOperation at h
  have hs : connection.operations.dropWhile (fun o => decide (o.addr ≠ operation.addr))
      <:+ connection.operations := List.dropWhile_suffix _
  cases hd : connection.operations.dropWhile (fun o => decide (o.addr ≠ operation.addr)) with
  | nil => rw [hd] at h; simp at h
  | cons x rest =>
    cases rest with
    | nil => rw [hd] at h; simp at h
    | cons y rest2 =>
      rw [hd] at h hs
      simp only [Option.some.injEq] at h
      subst h
      exact hs.subset (List.mem_cons_of_mem _ (List.mem_cons_self _ _))

/-- The first operation the allocator returns is an operation of the list. -/
theorem getFirstOperation_mem (connection : KineticConnection) (first : KineticOperation)
    (h : KineticAllocator_GetFirstOperation connection = some first) :
    first ∈ connection.operations := by
  unfold KineticAllocator_GetFirstOperation at h
  exact List.mem_of_mem_head? h

/-- In a list where no operation before `operation` shares its address, the successor of
`operation` is the operation behind it. -/
theorem getNextOperation_of_split (connection : KineticConnection)
    (pre post : List KineticOperation) (operation : KineticOperation)
    (hl : connection.operations = pre ++ operation :: post)
    (hpre : ∀ x, x ∈ pre → x.addr ≠ operation.addr) :
    KineticAllocator_GetNextOperation connection operation = post.head? := by
  unfold KineticAllocator_GetNextOperation
  have hd : (pre ++ operation :: post).dropWhile (fun o => decide (o.addr ≠ operation.addr))
      = operation :: post := by
    clear hl
    induction pre with
    | nil => simp [List.dropWhile]
    | cons x rest ih =>
      have hx : x.addr ≠ operation.addr := hpre x (List.mem_cons_self _ _)
      simp only [List.cons_append, List.dropWhile, hx, ne_eq, not_false_eq_true, decide_True]
      exact ih (fun y hy => hpre y (List.mem_cons_of_mem _ hy))
  rw [hl, hd]
  cases post <;> rfl

/-- An operation whose address is not in the list (any more) has no successor. -/
theorem getNextOperation_absent (connection : KineticConnection)
    (operation : KineticOperation)
    (h : ∀ x, x ∈ connection.operations → x.addr ≠ operation.addr) :
    KineticAllocator_GetNextOperation connection operation = none := by
  unfold KineticAllocator_GetNextOperation
  have hd : connection.operations.dropWhile (fun o => decide (o.addr ≠ operation.addr))
      = [] := by
    rw [List.dropWhile_eq_nil_iff]
    intro x hx
    simp [h x hx]
  rw [hd]

/-- One pass of the sweep's loop. -/
theorem timeoutLoop_succ (currentTime : Timeval) (fuel : Nat) (o : KineticOperation)
    (connection : KineticConnection) :
    timeoutLoop currentTime (fuel + 1) (some o) connection =
      if timedOut currentTime o then
        ((timeoutLoop currentTime fuel
            (KineticAllocator_GetNextOperation
              (KineticOperation_Complete connection o KINETIC_STATUS_OPERATION_TIMEDOUT).1 o)
            (KineticOperation_Complete connection o KINETIC_STATUS_OPERATION_TIMEDOUT).1).1,
          (KineticOperation_GetTimeoutTime o).2
            ++ (KineticOperation_Complete connection o KINETIC_STATUS_OPERATION_TIMEDOUT).2
            ++ (timeoutLoop currentTime fuel
              (KineticAllocator_GetNextOperation
                (KineticOperation_Complete connection o KINETIC_STATUS_OPERATION_TIMEDOUT).1 o)
              (KineticOperation_Complete connection o KINETIC_STATUS_OPERATION_TIMEDOUT).1).2)
      else
        ((timeoutLoop currentTime fuel
            (KineticAllocator_GetNextOperation connection o) connection).1,
          (KineticOperation_GetTimeoutTime o).2
            ++ (timeoutLoop currentTime fuel
              (KineticAllocator_GetNextOperation connection o) connection).2) := by
  rw [timeoutLoop]

/-- With no cursor the loop ends. -/
theorem timeoutLoop_none (currentTime : Timeval) (fuel : Nat) (connection : KineticConnection) :
    timeoutLoop currentTime fuel none connection = (connection, []) := by
  cases fuel <;> rfl

/-- `KineticOperation_Complete` removes the operation from the list exactly when it has a
closure callback, and leaves every other operation in place. -/
theorem mem_operations_complete (connection : KineticConnection) (o x : KineticOperation)
    (status : KineticStatus) :
    x ∈ (KineticOperation_Complete connection o status).1.operations ↔
      x ∈ connection.operations ∧ (o.closure.callback ≠ none → x.addr ≠ o.addr) := by
  unfold KineticOperation_Complete
  cases o.closure.callback with
  | none => simp
  | some cb => simp [KineticAllocator_FreeOperation, List.mem_filter]

/-- Two operations of a list whose addresses are pairwise distinct are the same
operation when their addresses agree. -/
theorem eq_of_addr_eq {l : List KineticOperation} (hnd : (l.map (fun o => o.addr)).Nodup)
    {x y : KineticOperation} (hx : x ∈ l) (hy : y ∈ l) (h : x.addr = y.addr) : x = y := by
  induction l with
  | nil => exact absurd hx (List.not_mem_nil x)
  | cons z rest ih =>
    rw [List.map_cons, List.nodup_cons] at hnd
    rcases List.mem_cons.1 hx with hx1 | hx1 <;> rcases List.mem_cons.1 hy with hy1 | hy1
    · rw [hx1, hy1]
    · rw [hx1] at h
      exact absurd (List.mem_map.2 ⟨y, hy1, h.symm⟩) hnd.1
    · rw [hy1] at h
      exact absurd (List.mem_map.2 ⟨x, hx1, h⟩) hnd.1
    · exact ih hnd.2 hx1 hy1

/-- The sweep adds no operation to the list. -/
theorem mem_operations_timeoutLoop (currentTime : Timeval) (x : KineticOperation)
    (fuel : Nat) :
    ∀ (cursor : Option KineticOperation) (connection : KineticConnection),
    x ∈ (timeoutLoop currentTime fuel cursor connection).1.operations →
    x ∈ connection.operations := by
  induction fuel with
  | zero => intro cursor connection h; simpa [timeoutLoop] using h
  | succ fuel ih =>
    intro cursor connection h
    cases cursor with
    | none => simpa [timeoutLoop] using h
    | some o =>
      rw [timeoutLoop_succ] at h
      by_cases ht : timedOut currentTime o = true
      · simp only [ht, if_true] at h
        exact ((mem_operations_complete connection o x _).1 (ih _ _ h)).1
      · simp only [ht, if_false, Bool.false_eq_true] at h
        exact ih _ _ h

/-- The sweep enters `KineticOperation_Complete` only for operations of the list whose
test succeeds, and only with the timed-out status; an operation with a closure callback
it has entered completion for is freed, and no operation at its address is left. -/
theorem timeoutLoop_complete_mem (currentTime : Timeval) (a : Nat) (status : KineticStatus)
    (fuel : Nat) :
    ∀ (cursor : Option KineticOperation) (connection : KineticConnection),
    (∀ o, cursor = some o → o ∈ connection.operations) →
    Event.KineticOperation_Complete a status
      ∈ (timeoutLoop currentTime fuel cursor connection).2 →
    status = KINETIC_STATUS_OPERATION_TIMEDOUT ∧
      ∃ o, o ∈ connection.operations ∧ o.addr = a ∧ timedOut currentTime o = true
        ∧ (o.closure.callback ≠ none →
            ∀ x, x ∈ (timeoutLoop currentTime fuel cursor connection).1.operations →
              x.addr ≠ a) := by
  induction fuel with
  | zero => intro cursor connection _ h; simp [timeoutLoop] at h
  | succ fuel ih =>
    intro cursor connection hcur h
    cases cursor with
    | none => simp [timeoutLoop] at h
    | some o =>
      have ho : o ∈ connection.operations := hcur o rfl
      rw [timeoutLoop_succ] at h ⊢
      by_cases ht : timedOut currentTime o = true
      · simp only [ht, if_true, List.mem_append, complete_event_mem_complete] at h ⊢
        rcases h with (h | ⟨h1, h2⟩) | h
        · exact absurd h (complete_event_not_mem_getTimeoutTime a status o)
        · refine ⟨h2, o, ho, h1.symm, ht, ?_⟩
          intro hcb x hx
          have hx1 := mem_operations_timeoutLoop currentTime x fuel _ _ hx
          rw [h1]
          exact ((mem_operations_complete connection o x _).1 hx1).2 hcb
        · obtain ⟨hs, o1, ho1, ha1, hto1, hfree⟩ := ih _ _
            (fun n hn => getNextOperation_mem _ _ _ hn) h
          exact ⟨hs, o1, ((mem_operations_complete connection o o1 _).1 ho1).1, ha1, hto1,
            hfree⟩
      · simp only [ht, if_false, Bool.false_eq_true, List.mem_append] at h ⊢
        rcases h with h | h
        · exact absurd h (complete_event_not_mem_getTimeoutTime a status o)
        · exact ih _ _ (fun n hn => getNextOperation_mem _ _ _ hn) h

/-- An operation stays in the list through the sweep when no operation at its address is
expired with a closure callback. -/
theorem mem_timeoutLoop_of_not_freed (currentTime : Timeval) (x : KineticOperation)
    (fuel : Nat) :
    ∀ (cursor : Option KineticOperation) (connection : KineticConnection),
    (∀ o, cursor = some o → o ∈ connection.operations) →
    x ∈ connection.operations →
    (∀ o, o ∈ connection.operations → o.addr = x.addr → timedOut currentTime o = true →
      o.closure.callback = none) →
    x ∈ (timeoutLoop currentTime fuel cursor connection).1.operations := by
  induction fuel with
  | zero => intro cursor connection _ hx _; simpa [timeoutLoop] using hx
  | succ fuel ih =>
    intro cursor connection hcur hx hfree
    cases cursor with
    | none => simpa [timeoutLoop] using hx
    | some o =>
      have ho : o ∈ connection.operations := hcur o rfl
      rw [timeoutLoop_succ]
      by_cases ht : timedOut currentTime o = true
      · simp only [ht, if_true]
        apply ih _ _ (fun n hn => getNextOperation_mem _ _ _ hn)
        · rw [mem_operations_complete]
          refine ⟨hx, ?_⟩
          intro hcb haddr
          exact hcb (hfree o ho haddr.symm ht)
        · intro o1 ho1 ha1 hto1
          exact hfree o1 ((mem_operations_complete connection o o1 _).1 ho1).1 ha1 hto1
      · simp only [ht, if_false, Bool.false_eq_true]
        exact ih _ _ (fun n hn => getNextOperation_mem _ _ _ hn) hx hfree

/-- In a list of operations at pairwise distinct addresses no operation before a given
one shares its address. -/
theorem addr_ne_of_split (l pre rest : List KineticOperation) (m : KineticOperation)
    (hl : l = pre ++ m :: rest) (hnd : (l.map (fun o => o.addr)).Nodup) :
    ∀ x, x ∈ pre → x.addr ≠ m.addr := by
  intro x hx heq
  rw [hl, List.map_append, List.map_cons] at hnd
  have hdis := (List.nodup_append.1 hnd).2.2
  exact hdis (List.mem_map.2 ⟨x, hx, rfl⟩) (by rw [heq]; exact List.mem_cons_self _ _)

/-- Enough fuel: on a list of operations at pairwise distinct addresses the walk ends
within as many passes as the list has operations, and more fuel changes nothing. -/
theorem timeoutLoop_fuel (currentTime : Timeval) :
    ∀ (l pre : List KineticOperation) (fuel1 fuel2 : Nat) (connection : KineticConnection),
    connection.operations = pre ++ l →
    (connection.operations.map (fun x => x.addr)).Nodup →
    l.length ≤ fuel1 → l.length ≤ fuel2 →
    timeoutLoop currentTime fuel1 l.head? connection
      = timeoutLoop currentTime fuel2 l.head? connection := by
  intro l
  induction l with
  | nil =>
    intro pre fuel1 fuel2 connection _ _ _ _
    simp only [List.head?_nil, timeoutLoop_none]
  | cons o rest ih =>
    intro pre fuel1 fuel2 connection hl hnd h1 h2
    cases fuel1 with
    | zero => simp at h1
    | succ f1 =>
      cases fuel2 with
      | zero => simp at h2
      | succ f2 =>
        simp only [List.length_cons, Nat.add_le_add_iff_right] at h1 h2
        have hpre : ∀ x, x ∈ pre → x.addr ≠ o.addr :=
          addr_ne_of_split connection.operations pre rest o hl hnd
        have hnext : KineticAllocator_GetNextOperation connection o = rest.head? :=
          getNextOperation_of_split connection pre rest o hl hpre
        have hl1 : connection.operations = (pre ++ [o]) ++ rest := by rw [hl]; simp
        have hrec := ih (pre ++ [o]) f1 f2 connection hl1 hnd h1 h2
        simp only [List.head?_cons]
        rw [timeoutLoop_succ, timeoutLoop_succ]
        by_cases hto : timedOut currentTime o = true
        · cases hcb : o.closure.callback with
          | none =>
            have hC : KineticOperation_Complete connection o
                KINETIC_STATUS_OPERATION_TIMEDOUT
                = (connection,
                    [Event.KineticOperation_Complete o.addr
                      KINETIC_STATUS_OPERATION_TIMEDOUT]) := by
              simp [KineticOperation_Complete, hcb]
            simp only [hto, if_true, hC, hnext, hrec]
          | some cb =>
            have hC : (KineticOperation_Complete connection o
                KINETIC_STATUS_OPERATION_TIMEDOUT).1
                = KineticAllocator_FreeOperation connection o := by
              simp [KineticOperation_Complete, hcb]
            have hgone : KineticAllocator_GetNextOperation
                (KineticAllocator_FreeOperation connection o) o = none := by
              apply getNextOperation_absent
              intro x hx
              simp only [KineticAllocator_FreeOperation, List.mem_filter,
                decide_eq_true_eq] at hx
              exact hx.2
            simp only [hto, if_true, hC, hgone, timeoutLoop_none]
        · simp only [hto, if_false, Bool.false_eq_true, hnext, hrec]

/-- The sweep's result does not depend on the fuel, once there is a pass for every
operation of the list. -/
theorem timeoutOperations_fuel (currentTime : Timeval) (connection : KineticConnection)
    (hnd : (connection.operations.map (fun x => x.addr)).Nodup) (fuel : Nat)
    (hfuel : connection.operations.length ≤ fuel) :
    timeoutLoop currentTime fuel (KineticAllocator_GetFirstOperation connection) connection
      = KineticOperation_TimeoutOperations currentTime connection := by
  unfold KineticOperation_TimeoutOperations KineticAllocator_GetFirstOperation
  exact timeoutLoop_fuel currentTime connection.operations [] fuel
    connection.operations.length connection rfl hnd hfuel (Nat.le_refl _)

/-- What the sweep does keep of the specification: it enters completion only for an
operation whose deadline has expired, only with the timed-out status, and an operation
whose deadline is the zero time or still in the future stays in the list. -/
theorem timeoutOperations_completes_only_expired (currentTime : Timeval)
    (connection : KineticConnection) (operation : KineticOperation)
    (hmem : operation ∈ connection.operations)
    (hnd : (connection.operations.map (fun o => o.addr)).Nodup) :
    (∀ status, Event.KineticOperation_Complete operation.addr status
          ∈ (KineticOperation_TimeoutOperations currentTime connection).2 →
        status = KINETIC_STATUS_OPERATION_TIMEDOUT ∧ Expired currentTime operation)
    ∧ (¬ Expired currentTime operation →
        operation ∈ (KineticOperation_TimeoutOperations currentTime connection).1.operations) := by
  unfold KineticOperation_TimeoutOperations
  constructor
  · intro status h
    obtain ⟨hs, o, ho, ha, hto, _⟩ := timeoutLoop_complete_mem currentTime operation.addr
      status _ _ connection (fun o h => getFirstOperation_mem _ _ h) h
    have hoe : o = operation := eq_of_addr_eq hnd ho hmem ha
    rw [hoe] at hto
    exact ⟨hs, (timedOut_iff currentTime operation).1 hto⟩
  · intro hne
    apply mem_timeoutLoop_of_not_freed currentTime operation _ _ connection
      (fun o h => getFirstOperation_mem _ _ h) hmem
    intro o ho ha hto
    have hoe : o = operation := eq_of_addr_eq hnd ho hmem ha
    rw [hoe] at hto
    exact absurd ((timedOut_iff currentTime operation).1 hto) hne

/-- C9: the sweep does not complete every operation whose deadline has expired.  When
the first operation of the list has an expired deadline and a closure callback, the
sweep completes and frees it, and the walk ends there (the allocator is asked for the
successor of the operation just freed): every operation behind it, expired or not, is
left in the list and `KineticOperation_Complete` is not entered for it. -/
theorem timeoutOperations_stops_after_first_completion (currentTime : Timeval)
    (connection : KineticConnection) (first : KineticOperation)
    (rest : List KineticOperation) (callback : Nat)
    (hl : connection.operations = first :: rest)
    (hnd : (connection.operations.map (fun o => o.addr)).Nodup)
    (hexp : Expired currentTime first)
    (hcb : first.closure.callback = some callback) :
    KineticOperation_TimeoutOperations currentTime connection =
        (KineticAllocator_FreeOperation connection first,
          (KineticOperation_GetTimeoutTime first).2 ++
            [Event.KineticOperation_Complete first.addr KINETIC_STATUS_OPERATION_TIMEDOUT,
             Event.closure_callback callback KINETIC_STATUS_OPERATION_TIMEDOUT
               first.closure.clientData,
             Event.KineticAllocator_FreeOperation connection.addr first.addr])
    ∧ ∀ o, o ∈ rest →
        o ∈ (KineticOperation_TimeoutOperations currentTime connection).1.operations
        ∧ ∀ status, Event.KineticOperation_Complete o.addr status
            ∉ (KineticOperation_TimeoutOperations currentTime connection).2 := by
  have hto : timedOut currentTime first = true := (timedOut_iff currentTime first).2 hexp
  have hgone : KineticAllocator_GetNextOperation
      (KineticAllocator_FreeOperation connection first) first = none := by
    apply getNextOperation_absent
    intro x hx
    simp only [KineticAllocator_FreeOperation, List.mem_filter, decide_eq_true_eq] at hx
    exact hx.2
  have hsweep : KineticOperation_TimeoutOperations currentTime connection =
      (KineticAllocator_FreeOperation connection first,
        (KineticOperation_GetTimeoutTime first).2 ++
          [Event.KineticOperation_Complete first.addr KINETIC_STATUS_OPERATION_TIMEDOUT,
           Event.closure_callback callback KINETIC_STATUS_OPERATION_TIMEDOUT
             first.closure.clientData,
           Event.KineticAllocator_FreeOperation connection.addr first.addr]) := by
    unfold KineticOperation_TimeoutOperations KineticAllocator_GetFirstOperation
    rw [hl]
    simp only [List.length_cons, List.head?_cons]
    rw [timeoutLoop_succ]
    simp only [hto, if_true, KineticOperation_Complete, hcb, hgone, timeoutLoop_none,
      List.append_nil]
  refine ⟨hsweep, ?_⟩
  intro o ho
  have hne : o.addr ≠ first.addr := by
    intro heq
    rw [hl, List.map_cons, List.nodup_cons] at hnd
    exact hnd.1 (List.mem_map.2 ⟨o, ho, heq⟩)
  rw [hsweep]
  constructor
  · simp only [KineticAllocator_FreeOperation, List.mem_filter, decide_eq_true_eq]
    exact ⟨by rw [hl]; exact List.mem_cons_of_mem _ ho, hne⟩
  · intro status hmem
    simp only [KineticOperation_GetTimeoutTime, List.mem_append, List.mem_cons,
      List.mem_singleton, Event.KineticOperation_Complete.injEq, List.not_mem_nil,
      or_false] at hmem
    rcases hmem with (h | h) | h | h | h
    · cases h
    · cases h
    · exact hne h.1
    · cases h
    · cases h

/-- Two pending operations with callbacks, both past their deadlines at second 2000: the
sweep completes the first and leaves the second, expired as it is, in the list. -/
theorem timeoutOperations_stops_after_first_completion_witness :
    busyConnection.operations = [sentExampleOperation, laterOperation]
    ∧ (busyConnection.operations.map (fun o => o.addr)).Nodup
    ∧ Expired { tv_sec := 2000, tv_usec := 0 } sentExampleOperation
    ∧ Expired { tv_sec := 2000, tv_usec := 0 } laterOperation
    ∧ sentExampleOperation.closure.callback = some 4096
    ∧ laterOperation.closure.callback = some 8192
    ∧ KineticOperation_TimeoutOperations { tv_sec := 2000, tv_usec := 0 } busyConnection =
        ({ exampleConnection with operations := [laterOperation] },
          [Event.pthread_mutex_lock (Mutex.timeoutTimeMutex 100),
           Event.pthread_mutex_unlock (Mutex.timeoutTimeMutex 100),
           Event.KineticOperation_Complete 100 KINETIC_STATUS_OPERATION_TIMEDOUT,
           Event.closure_callback 4096 KINETIC_STATUS_OPERATION_TIMEDOUT 9,
           Event.KineticAllocator_FreeOperation 1 100])
    ∧ ∀ o, o ∈ [laterOperation] →
        o ∈ (KineticOperation_TimeoutOperations { tv_sec := 2000, tv_usec := 0 }
              busyConnection).1.operations
        ∧ ∀ status, Event.KineticOperation_Complete o.addr status
            ∉ (KineticOperation_TimeoutOperations { tv_sec := 2000, tv_usec := 0 }
                busyConnection).2 :=
  ⟨rfl, by decide, by decide, by decide, rfl, rfl, by decide,
    (timeoutOperations_stops_after_first_completion { tv_sec := 2000, tv_usec := 0 }
      busyConnection sentExampleOperation [laterOperation] 4096 rfl (by decide) (by decide)
      rfl).2⟩

/-- C8: `KineticOperation_SetTimeoutTime(op, 0)` does not switch the timeout off.  Called at
second 1000 it sets the deadline to that very time, which is not the zero time; a sweep
one second later finds the deadline expired, completes the operation with
`KINETIC_STATUS_OPERATION_TIMEDOUT`, calls the user's callback and frees it. -/
theorem setTimeoutTime_zero_times_out :
    zeroTimeoutOperation.timeoutTime = exampleTime
    ∧ KineticOperation_TimeoutOperations { tv_sec := 1001, tv_usec := 0 }
        { exampleConnection with operations := [zeroTimeoutOperation] } =
      ({ exampleConnection with operations := [] },
        [Event.pthread_mutex_lock (Mutex.timeoutTimeMutex 100),
         Event.pthread_mutex_unlock (Mutex.timeoutTimeMutex 100),
         Event.KineticOperation_Complete 100 KINETIC_STATUS_OPERATION_TIMEDOUT,
         Event.closure_callback 4096 KINETIC_STATUS_OPERATION_TIMEDOUT 9,
         Event.KineticAllocator_FreeOperation 1 100]) := by
  constructor <;> rfl

/-! ## Correlation after a timeout -/

/-- When no operation of the list carries the sequence, the loop finds nothing and
leaves the list as it was. -/
theorem associateLoop_miss (response : KineticPDU) (q : Int) (l : List KineticOperation)
    (h : ∀ o, o ∈ l → carriesSequence o q = false) :
    associateLoop response q l = (none, l) := by
  induction l with
  | nil => rfl
  | cons o rest ih =>
    have ho : carriesSequence o q = false := h o (List.mem_cons_self _ _)
    have hr := ih (fun x hx => h x (List.mem_cons_of_mem _ hx))
    simp [associateLoop, ho, hr]

/-- C10: a reply that arrives after its operation timed out is a miss.  If the sweep has
completed an operation that has a user callback, then, provided no other operation of
the list carries sequence `q`, correlating afterwards any response whose ackSequence is
`q` returns NULL and leaves the connection as the sweep left it; the timed-out operation
itself is no longer in the list. -/
theorem late_response_is_miss (currentTime : Timeval) (connection : KineticConnection)
    (operation : KineticOperation) (q : Int) (response : Option KineticPDU)
    (hmem : operation ∈ connection.operations)
    (hnd : (connection.operations.map (fun o => o.addr)).Nodup)
    (hcb : operation.closure.callback ≠ none)
    (hdone : Event.KineticOperation_Complete operation.addr KINETIC_STATUS_OPERATION_TIMEDOUT
      ∈ (KineticOperation_TimeoutOperations currentTime connection).2)
    (hother : ∀ o, o ∈ connection.operations → o.addr ≠ operation.addr →
      carriesSequence o q = false)
    (hresp : ∀ pdu t, validResponse response = some (pdu, t) → t = q) :
    KineticOperation_AssociateResponseWithOperation
        (KineticOperation_TimeoutOperations currentTime connection).1 response
      = (none, (KineticOperation_TimeoutOperations currentTime connection).1)
    ∧ operation ∉ (KineticOperation_TimeoutOperations currentTime connection).1.operations := by
  unfold KineticOperation_TimeoutOperations at *
  obtain ⟨_, o, ho, ha, _, hfree⟩ := timeoutLoop_complete_mem currentTime operation.addr
    KINETIC_STATUS_OPERATION_TIMEDOUT _ _ connection
    (fun o h => getFirstOperation_mem _ _ h) hdone
  have hoe : o = operation := eq_of_addr_eq hnd ho hmem ha
  rw [hoe] at hfree
  have hleft : ∀ x, x ∈ (timeoutLoop currentTime connection.operations.length
        (KineticAllocator_GetFirstOperation connection) connection).1.operations →
      x ∈ connection.operations ∧ x.addr ≠ operation.addr := by
    intro x hx
    exact ⟨mem_operations_timeoutLoop currentTime x _ _ _ hx, hfree hcb x hx⟩
  refine ⟨?_, fun hx => (hleft operation hx).2 rfl⟩
  unfold KineticOperation_AssociateResponseWithOperation
  cases hv : validResponse response with
  | none => rfl
  | some r =>
    obtain ⟨pdu, t⟩ := r
    have ht : t = q := hresp pdu t hv
    subst ht
    simp only
    cases hf : KineticAllocator_GetFirstOperation
        (timeoutLoop currentTime connection.operations.length
          (KineticAllocator_GetFirstOperation connection) connection).1 with
    | none => rfl
    | some first =>
      simp only
      rw [associateLoop_miss pdu t _ (fun x hx => hother x (hleft x hx).1 (hleft x hx).2)]

/-- Before the sweep the response acknowledging sequence 5 finds the first operation;
after the sweep timed that operation out, the same response finds nothing. -/
theorem late_response_is_miss_witness :
    sentExampleOperation ∈ busyConnection.operations
    ∧ Event.KineticOperation_Complete sentExampleOperation.addr
        KINETIC_STATUS_OPERATION_TIMEDOUT
      ∈ (KineticOperation_TimeoutOperations { tv_sec := 1021, tv_usec := 0 } busyConnection).2
    ∧ validResponse (some exampleResponse) = some (exampleResponse, 5)
    ∧ carriesSequence sentExampleOperation 5 = true
    ∧ KineticOperation_AssociateResponseWithOperation busyConnection (some exampleResponse)
        = (some { sentExampleOperation with response := some exampleResponse },
            { busyConnection with operations :=
                [{ sentExampleOperation with response := some exampleResponse },
                 laterOperation] })
    ∧ KineticOperation_AssociateResponseWithOperation
        (KineticOperation_TimeoutOperations { tv_sec := 1021, tv_usec := 0 } busyConnection).1
        (some exampleResponse)
      = (none,
          (KineticOperation_TimeoutOperations { tv_sec := 1021, tv_usec := 0 }
            busyConnection).1) :=
  ⟨by decide, by decide, rfl, rfl, rfl,
    (late_response_is_miss { tv_sec := 1021, tv_usec := 0 } busyConnection
      sentExampleOperation 5 (some exampleResponse) (by decide) (by decide) (by decide)
      (by decide) (by decide)
      (fun pdu t h => by
        have h5 : validResponse (some exampleResponse) = some (exampleResponse, 5) := rfl
        rw [h5] at h
        simp only [Option.some.injEq, Prod.mk.injEq] at h
        exact h.2.symm)).1⟩

/-! ## Correlation by ack sequence -/

/-- A response of type RESPONSE whose command header carries an ack sequence passes the
guard, with that ack sequence as the target. -/
theorem validResponse_of_valid (response : KineticPDU) (command : KineticProto_Command)
    (header : KineticProto_Command_Header)
    (ht : response.type = KINETIC_PDU_TYPE_RESPONSE)
    (hc : response.commandTarget = some command) (hh : command.header = some header)
    (ha : header.has_ackSequence = true) :
    validResponse (some response) = some (response, header.ackSequence) := by
  simp [validResponse, hc, hh, ha, ht]

/-- The loop stops at the first operation that carries the sequence: the operations
before it and after it stay as they were. -/
theorem associateLoop_first (response : KineticPDU) (q : Int)
    (pre post : List KineticOperation) (operation : KineticOperation)
    (hpre : ∀ o, o ∈ pre → carriesSequence o q = false)
    (hop : carriesSequence operation q = true) :
    associateLoop response q (pre ++ operation :: post) =
      (some { operation with response := some response },
        pre ++ { operation with response := some response } :: post) := by
  induction pre with
  | nil => simp [associateLoop, hop]
  | cons o rest ih =>
    have ho : carriesSequence o q = false := hpre o (List.mem_cons_self _ _)
    have hr := ih (fun x hx => hpre x (List.mem_cons_of_mem _ hx))
    simp [associateLoop, ho, hr]

/-- A list with an operation that carries the sequence splits at the first one. -/
theorem exists_first_carrier (q : Int) (l : List KineticOperation)
    (h : ∃ o, o ∈ l ∧ carriesSequence o q = true) :
    ∃ pre operation post, l = pre ++ operation :: post
      ∧ (∀ o, o ∈ pre → carriesSequence o q = false)
      ∧ carriesSequence operation q = true := by
  induction l with
  | nil =>
    obtain ⟨o, ho, _⟩ := h
    exact absurd ho (List.not_mem_nil o)
  | cons x rest ih =>
    by_cases hx : carriesSequence x q = true
    · exact ⟨[], x, rest, rfl, fun o ho => absurd ho (List.not_mem_nil o), hx⟩
    · have hx' : carriesSequence x q = false := by
        cases hc : carriesSequence x q with
        | false => rfl
        | true => exact absurd hc hx
      obtain ⟨o, ho, hoc⟩ := h
      have hrest : ∃ o, o ∈ rest ∧ carriesSequence o q = true := by
        rcases List.mem_cons.1 ho with h1 | h1
        · rw [h1] at hoc
          exact absurd hoc hx
        · exact ⟨o, h1, hoc⟩
      obtain ⟨pre, operation, post, hl, hpre, hop⟩ := ih hrest
      refine ⟨x :: pre, operation, post, by rw [hl]; rfl, ?_, hop⟩
      intro o1 ho1
      rcases List.mem_cons.1 ho1 with h1 | h1
      · rw [h1]; exact hx'
      · exact hpre o1 h1

/-- The test of lines 208-216 is the match the specification names: the request is a
REQUEST PDU, its command header has `has_sequence` set, and the sequence is the target. -/
theorem carriesSequence_iff (operation : KineticOperation) (q : Int) :
    carriesSequence operation q = true ↔ MatchesSequence operation q := by
  unfold carriesSequence MatchesSequence
  constructor
  · intro h
    cases hr : operation.request with
    | none => rw [hr] at h; simp at h
    | some request =>
      rw [hr] at h
      simp only [Bool.and_eq_true, decide_eq_true_eq] at h
      cases hc : request.commandTarget with
      | none => rw [hc] at h; simp at h
      | some command =>
        rw [hc] at h
        simp only at h
        cases hh : command.header with
        | none => rw [hh] at h; simp at h
        | some header =>
          rw [hh] at h
          simp only [Bool.and_eq_true, decide_eq_true_eq] at h
          exact ⟨request, command, header, rfl, h.1, hc, hh, h.2.1, h.2.2⟩
  · rintro ⟨request, command, header, hr, ht, hc, hh, hs, hq⟩
    simp [hr, ht, hc, hh, hs, hq]

/-- C11: correlation is by ack sequence only.  For every valid response (type RESPONSE,
command header present with has_ackSequence) and every list of pending operations with
at least one operation whose request is a REQUEST PDU with has_sequence and sequence
equal to the response's ackSequence, the lookup returns the first such operation in list
order, wherever it sits, with its response set to the given response, and leaves every
other operation, and the order of the list, unchanged. -/
theorem associate_returns_first_match (connection : KineticConnection)
    (response : KineticPDU) (command : KineticProto_Command)
    (header : KineticProto_Command_Header)
    (ht : response.type = KINETIC_PDU_TYPE_RESPONSE)
    (hc : response.commandTarget = some command) (hh : command.header = some header)
    (ha : header.has_ackSequence = true)
    (hex : ∃ o, o ∈ connection.operations ∧ MatchesSequence o header.ackSequence) :
    ∃ pre operation post,
      connection.operations = pre ++ operation :: post
      ∧ (∀ o, o ∈ pre → ¬ MatchesSequence o header.ackSequence)
      ∧ MatchesSequence operation header.ackSequence
      ∧ KineticOperation_AssociateResponseWithOperation connection (some response) =
          (some { operation with response := some response },
            { connection with
                operations := pre ++ { operation with response := some response } :: post }) := by
  have hex1 : ∃ o, o ∈ connection.operations ∧ carriesSequence o header.ackSequence = true := by
    obtain ⟨o, ho, hm⟩ := hex
    exact ⟨o, ho, (carriesSequence_iff o header.ackSequence).2 hm⟩
  obtain ⟨pre, operation, post, hl, hpre, hop⟩ :=
    exists_first_carrier header.ackSequence connection.operations hex1
  refine ⟨pre, operation, post, hl, ?_, (carriesSequence_iff _ _).1 hop, ?_⟩
  · intro o ho hm
    have h1 := hpre o ho
    rw [(carriesSequence_iff o header.ackSequence).2 hm] at h1
    exact absurd h1 (by decide)
  unfold KineticOperation_AssociateResponseWithOperation
  rw [validResponse_of_valid response command header ht hc hh ha]
  simp only
  have hne : KineticAllocator_GetFirstOperation connection ≠ none := by
    unfold KineticAllocator_GetFirstOperation
    rw [hl]
    cases pre <;> simp
  cases hf : KineticAllocator_GetFirstOperation connection with
  | none => exact absurd hf hne
  | some first =>
    simp only
    rw [hl, associateLoop_first response header.ackSequence pre post operation hpre hop]

/-- C12: the lookup returns NULL and changes no operation (no response slot is written, the
connection is as before) whenever the response is invalid (NULL, no command, no command
header, has_ackSequence false, or PDU type not RESPONSE), the connection has no pending
operations, or no pending operation's request carries the response's ackSequence. -/
theorem associate_miss_returns_null (connection : KineticConnection) :
    KineticOperation_AssociateResponseWithOperation connection none = (none, connection)
    ∧ (∀ response : KineticPDU,
        (response.commandTarget = none
          ∨ (∃ command, response.commandTarget = some command ∧ command.header = none)
          ∨ (∃ command header, response.commandTarget = some command
              ∧ command.header = some header ∧ header.has_ackSequence = false)
          ∨ response.type ≠ KINETIC_PDU_TYPE_RESPONSE) →
        KineticOperation_AssociateResponseWithOperation connection (some response)
          = (none, connection))
    ∧ (∀ response : Option KineticPDU, connection.operations = [] →
        KineticOperation_AssociateResponseWithOperation connection response
          = (none, connection))
    ∧ (∀ (response : KineticPDU) (command : KineticProto_Command)
        (header : KineticProto_Command_Header),
        response.commandTarget = some command → command.header = some header →
        (∀ o, o ∈ connection.operations → carriesSequence o header.ackSequence = false) →
        KineticOperation_AssociateResponseWithOperation connection (some response)
          = (none, connection)) := by
  refine ⟨rfl, ?_, ?_, ?_⟩
  · intro response h
    have hv : validResponse (some response) = none := by
      unfold validResponse
      rcases h with h | ⟨command, h1, h2⟩ | ⟨command, header, h1, h2, h3⟩ | h
      · simp [h]
      · simp [h1, h2]
      · simp [h1, h2, h3]
      · cases hc : response.commandTarget with
        | none => simp [hc]
        | some command =>
          cases hh : command.header with
          | none => simp [hc, hh]
          | some header => simp [hc, hh, h]
    unfold KineticOperation_AssociateResponseWithOperation
    rw [hv]
  · intro response hl
    unfold KineticOperation_AssociateResponseWithOperation
    cases validResponse response with
    | none => rfl
    | some r =>
      obtain ⟨pdu, t⟩ := r
      simp [KineticAllocator_GetFirstOperation, hl]
  · intro response command header hc hh hno
    unfold KineticOperation_AssociateResponseWithOperation
    cases hv : validResponse (some response) with
    | none => rfl
    | some r =>
      obtain ⟨pdu, t⟩ := r
      have ht : t = header.ackSequence := by
        unfold validResponse at hv
        simp only [hc, hh] at hv
        split at hv
        · exact absurd hv (by simp)
        · simp only [Option.some.injEq, Prod.mk.injEq] at hv
          exact hv.2.symm
      subst ht
      simp only
      cases hf : KineticAllocator_GetFirstOperation connection with
      | none => rfl
      | some first =>
        simp only
        rw [associateLoop_miss pdu header.ackSequence _ hno]

/-! ## Completion -/

/-- C13: for every operation that has a user closure callback and every status,
`KineticOperation_Complete` calls the closure's callback exactly once, with completion
data carrying the given status and with the closure's clientData, and afterwards frees
the operation: it is no longer in the connection's list, and every operation at another
address still is. -/
theorem complete_calls_callback_once_and_frees (connection : KineticConnection)
    (operation : KineticOperation) (status : KineticStatus) (callback : Nat)
    (hcb : operation.closure.callback = some callback) :
    (KineticOperation_Complete connection operation status).2 =
      [Event.KineticOperation_Complete operation.addr status,
       Event.closure_callback callback status operation.closure.clientData,
       Event.KineticAllocator_FreeOperation connection.addr operation.addr]
    ∧ ((KineticOperation_Complete connection operation status).2.filter
        (fun e => match e with
          | Event.closure_callback _ _ _ => true
          | _ => false)).length = 1
    ∧ operation ∉ (KineticOperation_Complete connection operation status).1.operations
    ∧ (∀ x, x ∈ (KineticOperation_Complete connection operation status).1.operations ↔
        x ∈ connection.operations ∧ x.addr ≠ operation.addr) := by
  have hev : (KineticOperation_Complete connection operation status).2 =
      [Event.KineticOperation_Complete operation.addr status,
       Event.closure_callback callback status operation.closure.clientData,
       Event.KineticAllocator_FreeOperation connection.addr operation.addr] := by
    simp [KineticOperation_Complete, hcb]
  have hmem : ∀ x, x ∈ (KineticOperation_Complete connection operation status).1.operations ↔
      x ∈ connection.operations ∧ x.addr ≠ operation.addr := by
    intro x
    rw [mem_operations_complete]
    constructor
    · rintro ⟨h1, h2⟩
      exact ⟨h1, h2 (by rw [hcb]; simp)⟩
    · rintro ⟨h1, h2⟩
      exact ⟨h1, fun _ => h2⟩
  refine ⟨hev, ?_, ?_, hmem⟩
  · rw [hev]; rfl
  · intro h
    exact ((hmem operation).1 h).2 rfl

/-! ## The builders, step by step -/

/-- What the asserts give for a request whose command pointer addresses its own command:
the header is there and carries a sequence, and `proto` is set. -/
theorem readyToBuild_header (operation : KineticOperation) (request : KineticPDU)
    (h : ReadyToBuild operation request) :
    ∃ header, request.protoData.command.header = some header ∧ header.has_sequence = true
      ∧ request.protoIsSet = true := by
  obtain ⟨hval, hreq, hcmd⟩ := h
  unfold KineticOperation_ValidateOperation at hval
  rw [hreq] at hval
  cases hc : operation.connection with
  | none => rw [hc] at hval; simp at hval
  | some a =>
    rw [hc] at hval
    simp only [KineticPDU.commandTarget, hcmd, Bool.and_eq_true] at hval
    cases hh : request.protoData.command.header with
    | none => rw [hh] at hval; simp at hval
    | some header =>
      rw [hh] at hval
      exact ⟨header, rfl, hval.2, hval.1.1.2⟩

theorem setMessageType_eq (request : KineticPDU) (header : KineticProto_Command_Header)
    (t : KineticProto_Command_MessageType)
    (hh : request.protoData.command.header = some header) :
    setMessageType request t = some (withMessageType request header t) := by
  simp [setMessageType, hh, withMessageType]

theorem setMessageTypeThroughCommand_eq (request : KineticPDU)
    (header : KineticProto_Command_Header) (t : KineticProto_Command_MessageType)
    (hcmd : request.command = CommandPtr.protoData)
    (hh : request.protoData.command.header = some header) :
    setMessageTypeThroughCommand request t = some (withMessageType request header t) := by
  simp [setMessageTypeThroughCommand, KineticPDU.commandTarget, KineticPDU.updateCommand, hcmd,
    hh, withMessageType]

theorem headerTarget_withMessageType (request : KineticPDU)
    (header : KineticProto_Command_Header) (t : KineticProto_Command_MessageType)
    (hcmd : request.command = CommandPtr.protoData) :
    (withMessageType request header t).headerTarget =
      some { header with messageType := t, has_messageType := true } := by
  simp [KineticPDU.headerTarget, KineticPDU.commandTarget, withMessageType, hcmd]

/-- The connection after a builder: the session's counter advanced by one. -/
theorem sequence_after_increment (connection : KineticConnection) :
    ({ connection with session := KineticSession_IncrementSequence connection.session }
      : KineticConnection).session.sequence = connection.session.sequence + 1 := rfl

theorem buildNoop_eq (connection : KineticConnection) (operation : KineticOperation)
    (request : KineticPDU) (header : KineticProto_Command_Header)
    (h : ReadyToBuild operation request)
    (hh : request.protoData.command.header = some header) :
    KineticOperation_BuildNoop connection operation =
      some ({ connection with session := KineticSession_IncrementSequence connection.session },
        { operation with
            request := some (withMessageType request header KineticProto_Command_MessageType.KINETIC_PROTO_COMMAND_MESSAGE_TYPE_NOOP),
            valueEnabled := false, sendValue := false,
            callback := some KineticOperationCallback.KineticOperation_NoopCallback }) := by
  obtain ⟨hval, hreq, _⟩ := h
  unfold KineticOperation_BuildNoop
  simp only [hval, hreq, setMessageType_eq _ _ _ hh, Bool.not_true, Bool.false_eq_true,
    if_false]

theorem buildFlush_eq (connection : KineticConnection) (operation : KineticOperation)
    (request : KineticPDU) (header : KineticProto_Command_Header)
    (h : ReadyToBuild operation request)
    (hh : request.protoData.command.header = some header) :
    KineticOperation_BuildFlush connection operation =
      some ({ connection with session := KineticSession_IncrementSequence connection.session },
        { operation with
            request := some (withMessageType request header KineticProto_Command_MessageType.KINETIC_PROTO_COMMAND_MESSAGE_TYPE_FLUSHALLDATA),
            valueEnabled := false, sendValue := false,
            callback := some KineticOperationCallback.KineticOperation_FlushCallback }) := by
  obtain ⟨hval, hreq, _⟩ := h
  unfold KineticOperation_BuildFlush
  simp only [hval, hreq, setMessageType_eq _ _ _ hh, Bool.not_true, Bool.false_eq_true,
    if_false]

theorem buildPut_eq (env : Env) (connection : KineticConnection)
    (operation : KineticOperation) (entry : KineticEntry)
    (request : KineticPDU) (header : KineticProto_Command_Header)
    (h : ReadyToBuild operation request)
    (hh : request.protoData.command.header = some header) :
    KineticOperation_BuildPut env connection operation entry =
      some ({ connection with session := KineticSession_IncrementSequence connection.session },
        { operation with
            request := some { withMessageType request header KineticProto_Command_MessageType.KINETIC_PROTO_COMMAND_MESSAGE_TYPE_PUT with
              protoData := env.KineticMessage_ConfigureKeyValue
                (withMessageType request header KineticProto_Command_MessageType.KINETIC_PROTO_COMMAND_MESSAGE_TYPE_PUT).protoData entry },
            entry := some entry,
            valueEnabled := !entry.metadataOnly, sendValue := true,
            callback := some KineticOperationCallback.KineticOperation_PutCallback }) := by
  obtain ⟨hval, hreq, _⟩ := h
  unfold KineticOperation_BuildPut
  simp only [hval, hreq, setMessageType_eq _ _ _ hh, Bool.not_true, Bool.false_eq_true,
    if_false]

/-- The entry as the GET and DELETE builders leave it: the value buffer, if there is
one, reset. -/
theorem build_get_command_eq (env : Env) (connection : KineticConnection)
    (operation : KineticOperation) (entry : KineticEntry) (cb : KineticOperationCallback)
    (command_id : KineticProto_Command_MessageType)
    (request : KineticPDU) (header : KineticProto_Command_Header)
    (h : ReadyToBuild operation request)
    (hh : request.protoData.command.header = some header) :
    build_get_command env connection operation entry cb command_id =
      some ({ connection with session := KineticSession_IncrementSequence connection.session },
        { operation with
            request := some { withMessageType request header command_id with
              protoData := env.KineticMessage_ConfigureKeyValue
                (withMessageType request header command_id).protoData entry },
            entry := some (if entry.value.array.data.isSome then
              { entry with value := ByteBuffer_Reset entry.value } else entry),
            valueEnabled := !entry.metadataOnly, sendValue := false,
            callback := some cb }) := by
  obtain ⟨hval, hreq, _⟩ := h
  unfold build_get_command
  simp only [hval, hreq, setMessageType_eq _ _ _ hh, Bool.not_true, Bool.false_eq_true,
    if_false]
  cases entry.value.array.data <;> rfl

theorem buildDelete_eq (env : Env) (connection : KineticConnection)
    (operation : KineticOperation) (entry : KineticEntry)
    (request : KineticPDU) (header : KineticProto_Command_Header)
    (h : ReadyToBuild operation request)
    (hh : request.protoData.command.header = some header) :
    KineticOperation_BuildDelete env connection operation entry =
      some ({ connection with session := KineticSession_IncrementSequence connection.session },
        { operation with
            request := some { withMessageType request header KineticProto_Command_MessageType.KINETIC_PROTO_COMMAND_MESSAGE_TYPE_DELETE with
              protoData := env.KineticMessage_ConfigureKeyValue
                (withMessageType request header KineticProto_Command_MessageType.KINETIC_PROTO_COMMAND_MESSAGE_TYPE_DELETE).protoData entry },
            entry := some (if entry.value.array.data.isSome then
              { entry with value := ByteBuffer_Reset entry.value } else entry),
            valueEnabled := false, sendValue := false,
            callback := some KineticOperationCallback.KineticOperation_DeleteCallback }) := by
  obtain ⟨hval, hreq, _⟩ := h
  unfold KineticOperation_BuildDelete
  simp only [hval, hreq, setMessageType_eq _ _ _ hh, Bool.not_true, Bool.false_eq_true,
    if_false]

theorem buildGetKeyRange_eq (env : Env) (connection : KineticConnection)
    (operation : KineticOperation) (range : KineticKeyRange) (buffers : ByteBufferArray)
    (request : KineticPDU) (header : KineticProto_Command_Header)
    (h : ReadyToBuild operation request)
    (hh : request.protoData.command.header = some header) :
    KineticOperation_BuildGetKeyRange env connection operation range buffers =
      some ({ connection with session := KineticSession_IncrementSequence connection.session },
        { operation with
            request := some { withMessageType request header KineticProto_Command_MessageType.KINETIC_PROTO_COMMAND_MESSAGE_TYPE_GETKEYRANGE with
              protoData := env.KineticMessage_ConfigureKeyRange
                (withMessageType request header KineticProto_Command_MessageType.KINETIC_PROTO_COMMAND_MESSAGE_TYPE_GETKEYRANGE).protoData range },
            valueEnabled := false, sendValue := false,
            buffers := some buffers,
            callback := some KineticOperationCallback.KineticOperation_GetKeyRangeCallback }) := by
  obtain ⟨hval, hreq, hcmd⟩ := h
  unfold KineticOperation_BuildGetKeyRange
  simp only [hval, hreq, setMessageTypeThroughCommand_eq _ _ _ hcmd hh, Bool.not_true,
    Bool.false_eq_true, if_false]

theorem buildGetLog_eq (env : Env) (connection : KineticConnection)
    (operation : KineticOperation) (type info : Nat)
    (request : KineticPDU) (header : KineticProto_Command_Header)
    (h : ReadyToBuild operation request)
    (hh : request.protoData.command.header = some header) :
    ∃ request1,
      KineticOperation_BuildGetLog env connection operation type info =
        some ({ connection with
                  session := KineticSession_IncrementSequence connection.session },
          { operation with
              request := some request1,
              deviceInfo := some info,
              callback := some KineticOperationCallback.KineticOperation_GetLogCallback })
      ∧ request1.headerTarget =
          some { header with messageType := KineticProto_Command_MessageType.KINETIC_PROTO_COMMAND_MESSAGE_TYPE_GETLOG, has_messageType := true } := by
  obtain ⟨hval, hreq, hcmd⟩ := h
  unfold KineticOperation_BuildGetLog
  simp only [hval, hreq, setMessageTypeThroughCommand_eq _ _ _ hcmd hh, Bool.not_true,
    Bool.false_eq_true, if_false]
  simp only [KineticPDU.updateCommand, withMessageType, hcmd]
  exact ⟨_, rfl, by simp [KineticPDU.headerTarget, KineticPDU.commandTarget, hcmd]⟩

theorem buildP2POperation_eq (connection : KineticConnection)
    (operation : KineticOperation) (p2pOp : KineticP2P_Operation)
    (built : Option KineticProto_Command_P2POperation)
    (request : KineticPDU) (header : KineticProto_Command_Header)
    (h : ReadyToBuild operation request)
    (hh : request.protoData.command.header = some header)
    (hb : build_p2pOp 0 p2pOp = some built) :
    ∃ request1,
      KineticOperation_BuildP2POperation connection operation p2pOp =
        some (match built with
          | none =>
            (KINETIC_STATUS_OPERATION_INVALID,
              { connection with
                  session := KineticSession_IncrementSequence connection.session },
              { operation with request := some request1 })
          | some _ =>
            (KINETIC_STATUS_SUCCESS,
              { connection with
                  session := KineticSession_IncrementSequence connection.session },
              { operation with
                  request := some request1,
                  p2pOp := some p2pOp,
                  callback := some KineticOperationCallback.KineticOperation_P2POperationCallback }))
      ∧ request1.headerTarget =
          some { header with messageType := KineticProto_Command_MessageType.KINETIC_PROTO_COMMAND_MESSAGE_TYPE_PEER2PEERPUSH, has_messageType := true }
      ∧ request1.bodyTarget.map (fun b => b.p2pOperation) = some built := by
  obtain ⟨hval, hreq, hcmd⟩ := h
  unfold KineticOperation_BuildP2POperation
  simp only [hval, hreq, setMessageTypeThroughCommand_eq _ _ _ hcmd hh, Bool.not_true,
    Bool.false_eq_true, if_false, hb]
  simp only [KineticPDU.updateCommand, withMessageType, hcmd]
  cases built with
  | none =>
    exact ⟨_, rfl, by simp [KineticPDU.headerTarget, KineticPDU.commandTarget, hcmd],
      by simp [KineticPDU.bodyTarget, KineticPDU.commandTarget, hcmd]⟩
  | some t =>
    exact ⟨_, rfl, by simp [KineticPDU.headerTarget, KineticPDU.commandTarget, hcmd],
      by simp [KineticPDU.bodyTarget, KineticPDU.commandTarget, hcmd]⟩

theorem buildInstantSecureErase_eq (connection : KineticConnection)
    (operation : KineticOperation)
    (request : KineticPDU) (header : KineticProto_Command_Header)
    (h : ReadyToBuild operation request)
    (hh : request.protoData.command.header = some header)
    (hp : request.protoIsSet = true) :
    ∃ request1,
      KineticOperation_BuildInstantSecureErase connection operation =
        some ({ connection with
                  session := KineticSession_IncrementSequence connection.session },
          { operation with
              request := some request1,
              valueEnabled := false, sendValue := false,
              callback := some KineticOperationCallback.KineticOperation_InstantSecureEraseCallback })
      ∧ request1.headerTarget =
          some { header with messageType := KineticProto_Command_MessageType.KINETIC_PROTO_COMMAND_MESSAGE_TYPE_SETUP, has_messageType := true }
      ∧ request1.protoData.message =
          { request.protoData.message with
              has_authType := true,
              authType := KINETIC_PROTO_MESSAGE_AUTH_TYPE_PINAUTH,
              hmacAuth := none,
              pinAuth := some { request.protoData.pinAuth with pin := [], has_pin := true } }
      ∧ request1.bodyTarget.map (fun b => b.pinOp) =
          some (some { request.protoData.pinOp with
            pinOpType := KineticProto_Command_PinOperation_PinOpType.KINETIC_PROTO_COMMAND_PIN_OPERATION_PIN_OP_TYPE_SECURE_ERASE_PINOP,
            has_pinOpType := true }) := by
  obtain ⟨hval, hreq, hcmd⟩ := h
  unfold KineticOperation_BuildInstantSecureErase
  simp only [hval, hreq, setMessageType_eq _ _ _ hh, Bool.not_true,
    Bool.false_eq_true, if_false]
  simp only [KineticPDU.updateCommand, withMessageType, hcmd, hp, Bool.not_true,
    Bool.false_eq_true, if_false]
  exact ⟨_, rfl, by simp [KineticPDU.headerTarget, KineticPDU.commandTarget, hcmd], rfl,
    by simp [KineticPDU.bodyTarget, KineticPDU.commandTarget, hcmd]⟩

theorem buildSetClusterVersion_eq (connection : KineticConnection)
    (operation : KineticOperation) (newClusterVersion : Int)
    (request : KineticPDU) (header : KineticProto_Command_Header)
    (body : KineticProto_Command_Body) (setup : KineticProto_Command_Setup)
    (h : ReadyToBuild operation request)
    (hh : request.protoData.command.header = some header)
    (hb : request.bodyTarget = some body) (hs : body.setup = some setup) :
    ∃ request1,
      KineticOperation_BuildSetClusterVersion connection operation newClusterVersion =
        some (KineticConnection_IncrementSequence connection,
          { operation with
              request := some request1,
              valueEnabled := false, sendValue := false,
              callback := some KineticOperationCallback.KineticOperation_SetClusterVersionCallback })
      ∧ request1.headerTarget =
          some { header with messageType := KineticProto_Command_MessageType.KINETIC_PROTO_COMMAND_MESSAGE_TYPE_SETUP, has_messageType := true } := by
  obtain ⟨hval, hreq, hcmd⟩ := h
  unfold KineticOperation_BuildSetClusterVersion
  have hb1 : (withMessageType request header KineticProto_Command_MessageType.KINETIC_PROTO_COMMAND_MESSAGE_TYPE_SETUP).bodyTarget =
      some (match request.protoData.command.body with
        | BodyPtr.unpacked b => b
        | _ => request.protoData.body) := by
    simp only [KineticPDU.bodyTarget, KineticPDU.commandTarget, hcmd] at hb
    simp only [KineticPDU.bodyTarget, KineticPDU.commandTarget, withMessageType, hcmd]
    cases hbp : request.protoData.command.body with
    | null => rw [hbp] at hb; simp at hb
    | protoData => rfl
    | unpacked b => rfl
  have hb2 : (match request.protoData.command.body with
        | BodyPtr.unpacked b => b
        | _ => request.protoData.body) = body := by
    simp only [KineticPDU.bodyTarget, KineticPDU.commandTarget, hcmd] at hb
    cases hbp : request.protoData.command.body with
    | null => rw [hbp] at hb; simp at hb
    | protoData => rw [hbp] at hb; simpa using hb
    | unpacked b => rw [hbp] at hb; simpa using hb
  rw [hb2] at hb1
  simp only [hval, hreq, setMessageType_eq _ _ _ hh, Bool.not_true,
    Bool.false_eq_true, if_false, hb1, hs]
  simp only [KineticPDU.bodyTarget, KineticPDU.commandTarget, hcmd] at hb
  cases hbp : request.protoData.command.body with
  | null => rw [hbp] at hb; simp at hb
  | protoData =>
    simp only [KineticPDU.updateBody, KineticPDU.commandTarget, KineticPDU.updateCommand,
      withMessageType, hcmd, hbp]
    exact ⟨_, rfl, by simp [KineticPDU.headerTarget, KineticPDU.commandTarget, hcmd]⟩
  | unpacked b =>
    simp only [KineticPDU.updateBody, KineticPDU.commandTarget, KineticPDU.updateCommand,
      withMessageType, hcmd, hbp]
    exact ⟨_, rfl, by simp [KineticPDU.headerTarget, KineticPDU.commandTarget, hcmd]⟩

/-- The header of a request whose message an opaque helper has filled in. -/
theorem headerTarget_configured (request : KineticPDU) (header : KineticProto_Command_Header)
    (t : KineticProto_Command_MessageType) (m : KineticMessage)
    (hcmd : request.command = CommandPtr.protoData)
    (hm : m.command.header = (withMessageType request header t).protoData.command.header) :
    ({ withMessageType request header t with protoData := m } : KineticPDU).headerTarget =
      some { header with messageType := t, has_messageType := true } := by
  simp only [KineticPDU.headerTarget, KineticPDU.commandTarget, withMessageType, hcmd, hm]

/-! ## Claims about the builders -/

/-- C14: each builder sets the request's command header message type as in the builder
catalog and marks it present: NOOP, PUT, GET, GETNEXT, GETPREVIOUS, DELETE,
FLUSHALLDATA, GETKEYRANGE, GETLOG, PEER2PEERPUSH, and SETUP for both
`KineticOperation_BuildSetClusterVersion` and `KineticOperation_BuildInstantSecureErase`. -/
theorem builders_set_message_type (env : Env) (connection : KineticConnection)
    (operation : KineticOperation) (request : KineticPDU)
    (h : ReadyToBuild operation request) (henv : KeepsCommandHeader env) :
    BuiltWithMessageType (KineticOperation_BuildNoop connection operation) KineticProto_Command_MessageType.KINETIC_PROTO_COMMAND_MESSAGE_TYPE_NOOP
    ∧ (∀ entry, BuiltWithMessageType
        (KineticOperation_BuildPut env connection operation entry) KineticProto_Command_MessageType.KINETIC_PROTO_COMMAND_MESSAGE_TYPE_PUT)
    ∧ (∀ entry, BuiltWithMessageType
        (KineticOperation_BuildGet env connection operation entry) KineticProto_Command_MessageType.KINETIC_PROTO_COMMAND_MESSAGE_TYPE_GET)
    ∧ (∀ entry, BuiltWithMessageType
        (KineticOperation_BuildGetNext env connection operation entry) KineticProto_Command_MessageType.KINETIC_PROTO_COMMAND_MESSAGE_TYPE_GETNEXT)
    ∧ (∀ entry, BuiltWithMessageType
        (KineticOperation_BuildGetPrevious env connection operation entry) KineticProto_Command_MessageType.KINETIC_PROTO_COMMAND_MESSAGE_TYPE_GETPREVIOUS)
    ∧ (∀ entry, BuiltWithMessageType
        (KineticOperation_BuildDelete env connection operation entry) KineticProto_Command_MessageType.KINETIC_PROTO_COMMAND_MESSAGE_TYPE_DELETE)
    ∧ BuiltWithMessageType (KineticOperation_BuildFlush connection operation) KineticProto_Command_MessageType.KINETIC_PROTO_COMMAND_MESSAGE_TYPE_FLUSHALLDATA
    ∧ (∀ range buffers, BuiltWithMessageType
        (KineticOperation_BuildGetKeyRange env connection operation range buffers)
        KineticProto_Command_MessageType.KINETIC_PROTO_COMMAND_MESSAGE_TYPE_GETKEYRANGE)
    ∧ (∀ type info, BuiltWithMessageType
        (KineticOperation_BuildGetLog env connection operation type info) KineticProto_Command_MessageType.KINETIC_PROTO_COMMAND_MESSAGE_TYPE_GETLOG)
    ∧ (∀ p2pOp built, build_p2pOp 0 p2pOp = some built →
        BuiltWithMessageType
          ((KineticOperation_BuildP2POperation connection operation p2pOp).map (fun r => r.2))
          KineticProto_Command_MessageType.KINETIC_PROTO_COMMAND_MESSAGE_TYPE_PEER2PEERPUSH)
    ∧ (∀ newClusterVersion body setup,
        request.bodyTarget = some body → body.setup = some setup →
        BuiltWithMessageType
          (KineticOperation_BuildSetClusterVersion connection operation newClusterVersion)
          KineticProto_Command_MessageType.KINETIC_PROTO_COMMAND_MESSAGE_TYPE_SETUP)
    ∧ BuiltWithMessageType
        (KineticOperation_BuildInstantSecureErase connection operation) KineticProto_Command_MessageType.KINETIC_PROTO_COMMAND_MESSAGE_TYPE_SETUP := by
  obtain ⟨header, hh, _, hp⟩ := readyToBuild_header operation request h
  have hcmd : request.command = CommandPtr.protoData := h.2.2
  refine ⟨?_, ?_, ?_, ?_, ?_, ?_, ?_, ?_, ?_, ?_, ?_, ?_⟩
  · rw [buildNoop_eq connection operation request header h hh]
    exact ⟨_, _, _, _, rfl, rfl, headerTarget_withMessageType _ _ _ hcmd, rfl, rfl⟩
  · intro entry
    rw [buildPut_eq env connection operation entry request header h hh]
    exact ⟨_, _, _, _, rfl, rfl,
      headerTarget_configured _ _ _ _ hcmd (henv.1 _ _), rfl, rfl⟩
  · intro entry
    unfold KineticOperation_BuildGet
    rw [build_get_command_eq env connection operation entry _ _ request header h hh]
    exact ⟨_, _, _, _, rfl, rfl,
      headerTarget_configured _ _ _ _ hcmd (henv.1 _ _), rfl, rfl⟩
  · intro entry
    unfold KineticOperation_BuildGetNext
    rw [build_get_command_eq env connection operation entry _ _ request header h hh]
    exact ⟨_, _, _, _, rfl, rfl,
      headerTarget_configured _ _ _ _ hcmd (henv.1 _ _), rfl, rfl⟩
  · intro entry
    unfold KineticOperation_BuildGetPrevious
    rw [build_get_command_eq env connection operation entry _ _ request header h hh]
    exact ⟨_, _, _, _, rfl, rfl,
      headerTarget_configured _ _ _ _ hcmd (henv.1 _ _), rfl, rfl⟩
  · intro entry
    rw [buildDelete_eq env connection operation entry request header h hh]
    exact ⟨_, _, _, _, rfl, rfl,
      headerTarget_configured _ _ _ _ hcmd (henv.1 _ _), rfl, rfl⟩
  · rw [buildFlush_eq connection operation request header h hh]
    exact ⟨_, _, _, _, rfl, rfl, headerTarget_withMessageType _ _ _ hcmd, rfl, rfl⟩
  · intro range buffers
    rw [buildGetKeyRange_eq env connection operation range buffers request header h hh]
    exact ⟨_, _, _, _, rfl, rfl,
      headerTarget_configured _ _ _ _ hcmd (henv.2 _ _), rfl, rfl⟩
  · intro type info
    obtain ⟨request1, heq, hhdr⟩ :=
      buildGetLog_eq env connection operation type info request header h hh
    rw [heq]
    exact ⟨_, _, _, _, rfl, rfl, hhdr, rfl, rfl⟩
  · intro p2pOp built hb
    obtain ⟨request1, heq, hhdr, _⟩ :=
      buildP2POperation_eq connection operation p2pOp built request header h hh hb
    rw [heq]
    cases built with
    | none => exact ⟨_, _, _, _, rfl, rfl, hhdr, rfl, rfl⟩
    | some t => exact ⟨_, _, _, _, rfl, rfl, hhdr, rfl, rfl⟩
  · intro newClusterVersion body setup hb hs
    obtain ⟨request1, heq, hhdr⟩ := buildSetClusterVersion_eq connection operation
      newClusterVersion request header body setup h hh hb hs
    rw [heq]
    exact ⟨_, _, _, _, rfl, rfl, hhdr, rfl, rfl⟩
  · obtain ⟨request1, heq, hhdr, _⟩ :=
      buildInstantSecureErase_eq connection operation request header h hh hp
    rw [heq]
    exact ⟨_, _, _, _, rfl, rfl, hhdr, rfl, rfl⟩

/-- The example operation is ready for a builder, and NOOP is its message type after
`KineticOperation_BuildNoop`. -/
theorem builders_set_message_type_witness :
    ReadyToBuild exampleOperation exampleRequest
    ∧ KeepsCommandHeader exampleEnv
    ∧ BuiltWithMessageType (KineticOperation_BuildNoop exampleConnection exampleOperation)
        KineticProto_Command_MessageType.KINETIC_PROTO_COMMAND_MESSAGE_TYPE_NOOP :=
  ⟨by decide, ⟨fun _ _ => rfl, fun _ _ => rfl⟩,
    (builders_set_message_type exampleEnv exampleConnection exampleOperation exampleRequest
      (by decide) ⟨fun _ _ => rfl, fun _ _ => rfl⟩).1⟩

/-- The value-transfer flags after the ten builders that store into them: `sendValue` is
true after PUT only, `valueEnabled` is the negation of the entry's `metadataOnly` after
PUT and the three GET builders, and both are false otherwise, whatever they were
before. -/
theorem builders_set_value_flags (env : Env) (connection : KineticConnection)
    (operation : KineticOperation) (request : KineticPDU)
    (h : ReadyToBuild operation request) :
    BuiltWithFlags (KineticOperation_BuildNoop connection operation) false false
    ∧ (∀ entry, BuiltWithFlags (KineticOperation_BuildPut env connection operation entry)
        (!entry.metadataOnly) true)
    ∧ (∀ entry, BuiltWithFlags (KineticOperation_BuildGet env connection operation entry)
        (!entry.metadataOnly) false)
    ∧ (∀ entry, BuiltWithFlags (KineticOperation_BuildGetNext env connection operation entry)
        (!entry.metadataOnly) false)
    ∧ (∀ entry, BuiltWithFlags
        (KineticOperation_BuildGetPrevious env connection operation entry)
        (!entry.metadataOnly) false)
    ∧ (∀ entry, BuiltWithFlags (KineticOperation_BuildDelete env connection operation entry)
        false false)
    ∧ BuiltWithFlags (KineticOperation_BuildFlush connection operation) false false
    ∧ (∀ range buffers, BuiltWithFlags
        (KineticOperation_BuildGetKeyRange env connection operation range buffers)
        false false)
    ∧ (∀ newClusterVersion body setup,
        request.bodyTarget = some body → body.setup = some setup →
        BuiltWithFlags
          (KineticOperation_BuildSetClusterVersion connection operation newClusterVersion)
          false false)
    ∧ BuiltWithFlags (KineticOperation_BuildInstantSecureErase connection operation)
        false false := by
  obtain ⟨header, hh, _, hp⟩ := readyToBuild_header operation request h
  refine ⟨?_, ?_, ?_, ?_, ?_, ?_, ?_, ?_, ?_, ?_⟩
  · rw [buildNoop_eq connection operation request header h hh]
    exact ⟨_, _, rfl, rfl, rfl⟩
  · intro entry
    rw [buildPut_eq env connection operation entry request header h hh]
    exact ⟨_, _, rfl, rfl, rfl⟩
  · intro entry
    unfold KineticOperation_BuildGet
    rw [build_get_command_eq env connection operation entry _ _ request header h hh]
    exact ⟨_, _, rfl, rfl, rfl⟩
  · intro entry
    unfold KineticOperation_BuildGetNext
    rw [build_get_command_eq env connection operation entry _ _ request header h hh]
    exact ⟨_, _, rfl, rfl, rfl⟩
  · intro entry
    unfold KineticOperation_BuildGetPrevious
    rw [build_get_command_eq env connection operation entry _ _ request header h hh]
    exact ⟨_, _, rfl, rfl, rfl⟩
  · intro entry
    rw [buildDelete_eq env connection operation entry request header h hh]
    exact ⟨_, _, rfl, rfl, rfl⟩
  · rw [buildFlush_eq connection operation request header h hh]
    exact ⟨_, _, rfl, rfl, rfl⟩
  · intro range buffers
    rw [buildGetKeyRange_eq env connection operation range buffers request header h hh]
    exact ⟨_, _, rfl, rfl, rfl⟩
  · intro newClusterVersion body setup hb hs
    obtain ⟨request1, heq, _⟩ := buildSetClusterVersion_eq connection operation
      newClusterVersion request header body setup h hh hb hs
    rw [heq]
    exact ⟨_, _, rfl, rfl, rfl⟩
  · obtain ⟨request1, heq, _⟩ :=
      buildInstantSecureErase_eq connection operation request header h hh hp
    rw [heq]
    exact ⟨_, _, rfl, rfl, rfl⟩

/-- C15: `KineticOperation_BuildGetLog` and `KineticOperation_BuildP2POperation` do not store
into the value-transfer flags.  Called on an operation whose `valueEnabled` and
`sendValue` are set, both return with the two flags still set, where the catalog has
them false; `KineticOperation_BuildNoop` on the same operation clears them. -/
theorem buildGetLog_and_p2p_keep_value_flags :
    (flaggedOperation.valueEnabled, flaggedOperation.sendValue) = (true, true)
    ∧ (KineticOperation_BuildGetLog exampleEnv exampleConnection flaggedOperation 0 77).map
        (fun r => (r.2.valueEnabled, r.2.sendValue)) = some (true, true)
    ∧ (KineticOperation_BuildP2POperation exampleConnection flaggedOperation simpleP2P).map
        (fun r => (r.1, r.2.2.valueEnabled, r.2.2.sendValue))
        = some (KINETIC_STATUS_SUCCESS, true, true)
    ∧ (KineticOperation_BuildNoop exampleConnection flaggedOperation).map
        (fun r => (r.2.valueEnabled, r.2.sendValue)) = some (false, false) := by
  refine ⟨rfl, ?_, ?_, ?_⟩ <;> rfl

/-- C16: after `KineticOperation_BuildInstantSecureErase` the request message uses PIN
authentication: has_authType is true and authType is PINAUTH, the hmacAuth envelope is
absent, pinAuth is attached with has_pin true and a pin of length 0, and the command
body's pinOp has has_pinOpType true with type SECURE_ERASE_PINOP. -/
theorem buildInstantSecureErase_pin_auth (connection : KineticConnection)
    (operation : KineticOperation) (request : KineticPDU)
    (h : ReadyToBuild operation request) :
    ∃ connection1 operation1 request1 pinAuth body pinOp,
      KineticOperation_BuildInstantSecureErase connection operation =
        some (connection1, operation1)
      ∧ operation1.request = some request1
      ∧ request1.protoIsSet = true
      ∧ request1.protoData.message.has_authType = true
      ∧ request1.protoData.message.authType = KINETIC_PROTO_MESSAGE_AUTH_TYPE_PINAUTH
      ∧ request1.protoData.message.hmacAuth = none
      ∧ request1.protoData.message.pinAuth = some pinAuth
      ∧ pinAuth.has_pin = true ∧ pinAuth.pin = [] ∧ pinAuth.pin.length = 0
      ∧ request1.bodyTarget = some body
      ∧ body.pinOp = some pinOp
      ∧ pinOp.has_pinOpType = true
      ∧ pinOp.pinOpType = KineticProto_Command_PinOperation_PinOpType.KINETIC_PROTO_COMMAND_PIN_OPERATION_PIN_OP_TYPE_SECURE_ERASE_PINOP := by
  obtain ⟨header, hh, _, hp⟩ := readyToBuild_header operation request h
  obtain ⟨request1, heq, _, hmsg, hbody⟩ :=
    buildInstantSecureErase_eq connection operation request header h hh hp
  have hset : request1.protoIsSet = true := by
    obtain ⟨hval, hreq, hcmd⟩ := h
    unfold KineticOperation_BuildInstantSecureErase at heq
    simp only [hval, hreq, setMessageType_eq _ _ _ hh, Bool.not_true,
      Bool.false_eq_true, if_false] at heq
    simp only [KineticPDU.updateCommand, withMessageType, hcmd, hp, Bool.not_true,
      Bool.false_eq_true, if_false, Option.some.injEq, Prod.mk.injEq,
      true_and] at heq
    have hr := congrArg KineticOperation.request heq
    simp only [Option.some.injEq] at hr
    rw [← hr]
  cases hb : request1.bodyTarget with
  | none => rw [hb] at hbody; simp at hbody
  | some body =>
    rw [hb] at hbody
    simp only [Option.map_some', Option.some.injEq] at hbody
    refine ⟨_, _, request1, { request.protoData.pinAuth with pin := [], has_pin := true },
      body, _, heq, rfl, hset, ?_, ?_, ?_, ?_, rfl, rfl, rfl, hb, hbody, rfl, rfl⟩
    · rw [hmsg]
    · rw [hmsg]
    · rw [hmsg]
    · rw [hmsg]

/-- The example operation after `KineticOperation_BuildInstantSecureErase`: the message's
authentication fields. -/
theorem buildInstantSecureErase_pin_auth_witness :
    ReadyToBuild exampleOperation exampleRequest
    ∧ exampleRequest.protoData.message.authType = KINETIC_PROTO_MESSAGE_AUTH_TYPE_HMACAUTH
    ∧ ∃ connection1 operation1 request1 pinAuth body pinOp,
      KineticOperation_BuildInstantSecureErase exampleConnection exampleOperation =
        some (connection1, operation1)
      ∧ operation1.request = some request1
      ∧ request1.protoIsSet = true
      ∧ request1.protoData.message.has_authType = true
      ∧ request1.protoData.message.authType = KINETIC_PROTO_MESSAGE_AUTH_TYPE_PINAUTH
      ∧ request1.protoData.message.hmacAuth = none
      ∧ request1.protoData.message.pinAuth = some pinAuth
      ∧ pinAuth.has_pin = true ∧ pinAuth.pin = [] ∧ pinAuth.pin.length = 0
      ∧ request1.bodyTarget = some body
      ∧ body.pinOp = some pinOp
      ∧ pinOp.has_pinOpType = true
      ∧ pinOp.pinOpType = KineticProto_Command_PinOperation_PinOpType.KINETIC_PROTO_COMMAND_PIN_OPERATION_PIN_OP_TYPE_SECURE_ERASE_PINOP :=
  ⟨by decide, rfl,
    buildInstantSecureErase_pin_auth exampleConnection exampleOperation exampleRequest
      (by decide)⟩

/-! ## The sender and the authentication envelope -/

/-- Whatever the size check decides, the sender returns, and the request it leaves has
the message and the HMAC context of the prepared request: after line 118 only the two
header copies are written. -/
theorem sendRequest_keeps_prepared (env : Env) (sock : SocketReplies) (currentTime : Timeval)
    (connection : KineticConnection) (operation : KineticOperation) (request : KineticPDU)
    (hA : SendRequestAsserts connection operation request)
    (hV : ValueReachable operation) :
    ∃ status operation1 events request1,
      KineticOperation_SendRequest env sock currentTime connection operation =
        some (status, operation1, events)
      ∧ operation1.request = some request1
      ∧ request1.protoData = (preparedRequest env connection request).protoData
      ∧ request1.hmac = (preparedRequest env connection request).hmac := by
  by_cases hP : PassesSizeCheck env connection operation request
  · obtain ⟨status, events, hW⟩ := writePDU_isSome env sock connection
      (sentOperation env currentTime connection operation request)
      (sentRequest env connection operation request)
      (valueReachable_sentOperation env currentTime connection operation request hV)
    refine ⟨status, sentOperation env currentTime connection operation request,
      [Event.pthread_mutex_lock (Mutex.writeMutex connection.addr),
       Event.pthread_mutex_lock (Mutex.timeoutTimeMutex operation.addr),
       Event.pthread_mutex_unlock (Mutex.timeoutTimeMutex operation.addr)] ++ events
        ++ [Event.pthread_mutex_unlock (Mutex.writeMutex connection.addr)],
      sentRequest env connection operation request, ?_, rfl, rfl, rfl⟩
    rw [sendFrame_eq env sock currentTime connection operation request hA hP, hW]
    rfl
  · obtain ⟨hr, hc, hrc⟩ := hA
    unfold PassesSizeCheck packedProtobufLength announcedValueLength at hP
    unfold KineticOperation_SendRequest
    simp only [hr, hc, hrc, ne_eq, not_true_eq_false, if_false]
    by_cases h1 : uint32_t (env.KineticProto_Message__get_packed_size
        (preparedRequest env connection request).protoData.message) > env.PDU_PROTO_MAX_LEN
    · rw [if_pos h1]
      exact ⟨_, _, _, _, rfl, rfl, rfl, rfl⟩
    · rw [if_neg h1]
      split
      · next entry he hs =>
        simp only [he, hs] at hP
        have h2 : uint32_t entry.value.bytesUsed > env.PDU_PROTO_MAX_LEN := by
          by_contra hcon
          exact hP ⟨by omega, by omega⟩
        rw [if_pos h2]
        exact ⟨_, _, _, _, rfl, rfl, rfl, rfl⟩
      · next hne =>
        have h0 : (match operation.entry, operation.sendValue with
            | some entry, true => entry.value.bytesUsed
            | _, _ => 0) = 0 := by
          split
          · next entry he hs => exact absurd hs (by intro hs; exact hne entry he hs)
          · rfl
        rw [h0] at hP
        exact absurd ⟨by omega, by simp [uint32_t]⟩ hP

/-- C17: the sender never selects the auth mode.  For every operation the request it leaves
has the authType it found; with authType HMACAUTH the HMAC context holds the SHA-1 HMAC
of the message's commandBytes under the session's hmacKey, taken after commandBytes was
set to the packed command, and the same bytes are stored in the hmacAuth envelope; with
any other authType the HMAC context and the hmacAuth and pinAuth envelopes are as they
were. -/
theorem sendRequest_leaves_auth_mode (env : Env) (sock : SocketReplies)
    (currentTime : Timeval) (connection : KineticConnection) (operation : KineticOperation)
    (request : KineticPDU)
    (hA : SendRequestAsserts connection operation request)
    (hV : ValueReachable operation) :
    ∃ status operation1 events request1,
      KineticOperation_SendRequest env sock currentTime connection operation =
        some (status, operation1, events)
      ∧ operation1.request = some request1
      ∧ request1.protoData.message.authType = request.protoData.message.authType
      ∧ request1.protoData.message.has_authType = request.protoData.message.has_authType
      ∧ (request.protoData.has_command = true →
          request1.protoData.message.commandBytes =
            env.KineticProto_command__pack request.protoData.command)
      ∧ (request.protoData.message.authType = KINETIC_PROTO_MESSAGE_AUTH_TYPE_HMACAUTH →
          request1.hmac =
            { algorithm := HmacSHA1,
              data := env.KineticHMAC_Compute connection.session.hmacKey
                request1.protoData.message.commandBytes }
          ∧ request1.protoData.message.hmacAuth =
              request.protoData.message.hmacAuth.map (fun envelope =>
                { envelope with
                    hmac := env.KineticHMAC_Compute connection.session.hmacKey
                      request1.protoData.message.commandBytes,
                    has_hmac := true }))
      ∧ (request.protoData.message.authType ≠ KINETIC_PROTO_MESSAGE_AUTH_TYPE_HMACAUTH →
          request1.hmac = request.hmac
          ∧ request1.protoData.message.hmacAuth = request.protoData.message.hmacAuth
          ∧ request1.protoData.message.pinAuth = request.protoData.message.pinAuth) := by
  obtain ⟨status, operation1, events, request1, hS, hreq, hpd, hhm⟩ :=
    sendRequest_keeps_prepared env sock currentTime connection operation request hA hV
  refine ⟨status, operation1, events, request1, hS, hreq, ?_, ?_, ?_, ?_, ?_⟩
  · rw [hpd]
    unfold preparedRequest populateAuth packCommand KineticHMAC_Populate
    cases request.protoData.has_command <;>
      cases hat : request.protoData.message.authType <;> simp [hat]
  · rw [hpd]
    unfold preparedRequest populateAuth packCommand KineticHMAC_Populate
    cases request.protoData.has_command <;>
      cases hat : request.protoData.message.authType <;> simp [hat]
  · intro hc
    rw [hpd]
    unfold preparedRequest populateAuth packCommand KineticHMAC_Populate
    cases hat : request.protoData.message.authType <;> simp [hat, hc]
  · intro hat
    rw [hpd, hhm]
    unfold preparedRequest populateAuth packCommand KineticHMAC_Populate
    cases request.protoData.has_command <;> simp [hat]
  · intro hat
    rw [hpd, hhm]
    unfold preparedRequest populateAuth packCommand KineticHMAC_Populate
    cases request.protoData.has_command <;>
      cases hat1 : request.protoData.message.authType <;> simp_all

/-! ## Sequence numbers -/

/-- A chain whose deepest request sits at nesting level 1000 is not built:
`build_p2pOp` returns NULL. -/
theorem build_p2pOp_chain_null (n level : Nat) (h : level + n = 1000) :
    build_p2pOp level (p2pChain n) = some none := by
  induction n generalizing level with
  | zero =>
    have hl : level = 1000 := by omega
    subst hl
    simp [p2pChain, simpleP2P, build_p2pOp]
  | succ n ih =>
    have hl : level ≠ 1000 := by omega
    have hrec := ih (level + 1) (by omega)
    simp [p2pChain, build_p2pOp, build_p2pOp_operations, build_p2pOp_operation, hl, hrec,
      ByteBuffer_IsNull]

/-- C19: a failing builder call consumes a sequence number.  On a chain of 1001 nested P2P
operations `KineticOperation_BuildP2POperation` returns
`KINETIC_STATUS_OPERATION_INVALID`, and the session's sequence counter, 4 before the
call, is 5 after it: the counter is advanced on line 671, before the tree is built. -/
theorem buildP2POperation_failure_consumes_sequence :
    exampleConnection.session.sequence = 4
    ∧ (KineticOperation_BuildP2POperation exampleConnection exampleOperation
        (p2pChain 1000)).map (fun r => (r.1, r.2.1.session.sequence))
      = some (KINETIC_STATUS_OPERATION_INVALID, 5) := by
  refine ⟨rfl, ?_⟩
  obtain ⟨request1, heq, _⟩ := buildP2POperation_eq exampleConnection exampleOperation
    (p2pChain 1000) none exampleRequest { has_sequence := true, sequence := 5 }
    (by decide) rfl (build_p2pOp_chain_null 1000 0 rfl)
  rw [heq]
  rfl

/-! ## PUT version rotation -/

/-- An append that fits puts the bytes behind the bytes in use. -/
theorem bytes_append_reset (buffer : ByteBuffer) (data : List Nat) (len : Nat)
    (hfit : len ≤ buffer.array.len) (hdata : len ≤ data.length) :
    (ByteBuffer_Append (ByteBuffer_Reset buffer) data len).bytes = data.take len
    ∧ (ByteBuffer_Append (ByteBuffer_Reset buffer) data len).bytesUsed = len := by
  unfold ByteBuffer_Append ByteBuffer_Reset ByteBuffer.bytes
  by_cases h0 : len = 0
  · subst h0
    simp
  · have hc : ¬ (len = 0 ∨ len > buffer.array.len) := by omega
    have hlen : (List.take len data).length = len := by
      rw [List.length_take]
      exact Nat.min_eq_left hdata
    simp only [Nat.zero_add, hc, if_false, Option.getD_some, List.take_zero, List.nil_append]
    exact ⟨List.take_left' hlen, trivial⟩

/-- C20: PUT version rotation.  For every entry whose newVersion and dbVersion buffers are
both allocated (non-NULL data and non-zero capacity) and whose dbVersion buffer has room
for the bytes of newVersion, `KineticOperation_PutCallback` called with
`KINETIC_STATUS_SUCCESS` leaves dbVersion holding exactly the bytes newVersion held
before the call (its first bytesUsed bytes), leaves newVersion empty (bytesUsed 0), and
returns SUCCESS. -/
theorem putCallback_rotates_version (operation : KineticOperation) (entry : KineticEntry)
    (newData dbData : List Nat)
    (hconn : operation.connection ≠ none) (hresp : operation.response ≠ none)
    (he : operation.entry = some entry)
    (hn : entry.newVersion.array.data = some newData) (hnl : entry.newVersion.array.len > 0)
    (hd : entry.dbVersion.array.data = some dbData) (hdl : entry.dbVersion.array.len > 0)
    (hwf : entry.newVersion.bytesUsed ≤ newData.length)
    (hfit : entry.newVersion.bytesUsed ≤ entry.dbVersion.array.len) :
    ∃ operation1 entry1,
      KineticOperation_PutCallback operation KINETIC_STATUS_SUCCESS =
        some (KINETIC_STATUS_SUCCESS, operation1)
      ∧ operation1.entry = some entry1
      ∧ entry1.dbVersion.bytes = entry.newVersion.bytes
      ∧ entry1.dbVersion.bytesUsed = entry.newVersion.bytesUsed
      ∧ entry1.newVersion.bytesUsed = 0
      ∧ entry1.newVersion.bytes = [] := by
  obtain ⟨hb, hu⟩ := bytes_append_reset entry.dbVersion newData entry.newVersion.bytesUsed
    hfit hwf
  cases hc : operation.connection with
  | none => exact absurd hc hconn
  | some c =>
    cases hr : operation.response with
    | none => exact absurd hr hresp
    | some r =>
      refine ⟨{ operation with entry := some { entry with
          dbVersion := ByteBuffer_Append (ByteBuffer_Reset entry.dbVersion) newData
            entry.newVersion.bytesUsed,
          newVersion := ByteBuffer_Reset entry.newVersion } }, { entry with
          dbVersion := ByteBuffer_Append (ByteBuffer_Reset entry.dbVersion) newData
            entry.newVersion.bytesUsed,
          newVersion := ByteBuffer_Reset entry.newVersion }, ?_, rfl, ?_, hu, rfl, ?_⟩
      · unfold KineticOperation_PutCallback
        simp [hc, hr, he, hn, hd, hnl, hdl]
      · simp only [hb]
        simp [ByteBuffer.bytes, hn]
      · simp [ByteBuffer.bytes, ByteBuffer_Reset]

/-- The rotation on an entry whose dbVersion buffer has eight bytes of capacity: `v10`
moves from newVersion to dbVersion. -/
theorem putCallback_rotates_version_witness :
    (answeredPut 8).entry = some (versionedEntry 8)
    ∧ (versionedEntry 8).newVersion.bytes = [118, 49, 48]
    ∧ ∃ operation1 entry1,
      KineticOperation_PutCallback (answeredPut 8) KINETIC_STATUS_SUCCESS =
        some (KINETIC_STATUS_SUCCESS, operation1)
      ∧ operation1.entry = some entry1
      ∧ entry1.dbVersion.bytes = (versionedEntry 8).newVersion.bytes
      ∧ entry1.dbVersion.bytesUsed = (versionedEntry 8).newVersion.bytesUsed
      ∧ entry1.newVersion.bytesUsed = 0
      ∧ entry1.newVersion.bytes = [] :=
  ⟨rfl, rfl,
    putCallback_rotates_version (answeredPut 8) (versionedEntry 8) [118, 49, 48]
      ([118, 57] ++ List.replicate (8 - 2) 0) (by decide) (by decide) rfl rfl (by decide) rfl
      (by decide) (by decide) (by decide)⟩

/-- With a dbVersion buffer of two bytes of capacity the three bytes of `v10` do not fit:
the thunk returns SUCCESS with dbVersion empty and newVersion empty, and the new version
is in neither buffer. -/
theorem putCallback_small_dbVersion_loses_version :
    (versionedEntry 2).newVersion.array.data.isSome = true
    ∧ (versionedEntry 2).newVersion.array.len = 3
    ∧ (versionedEntry 2).dbVersion.array.data.isSome = true
    ∧ (versionedEntry 2).dbVersion.array.len = 2
    ∧ (versionedEntry 2).newVersion.bytes = [118, 49, 48]
    ∧ (KineticOperation_PutCallback (answeredPut 2) KINETIC_STATUS_SUCCESS).map
        (fun r => (r.1, r.2.entry.map (fun e =>
          (e.dbVersion.bytes, e.dbVersion.bytesUsed, e.newVersion.bytesUsed))))
      = some (KINETIC_STATUS_SUCCESS, some ([], 0, 0)) := by
  refine ⟨rfl, rfl, rfl, rfl, rfl, ?_⟩
  rfl

/-! ## Correlation and completion on concrete inputs -/

/-- A reply acknowledging sequence 6 among four pending operations.  The first carries
sequence 5; the second holds 6 in a PDU of type RESPONSE and the third holds 6 with
`has_sequence` clear, so neither matches; the lookup returns the fourth, the first
REQUEST PDU with `has_sequence` and sequence 6, and changes no other operation. -/
theorem associate_returns_first_match_witness :
    laterResponse.type = KINETIC_PDU_TYPE_RESPONSE
    ∧ (∃ o, o ∈ decoyConnection.operations ∧ MatchesSequence o 6)
    ∧ ¬ MatchesSequence sentExampleOperation 6
    ∧ ¬ MatchesSequence responseTypedOperation 6
    ∧ ¬ MatchesSequence unsequencedOperation 6
    ∧ KineticOperation_AssociateResponseWithOperation decoyConnection (some laterResponse) =
        (some { laterOperation with response := some laterResponse },
          { decoyConnection with operations :=
              [sentExampleOperation, responseTypedOperation, unsequencedOperation,
               { laterOperation with response := some laterResponse }] })
    ∧ ∃ pre operation post,
      decoyConnection.operations = pre ++ operation :: post
      ∧ (∀ o, o ∈ pre → ¬ MatchesSequence o 6)
      ∧ MatchesSequence operation 6
      ∧ KineticOperation_AssociateResponseWithOperation decoyConnection (some laterResponse) =
          (some { operation with response := some laterResponse },
            { decoyConnection with
                operations := pre ++ { operation with response := some laterResponse } :: post }) :=
  ⟨rfl,
    ⟨laterOperation, by decide, _, _, _, rfl, rfl, rfl, rfl, rfl, rfl⟩,
    fun h => absurd ((carriesSequence_iff _ _).2 h) (by decide),
    fun h => absurd ((carriesSequence_iff _ _).2 h) (by decide),
    fun h => absurd ((carriesSequence_iff _ _).2 h) (by decide),
    by decide,
    associate_returns_first_match decoyConnection laterResponse
      { header := some { has_ackSequence := true, ackSequence := 6 } }
      { has_ackSequence := true, ackSequence := 6 } rfl rfl rfl rfl
      ⟨laterOperation, by decide, _, _, _, rfl, rfl, rfl, rfl, rfl, rfl⟩⟩

/-- A reply whose ack sequence no pending operation carries finds nothing and leaves the
two pending operations as they were. -/
theorem associate_miss_returns_null_witness :
    (∀ o, o ∈ busyConnection.operations → carriesSequence o 7 = false)
    ∧ KineticOperation_AssociateResponseWithOperation busyConnection (some strayResponse)
        = (none, busyConnection) :=
  ⟨by decide,
    (associate_miss_returns_null busyConnection).2.2.2 strayResponse
      { header := some { has_ackSequence := true, ackSequence := 7 } }
      { has_ackSequence := true, ackSequence := 7 } rfl rfl (by decide)⟩

/-- Completing the first of two pending operations with status 3: one callback, and the
second operation alone stays in the list. -/
theorem complete_calls_callback_once_and_frees_witness :
    sentExampleOperation.closure.callback = some 4096
    ∧ (KineticOperation_Complete busyConnection sentExampleOperation
        (KINETIC_STATUS_OTHER 3)).1.operations = [laterOperation]
    ∧ (KineticOperation_Complete busyConnection sentExampleOperation
        (KINETIC_STATUS_OTHER 3)).2 =
      [Event.KineticOperation_Complete 100 (KINETIC_STATUS_OTHER 3),
       Event.closure_callback 4096 (KINETIC_STATUS_OTHER 3) 9,
       Event.KineticAllocator_FreeOperation 1 100] :=
  ⟨rfl, rfl,
    (complete_calls_callback_once_and_frees busyConnection sentExampleOperation
      (KINETIC_STATUS_OTHER 3) 4096 rfl).1⟩

/-- The hello PUT carries HMAC authentication: the sender leaves the auth type and stores
the HMAC of the packed command. -/
theorem sendRequest_leaves_auth_mode_witness :
    SendRequestAsserts exampleConnection helloPutOperation exampleRequest
    ∧ ValueReachable helloPutOperation
    ∧ exampleRequest.protoData.message.authType = KINETIC_PROTO_MESSAGE_AUTH_TYPE_HMACAUTH
    ∧ ∃ status operation1 events request1,
      KineticOperation_SendRequest exampleEnv okSocket exampleTime exampleConnection
          helloPutOperation = some (status, operation1, events)
      ∧ operation1.request = some request1
      ∧ request1.protoData.message.authType = exampleRequest.protoData.message.authType
      ∧ request1.protoData.message.has_authType = exampleRequest.protoData.message.has_authType
      ∧ (exampleRequest.protoData.has_command = true →
          request1.protoData.message.commandBytes =
            exampleEnv.KineticProto_command__pack exampleRequest.protoData.command)
      ∧ (exampleRequest.protoData.message.authType = KINETIC_PROTO_MESSAGE_AUTH_TYPE_HMACAUTH →
          request1.hmac =
            { algorithm := HmacSHA1,
              data := exampleEnv.KineticHMAC_Compute exampleConnection.session.hmacKey
                request1.protoData.message.commandBytes }
          ∧ request1.protoData.message.hmacAuth =
              exampleRequest.protoData.message.hmacAuth.map (fun envelope =>
                { envelope with
                    hmac := exampleEnv.KineticHMAC_Compute exampleConnection.session.hmacKey
                      request1.protoData.message.commandBytes,
                    has_hmac := true }))
      ∧ (exampleRequest.protoData.message.authType ≠ KINETIC_PROTO_MESSAGE_AUTH_TYPE_HMACAUTH →
          request1.hmac = exampleRequest.hmac
          ∧ request1.protoData.message.hmacAuth = exampleRequest.protoData.message.hmacAuth
          ∧ request1.protoData.message.pinAuth = exampleRequest.protoData.message.pinAuth) :=
  ⟨by decide, fun _ _ => by decide, rfl,
    sendRequest_leaves_auth_mode exampleEnv okSocket exampleTime exampleConnection
      helloPutOperation exampleRequest (by decide) (fun _ _ => by decide)⟩

/-! ## Completion without a callback -/

/-- C26: `KineticOperation_PutCallback` returns the status it was given in every case, and
leaves the operation, with the entry's dbVersion and newVersion, unchanged whenever the
status is not `KINETIC_STATUS_SUCCESS` or newVersion has no allocated buffer (data NULL
or capacity 0).  An allocated newVersion that holds no bytes (bytesUsed 0) is still
rotated on success: an allocated dbVersion is emptied and newVersion stays as it is; a
dbVersion without a buffer takes over the buffer of newVersion, and newVersion becomes
`BYTE_BUFFER_NONE`. -/
theorem putCallback_leaves_versions (operation : KineticOperation) (entry : KineticEntry)
    (status : KineticStatus)
    (hconn : operation.connection ≠ none) (hresp : operation.response ≠ none)
    (he : operation.entry = some entry) :
    (∃ operation1, KineticOperation_PutCallback operation status = some (status, operation1))
    ∧ (status ≠ KINETIC_STATUS_SUCCESS ∨ entry.newVersion.array.data = none
          ∨ entry.newVersion.array.len = 0 →
        KineticOperation_PutCallback operation status = some (status, operation))
    ∧ (status = KINETIC_STATUS_SUCCESS → entry.newVersion.array.data ≠ none →
        entry.newVersion.array.len > 0 → entry.newVersion.bytesUsed = 0 →
        ∃ entry1,
          KineticOperation_PutCallback operation status =
            some (status, { operation with entry := some entry1 })
          ∧ (entry.dbVersion.array.data ≠ none ∧ entry.dbVersion.array.len > 0 →
              entry1.dbVersion.array = entry.dbVersion.array
              ∧ entry1.dbVersion.bytesUsed = 0
              ∧ entry1.newVersion = entry.newVersion)
          ∧ (entry.dbVersion.array.data = none ∨ entry.dbVersion.array.len = 0 →
              entry1.dbVersion = entry.newVersion
              ∧ entry1.newVersion = BYTE_BUFFER_NONE)) := by
  cases hc : operation.connection with
  | none => exact absurd hc hconn
  | some c =>
    cases hr : operation.response with
    | none => exact absurd hr hresp
    | some r =>
      refine ⟨?_, ?_, ?_⟩
      · unfold KineticOperation_PutCallback
        simp only [hc, hr, he]
        split <;> [split <;> [split; skip]; skip] <;> exact ⟨_, rfl⟩
      · intro h
        unfold KineticOperation_PutCallback
        simp only [hc, hr, he]
        rcases h with h | h | h
        · simp [h]
        · simp [h]
        · simp [h]
      · intro hs hn hl hu
        unfold KineticOperation_PutCallback
        simp only [hc, hr, he, hs, if_true]
        have hn1 : entry.newVersion.array.data.isSome = true := by
          cases hd : entry.newVersion.array.data with
          | none => exact absurd hd hn
          | some d => rfl
        simp only [hn1, hl, decide_True, Bool.and_self, if_true]
        by_cases hdb : entry.dbVersion.array.data ≠ none ∧ entry.dbVersion.array.len > 0
        · have hd1 : entry.dbVersion.array.data.isSome = true := by
            cases hd : entry.dbVersion.array.data with
            | none => exact absurd hd hdb.1
            | some d => rfl
          simp only [hd1, hdb.2, decide_True, Bool.and_self, if_true]
          refine ⟨_, rfl, ?_, ?_⟩
          · intro _
            refine ⟨?_, ?_, ?_⟩
            · simp [ByteBuffer_Append, ByteBuffer_Reset, hu]
            · simp [ByteBuffer_Append, ByteBuffer_Reset, hu]
            · cases hnv : entry.newVersion with
              | mk a u =>
                rw [hnv] at hu
                simp only at hu
                simp [ByteBuffer_Reset, hu]
          · intro h
            rcases h with h | h
            · exact absurd h hdb.1
            · omega
        · have hd1 : (entry.dbVersion.array.data.isSome
              && decide (entry.dbVersion.array.len > 0)) = false := by
            cases hd : entry.dbVersion.array.data with
            | none => rfl
            | some d =>
              have : ¬ entry.dbVersion.array.len > 0 := fun hlen => hdb ⟨by simp [hd], hlen⟩
              simp [this]
          simp only [hd1]
          refine ⟨_, rfl, ?_, ?_⟩
          · intro h
            exact absurd h hdb
          · intro _
            exact ⟨rfl, rfl⟩

/-- A PUT answered with a status other than success keeps both version buffers. -/
theorem putCallback_leaves_versions_witness :
    (answeredPut 8).connection ≠ none ∧ (answeredPut 8).response ≠ none
    ∧ (answeredPut 8).entry = some (versionedEntry 8)
    ∧ KineticOperation_PutCallback (answeredPut 8) (KINETIC_STATUS_OTHER 9) =
        some (KINETIC_STATUS_OTHER 9, answeredPut 8) :=
  ⟨by decide, by decide, rfl,
    (putCallback_leaves_versions (answeredPut 8) (versionedEntry 8) (KINETIC_STATUS_OTHER 9)
      (by decide) (by decide) rfl).2.1 (Or.inl (by decide))⟩

/-- A successful PUT whose newVersion buffer is allocated and holds no bytes (bytesUsed 0)
changes both version buffers.  Without a dbVersion buffer, dbVersion becomes the buffer
of newVersion and newVersion becomes `BYTE_BUFFER_NONE`; with a dbVersion buffer that
holds `v9`, dbVersion is left empty. -/
theorem putCallback_empty_newVersion_rotates :
    emptyNewVersionEntry.newVersion.bytesUsed = 0
    ∧ emptyNewVersionEntry.dbVersion = { array := { data := none, len := 0 }, bytesUsed := 0 }
    ∧ (KineticOperation_PutCallback (answeredPutOf emptyNewVersionEntry)
          KINETIC_STATUS_SUCCESS).map
        (fun r => (r.1, r.2.entry.map (fun e => (e.dbVersion, e.newVersion))))
      = some (KINETIC_STATUS_SUCCESS,
          some ({ array := { data := some [0, 0, 0], len := 3 }, bytesUsed := 0 },
            BYTE_BUFFER_NONE))
    ∧ storedVersionEntry.newVersion.bytesUsed = 0
    ∧ storedVersionEntry.dbVersion.bytes = [118, 57]
    ∧ (KineticOperation_PutCallback (answeredPutOf storedVersionEntry)
          KINETIC_STATUS_SUCCESS).map
        (fun r => (r.1, r.2.entry.map (fun e => (e.dbVersion.bytes, e.dbVersion.bytesUsed))))
      = some (KINETIC_STATUS_SUCCESS, some ([], 0)) := by
  refine ⟨rfl, rfl, ?_, rfl, rfl, ?_⟩ <;> rfl

/-! ## Slot ids of the pending table -/

/-- C23: the id of a slot does not identify the slot.  In every listener whose `rx_info`
table has `MAX_PENDING_MESSAGES` (1024) slots with ids of type `uint8_t`, two different
slots carry the same id: a byte has 256 values, the table 1024 slots. -/
theorem rx_info_ids_collide (l : listener) (h : l.WellTyped) :
    ∃ (i j : Nat) (hi : i < l.rx_info.length) (hj : j < l.rx_info.length),
      i ≠ j ∧ (l.rx_info.get ⟨i, hi⟩).id = (l.rx_info.get ⟨j, hj⟩).id := by
  obtain ⟨hlen, hid⟩ := h
  have hlt : ∀ k : Fin l.rx_info.length, (l.rx_info.get k).id < 256 := by
    intro k
    have := hid (l.rx_info.get k) (List.get_mem _ _ _)
    unfold uint8_t at this
    omega
  have hcard : Fintype.card (Fin 256) < Fintype.card (Fin l.rx_info.length) := by
    rw [Fintype.card_fin, Fintype.card_fin, hlen]
    decide
  obtain ⟨x, y, hxy, hf⟩ := Fintype.exists_ne_map_eq_of_card_lt
    (fun k : Fin l.rx_info.length => (⟨(l.rx_info.get k).id, hlt k⟩ : Fin 256)) hcard
  refine ⟨x.1, y.1, x.2, y.2, ?_, ?_⟩
  · intro hv
    exact hxy (Fin.ext hv)
  · exact congrArg Fin.val hf

/-- The slots of the numbered table. -/
theorem numberedListener_rx_info :
    numberedListener.rx_info =
      (List.range MAX_PENDING_MESSAGES).map (fun i => ({ id := uint8_t i } : rx_info_t)) := by
  simp only [numberedListener]

/-- The numbered table holds values of its C types. -/
theorem numberedListener_wellTyped : numberedListener.WellTyped := by
  unfold listener.WellTyped
  rw [numberedListener_rx_info]
  constructor
  · rw [List.length_map, List.length_range]
  · intro info hinfo
    rw [List.mem_map] at hinfo
    obtain ⟨i, _, hi⟩ := hinfo
    rw [← hi]
    simp only [uint8_t]
    omega

/-- The numbered table is well typed, and two of its slots carry the same id. -/
theorem rx_info_ids_collide_witness :
    numberedListener.WellTyped
    ∧ ∃ (i j : Nat) (hi : i < numberedListener.rx_info.length)
        (hj : j < numberedListener.rx_info.length),
        i ≠ j ∧ (numberedListener.rx_info.get ⟨i, hi⟩).id
          = (numberedListener.rx_info.get ⟨j, hj⟩).id :=
  ⟨numberedListener_wellTyped, rx_info_ids_collide numberedListener numberedListener_wellTyped⟩

/-- In the numbered table slot 0 and slot 256 both carry id 0. -/
theorem numberedListener_slots_0_and_256 :
    (numberedListener.rx_info.get? 0).map (fun info => info.id) = some 0
    ∧ (numberedListener.rx_info.get? 256).map (fun info => info.id) = some 0 := by
  rw [numberedListener_rx_info]
  simp [List.getElem?_map, List.getElem?_range, MAX_PENDING_MESSAGES, uint8_t]

/-! ## The status a completion thunk returns -/

/-- Eleven of the twelve thunks return the status they are given when it is not success:
every thunk but `KineticOperation_SetClusterVersionCallback`, on an operation that meets
the thunk's asserts, returns the status and leaves the operation as it is. -/
theorem callbacks_return_status (env : Env) (callback : KineticOperationCallback)
    (operation : KineticOperation) (status : KineticStatus)
    (hs : status ≠ KINETIC_STATUS_SUCCESS)
    (hcb : callback ≠ KineticOperationCallback.KineticOperation_SetClusterVersionCallback)
    (ha : callbackAsserts callback operation = true) :
    callOperationCallback env callback operation status = some (status, operation) := by
  cases callback with
  | KineticOperation_SetClusterVersionCallback => exact absurd rfl hcb
  | KineticOperation_NoopCallback =>
    simp only [callbackAsserts] at ha
    cases hc : operation.connection with
    | none => rw [hc] at ha; simp at ha
    | some c => simp [callOperationCallback, KineticOperation_NoopCallback, hc]
  | KineticOperation_FlushCallback =>
    simp only [callbackAsserts] at ha
    cases hc : operation.connection with
    | none => rw [hc] at ha; simp at ha
    | some c => simp [callOperationCallback, KineticOperation_FlushCallback, hc]
  | KineticOperation_InstantSecureEraseCallback =>
    simp only [callbackAsserts] at ha
    cases hc : operation.connection with
    | none => rw [hc] at ha; simp at ha
    | some c => simp [callOperationCallback, KineticOperation_InstantSecureEraseCallback, hc]
  | KineticOperation_PutCallback =>
    simp only [callbackAsserts, Bool.and_eq_true, Option.isSome_iff_exists] at ha
    obtain ⟨⟨⟨c, hc⟩, ⟨r, hr⟩⟩, ⟨e, he⟩⟩ := ha
    simp [callOperationCallback, KineticOperation_PutCallback, hc, hr, he, hs]
  | get_cmd_cb =>
    simp only [callbackAsserts, Bool.and_eq_true, Option.isSome_iff_exists] at ha
    obtain ⟨⟨⟨c, hc⟩, ⟨r, hr⟩⟩, ⟨e, he⟩⟩ := ha
    simp [callOperationCallback, get_cmd_cb, get_cb, hc, hr, he, hs]
  | getprevious_cmd_cb =>
    simp only [callbackAsserts, Bool.and_eq_true, Option.isSome_iff_exists] at ha
    obtain ⟨⟨⟨c, hc⟩, ⟨r, hr⟩⟩, ⟨e, he⟩⟩ := ha
    simp [callOperationCallback, getprevious_cmd_cb, get_cb, hc, hr, he, hs]
  | getnext_cmd_cb =>
    simp only [callbackAsserts, Bool.and_eq_true, Option.isSome_iff_exists] at ha
    obtain ⟨⟨⟨c, hc⟩, ⟨r, hr⟩⟩, ⟨e, he⟩⟩ := ha
    simp [callOperationCallback, getnext_cmd_cb, get_cb, hc, hr, he, hs]
  | KineticOperation_DeleteCallback =>
    simp only [callbackAsserts, Bool.and_eq_true, Option.isSome_iff_exists] at ha
    obtain ⟨⟨⟨c, hc⟩, ⟨r, hr⟩⟩, ⟨e, he⟩⟩ := ha
    simp [callOperationCallback, KineticOperation_DeleteCallback, hc, hr, he]
  | KineticOperation_GetKeyRangeCallback =>
    simp only [callbackAsserts, Bool.and_eq_true, Option.isSome_iff_exists] at ha
    obtain ⟨⟨⟨c, hc⟩, ⟨r, hr⟩⟩, hb⟩ := ha
    cases hbuf : operation.buffers with
    | none => rw [hbuf] at hb; simp at hb
    | some b =>
      rw [hbuf] at hb
      simp only [decide_eq_true_eq] at hb
      simp [callOperationCallback, KineticOperation_GetKeyRangeCallback, hc, hr, hbuf, hb, hs]
  | KineticOperation_GetLogCallback =>
    simp only [callbackAsserts, Bool.and_eq_true, Option.isSome_iff_exists] at ha
    obtain ⟨⟨⟨c, hc⟩, ⟨d, hd⟩⟩, hb⟩ := ha
    cases hresp : operation.response with
    | none => rw [hresp] at hb; simp at hb
    | some r =>
      rw [hresp] at hb
      simp only at hb
      cases hbody : r.bodyTarget with
      | none => rw [hbody] at hb; simp at hb
      | some body =>
        rw [hbody] at hb
        simp only at hb
        have hne : ¬ body.getLog = none := by
          intro hn
          rw [hn] at hb
          simp at hb
        simp [callOperationCallback, KineticOperation_GetLogCallback, hc, hd, hresp, hbody,
          hs, hne]
  | KineticOperation_P2POperationCallback =>
    simp only [callbackAsserts] at ha
    cases hreq : operation.request with
    | none => rw [hreq] at ha; simp at ha
    | some request =>
      rw [hreq] at ha
      simp only [Option.isSome_iff_exists] at ha
      obtain ⟨body, hbody⟩ := ha
      simp only [callOperationCallback, KineticOperation_P2POperationCallback, hreq, hbody, hs,
        if_false]
      cases operation with
      | mk addr connection request0 response entry valueEnabled sendValue callback closure
          timeoutTime buffers deviceInfo p2pOp deviceInfoTarget =>
        simp only at hreq
        subst hreq
        rfl

/-- C21: the thunk `KineticOperation_BuildSetClusterVersion` installs does not return the
status it is given.  `KineticOperation_SetClusterVersionCallback` returns
`KINETIC_STATUS_SUCCESS` for every status, so a status a device reports for a
SETCLUSTERVERSION command (such as NOT_FOUND) reaches the caller as SUCCESS. -/
theorem setClusterVersionCallback_returns_success (env : Env) (operation : KineticOperation)
    (status : KineticStatus) (hconn : operation.connection ≠ none) :
    callOperationCallback env
        KineticOperationCallback.KineticOperation_SetClusterVersionCallback operation status =
      some (KINETIC_STATUS_SUCCESS, operation) := by
  cases hc : operation.connection with
  | none => exact absurd hc hconn
  | some c => simp [callOperationCallback, KineticOperation_SetClusterVersionCallback, hc]

/-- The thunk the SETCLUSTERVERSION builder installs, called with a device status other
than success, returns SUCCESS. -/
theorem setClusterVersionCallback_returns_success_witness :
    (KineticOperation_BuildSetClusterVersion exampleConnection setupOperation 3).bind
        (fun built => built.2.callback) =
      some KineticOperationCallback.KineticOperation_SetClusterVersionCallback
    ∧ setupOperation.connection ≠ none
    ∧ KINETIC_STATUS_OTHER 9 ≠ KINETIC_STATUS_SUCCESS
    ∧ callOperationCallback exampleEnv
          KineticOperationCallback.KineticOperation_SetClusterVersionCallback setupOperation
          (KINETIC_STATUS_OTHER 9) =
        some (KINETIC_STATUS_SUCCESS, setupOperation) :=
  ⟨by decide, by decide, by decide,
    setClusterVersionCallback_returns_success exampleEnv setupOperation
      (KINETIC_STATUS_OTHER 9) (by decide)⟩

/-! ## The peer-to-peer builder: depth cap and shape -/

mutual
/-- With its keys present the walk of `build_p2pOp` meets no failing `assert`. -/
theorem build_p2pOp_returns (level : Nat) : ∀ (p : KineticP2P_Operation),
    keysPresent p = true → build_p2pOp level p ≠ none
  | KineticP2P_Operation.mk peer n ops, h => by
    unfold build_p2pOp
    unfold keysPresent at h
    have := build_p2pOp_operations_returns level n ops h
    split
    · simp
    · split <;> simp_all
/-- The loop of `build_p2pOp` meets no failing `assert`. -/
theorem build_p2pOp_operations_returns (level : Nat) :
    ∀ (n : Nat) (ops : KineticP2P_OperationArray),
    keysPresent_operations n ops = true → build_p2pOp_operations level n ops ≠ none
  | 0, _, _ => by unfold build_p2pOp_operations; simp
  | _ + 1, KineticP2P_OperationArray.nil, h => by
    unfold keysPresent_operations at h; simp at h
  | n + 1, KineticP2P_OperationArray.cons head tail, h => by
    unfold keysPresent_operations at h
    simp at h
    have h1 := build_p2pOp_operation_returns level head h.1
    have h2 := build_p2pOp_operations_returns level n tail h.2
    unfold build_p2pOp_operations
    split
    · simp_all
    · simp
    · split <;> simp_all
/-- One pass of the loop meets no failing `assert`. -/
theorem build_p2pOp_operation_returns (level : Nat) : ∀ (op : KineticP2P_OperationData),
    keysPresent_operation op = true → build_p2pOp_operation level op ≠ none
  | KineticP2P_OperationData.mk key version newKey chained rs, h => by
    unfold keysPresent_operation at h
    simp at h
    unfold build_p2pOp_operation
    cases chained with
    | null => simp [h.1]
    | ptr c =>
      have h1 := build_p2pOp_returns (level + 1) c (by simpa using h.2)
      simp [h.1]
      split <;> simp_all
end

mutual
/-- A chain that reaches level 1000 makes `build_p2pOp` return NULL. -/
theorem build_p2pOp_over_cap (level : Nat) : ∀ (p : KineticP2P_Operation),
    keysPresent p = true → level ≤ 1000 → 1000 ≤ level + nestingDepth p →
    build_p2pOp level p = some none
  | KineticP2P_Operation.mk peer n ops, h, hl, hd => by
    unfold build_p2pOp
    by_cases h1000 : level = 1000
    · simp [h1000]
    · unfold keysPresent at h
      unfold nestingDepth at hd
      have := build_p2pOp_operations_over_cap level n ops h (by omega) hd
      simp [h1000, this]
/-- The loop returns NULL when a chain below it reaches level 1000. -/
theorem build_p2pOp_operations_over_cap (level : Nat) :
    ∀ (n : Nat) (ops : KineticP2P_OperationArray),
    keysPresent_operations n ops = true → level < 1000 →
    1000 ≤ level + nestingDepth_operations n ops →
    build_p2pOp_operations level n ops = some none
  | 0, _, _, hl, hd => by unfold nestingDepth_operations at hd; omega
  | _ + 1, KineticP2P_OperationArray.nil, h, _, _ => by
    unfold keysPresent_operations at h; simp at h
  | n + 1, KineticP2P_OperationArray.cons head tail, h, hl, hd => by
    unfold keysPresent_operations at h
    simp only [Bool.and_eq_true] at h
    unfold nestingDepth_operations at hd
    unfold build_p2pOp_operations
    by_cases hh : 1000 ≤ level + nestingDepth_operation head
    · rw [build_p2pOp_operation_over_cap level head h.1 hl hh]
    · have ht : 1000 ≤ level + nestingDepth_operations n tail := by
        rcases Nat.le_total (nestingDepth_operation head) (nestingDepth_operations n tail)
          with hm | hm
        · rw [Nat.max_eq_right hm] at hd; exact hd
        · rw [Nat.max_eq_left hm] at hd; omega
      have hr := build_p2pOp_operation_returns level head h.1
      rw [build_p2pOp_operations_over_cap level n tail h.2 hl ht]
      cases hb : build_p2pOp_operation level head with
      | none => exact absurd hb hr
      | some r =>
        cases r with
        | none => rfl
        | some x => rfl
/-- One pass of the loop returns NULL when the chain below it reaches level 1000. -/
theorem build_p2pOp_operation_over_cap (level : Nat) : ∀ (op : KineticP2P_OperationData),
    keysPresent_operation op = true → level < 1000 →
    1000 ≤ level + nestingDepth_operation op →
    build_p2pOp_operation level op = some none
  | KineticP2P_OperationData.mk key version newKey chained rs, h, hl, hd => by
    unfold keysPresent_operation at h
    simp only [Bool.and_eq_true, Bool.not_eq_true'] at h
    unfold nestingDepth_operation at hd
    unfold build_p2pOp_operation
    cases chained with
    | null => simp only at hd; omega
    | ptr c =>
      simp only at hd
      have := build_p2pOp_over_cap (level + 1) c h.2 (by omega) (by omega)
      simp [h.1, this]
end

mutual
/-- Within the cap `build_p2pOp` returns a tree that mirrors the request. -/
theorem build_p2pOp_within_cap (level : Nat) : ∀ (p : KineticP2P_Operation),
    keysPresent p = true → level + nestingDepth p < 1000 →
    ∃ proto, build_p2pOp level p = some (some proto) ∧ mirrors p proto = true
  | KineticP2P_Operation.mk peer n ops, h, hd => by
    unfold keysPresent at h
    unfold nestingDepth at hd
    obtain ⟨pops, hb, hm⟩ := build_p2pOp_operations_within_cap level n ops h hd
    have h1000 : level ≠ 1000 := by omega
    refine ⟨KineticProto_Command_P2POperation.mk
      (some { hostname := peer.hostname, has_port := true, port := peer.port,
              has_tls := true, tls := peer.tls }) n pops, ?_, ?_⟩
    · unfold build_p2pOp
      simp only [h1000, if_false, hb]
    · unfold mirrors
      simp [hm]
/-- Within the cap the loop builds an array that mirrors the request's. -/
theorem build_p2pOp_operations_within_cap (level : Nat) :
    ∀ (n : Nat) (ops : KineticP2P_OperationArray),
    keysPresent_operations n ops = true → level + nestingDepth_operations n ops < 1000 →
    ∃ pops, build_p2pOp_operations level n ops = some (some pops)
      ∧ mirrors_operations n ops pops = true
  | 0, ops, _, _ => by
    refine ⟨KineticProto_Command_P2POperation_OperationArray.nil, ?_, ?_⟩
    · unfold build_p2pOp_operations; rfl
    · unfold mirrors_operations; rfl
  | _ + 1, KineticP2P_OperationArray.nil, h, _ => by
    unfold keysPresent_operations at h; simp at h
  | n + 1, KineticP2P_OperationArray.cons head tail, h, hd => by
    unfold keysPresent_operations at h
    simp only [Bool.and_eq_true] at h
    unfold nestingDepth_operations at hd
    have hh : level + nestingDepth_operation head < 1000 := by
      have := Nat.le_max_left (nestingDepth_operation head) (nestingDepth_operations n tail)
      omega
    have ht : level + nestingDepth_operations n tail < 1000 := by
      have := Nat.le_max_right (nestingDepth_operation head) (nestingDepth_operations n tail)
      omega
    obtain ⟨pop, hb1, hm1⟩ := build_p2pOp_operation_within_cap level head h.1 hh
    obtain ⟨pops, hb2, hm2⟩ := build_p2pOp_operations_within_cap level n tail h.2 ht
    refine ⟨KineticProto_Command_P2POperation_OperationArray.cons pop pops, ?_, ?_⟩
    · unfold build_p2pOp_operations
      simp only [hb1, hb2]
    · unfold mirrors_operations
      simp [hm1, hm2]
/-- Within the cap one pass of the loop builds an operation that mirrors the request's. -/
theorem build_p2pOp_operation_within_cap (level : Nat) : ∀ (op : KineticP2P_OperationData),
    keysPresent_operation op = true → level + nestingDepth_operation op < 1000 →
    ∃ pop, build_p2pOp_operation level op = some (some pop) ∧ mirrors_operation op pop = true
  | KineticP2P_OperationData.mk key version newKey chained rs, h, hd => by
    unfold keysPresent_operation at h
    simp only [Bool.and_eq_true, Bool.not_eq_true'] at h
    unfold nestingDepth_operation at hd
    cases chained with
    | null =>
      refine ⟨KineticProto_Command_P2POperation_Operation.mk
        true { data := key.array.data, len := key.bytesUsed }
        (!ByteBuffer_IsNull newKey) { data := newKey.array.data, len := newKey.bytesUsed }
        (!ByteBuffer_IsNull version) { data := version.array.data, len := version.bytesUsed }
        (ByteBuffer_IsNull version) (ByteBuffer_IsNull version)
        KineticProto_Command_P2POperation_Ptr.null none, ?_, ?_⟩
      · unfold build_p2pOp_operation
        simp only [h.1, Bool.false_eq_true, if_false]
      · unfold mirrors_operation
        simp
    | ptr c =>
      simp only at hd
      obtain ⟨proto, hb, hm⟩ := build_p2pOp_within_cap (level + 1) c h.2 (by omega)
      refine ⟨KineticProto_Command_P2POperation_Operation.mk
        true { data := key.array.data, len := key.bytesUsed }
        (!ByteBuffer_IsNull newKey) { data := newKey.array.data, len := newKey.bytesUsed }
        (!ByteBuffer_IsNull version) { data := version.array.data, len := version.bytesUsed }
        (ByteBuffer_IsNull version) (ByteBuffer_IsNull version)
        (KineticProto_Command_P2POperation_Ptr.ptr proto) none, ?_, ?_⟩
      · unfold build_p2pOp_operation
        simp only [h.1, Bool.false_eq_true, if_false, hb]
      · unfold mirrors_operation
        simp [hm]
end

/-- The keys of every request of a chain are present. -/
theorem keysPresent_p2pChain (n : Nat) : keysPresent (p2pChain n) = true := by
  induction n with
  | zero => decide
  | succ n ih =>
    unfold p2pChain keysPresent keysPresent_operations keysPresent_operation
      keysPresent_operations
    simp [ih, ByteBuffer_IsNull]

/-- The deepest request of `p2pChain n` sits at nesting level `n`. -/
theorem nestingDepth_p2pChain (n : Nat) : nestingDepth (p2pChain n) = n := by
  induction n with
  | zero => decide
  | succ n ih =>
    unfold p2pChain nestingDepth nestingDepth_operations nestingDepth_operation
      nestingDepth_operations
    simp [ih]

/-- C22: the P2P depth cap.  For every request tree in which a chain of
`chainedOperation` links reaches nesting level 1000 (with the keys the builder asserts
present), `KineticOperation_BuildP2POperation` on a valid operation returns
`KINETIC_STATUS_OPERATION_INVALID`, leaves the `p2pOperation` of the request's body NULL,
and stores neither into `operation->p2pOp` nor into `operation->callback`. -/
theorem buildP2POperation_depth_cap (connection : KineticConnection)
    (operation : KineticOperation) (request : KineticPDU) (p2pOp : KineticP2P_Operation)
    (h : ReadyToBuild operation request) (hK : keysPresent p2pOp = true)
    (hD : 1000 ≤ nestingDepth p2pOp) :
    ∃ connection1 operation1 request1 body,
      KineticOperation_BuildP2POperation connection operation p2pOp =
        some (KINETIC_STATUS_OPERATION_INVALID, connection1, operation1)
      ∧ operation1.request = some request1
      ∧ request1.bodyTarget = some body
      ∧ body.p2pOperation = none
      ∧ operation1.p2pOp = operation.p2pOp
      ∧ operation1.callback = operation.callback := by
  obtain ⟨header, hh, _, _⟩ := readyToBuild_header operation request h
  have hb : build_p2pOp 0 p2pOp = some none :=
    build_p2pOp_over_cap 0 p2pOp hK (by omega) (by omega)
  obtain ⟨request1, he, _, hbody⟩ :=
    buildP2POperation_eq connection operation p2pOp none request header h hh hb
  cases hbt : request1.bodyTarget with
  | none => rw [hbt] at hbody; simp at hbody
  | some body =>
    rw [hbt] at hbody
    simp only [Option.map_some', Option.some.injEq] at hbody
    exact ⟨_, _, request1, body, he, rfl, hbt, hbody, rfl, rfl⟩

/-- A chain of 1001 nested requests on the example operation: the builder returns
OPERATION_INVALID and attaches nothing. -/
theorem buildP2POperation_depth_cap_witness :
    ReadyToBuild exampleOperation exampleRequest
    ∧ keysPresent (p2pChain 1000) = true
    ∧ 1000 ≤ nestingDepth (p2pChain 1000)
    ∧ ∃ connection1 operation1 request1 body,
      KineticOperation_BuildP2POperation exampleConnection exampleOperation (p2pChain 1000) =
        some (KINETIC_STATUS_OPERATION_INVALID, connection1, operation1)
      ∧ operation1.request = some request1
      ∧ request1.bodyTarget = some body
      ∧ body.p2pOperation = none
      ∧ operation1.p2pOp = exampleOperation.p2pOp
      ∧ operation1.callback = exampleOperation.callback :=
  ⟨by decide, keysPresent_p2pChain 1000, Nat.le_of_eq (nestingDepth_p2pChain 1000).symm,
    buildP2POperation_depth_cap exampleConnection exampleOperation exampleRequest
      (p2pChain 1000) (by decide) (keysPresent_p2pChain 1000)
      (Nat.le_of_eq (nestingDepth_p2pChain 1000).symm)⟩

/-- C24: within the cap a P2P build succeeds and mirrors the request.  For every request
tree whose chains reach at most nesting level 999, with every operation key non-null (and
every allocation succeeding), `KineticOperation_BuildP2POperation` on a valid operation
returns `KINETIC_STATUS_SUCCESS`, records the request tree and the P2P thunk in the
operation, and attaches to the request's body a protobuf tree that mirrors the request:
counts and peers copied at every node, key, newKey and version bytes copied, `has_newKey`
and `has_version` true exactly for non-null buffers, `force` and `has_force` true exactly
when no version was given, and a nested `p2pop` exactly where there is a
`chainedOperation`. -/
theorem buildP2POperation_mirrors_request (connection : KineticConnection)
    (operation : KineticOperation) (request : KineticPDU) (p2pOp : KineticP2P_Operation)
    (h : ReadyToBuild operation request) (hK : keysPresent p2pOp = true)
    (hD : nestingDepth p2pOp ≤ 999) :
    ∃ connection1 operation1 request1 body proto,
      KineticOperation_BuildP2POperation connection operation p2pOp =
        some (KINETIC_STATUS_SUCCESS, connection1, operation1)
      ∧ operation1.request = some request1
      ∧ request1.bodyTarget = some body
      ∧ body.p2pOperation = some proto
      ∧ mirrors p2pOp proto = true
      ∧ operation1.p2pOp = some p2pOp
      ∧ operation1.callback =
          some KineticOperationCallback.KineticOperation_P2POperationCallback := by
  obtain ⟨header, hh, _, _⟩ := readyToBuild_header operation request h
  obtain ⟨proto, hb, hm⟩ := build_p2pOp_within_cap 0 p2pOp hK (by omega)
  obtain ⟨request1, he, _, hbody⟩ :=
    buildP2POperation_eq connection operation p2pOp (some proto) request header h hh hb
  cases hbt : request1.bodyTarget with
  | none => rw [hbt] at hbody; simp at hbody
  | some body =>
    rw [hbt] at hbody
    simp only [Option.map_some', Option.some.injEq] at hbody
    exact ⟨_, _, request1, body, proto, he, rfl, hbt, hbody, hm, rfl, rfl⟩

/-- A chain of three nested requests on the example operation: the builder succeeds and
the tree it attaches mirrors the chain. -/
theorem buildP2POperation_mirrors_request_witness :
    ReadyToBuild exampleOperation exampleRequest
    ∧ keysPresent (p2pChain 2) = true
    ∧ nestingDepth (p2pChain 2) ≤ 999
    ∧ ∃ connection1 operation1 request1 body proto,
      KineticOperation_BuildP2POperation exampleConnection exampleOperation (p2pChain 2) =
        some (KINETIC_STATUS_SUCCESS, connection1, operation1)
      ∧ operation1.request = some request1
      ∧ request1.bodyTarget = some body
      ∧ body.p2pOperation = some proto
      ∧ mirrors (p2pChain 2) proto = true
      ∧ operation1.p2pOp = some (p2pChain 2)
      ∧ operation1.callback =
          some KineticOperationCallback.KineticOperation_P2POperationCallback :=
  ⟨by decide, by decide, by decide,
    buildP2POperation_mirrors_request exampleConnection exampleOperation exampleRequest
      (p2pChain 2) (by decide) (by decide) (by decide)⟩

/-! ## The peer-to-peer thunk -/

/-- An array in bounds has an element, itself in bounds, at every index below its count. -/
theorem replyInBounds_get (n : Nat) :
    ∀ (operation : KineticProto_Command_P2POperation_OperationArray) (i : Nat),
    replyInBounds_operations n operation = true → i < n →
    ∃ replyOperation, operation.get? i = some replyOperation
      ∧ replyInBounds_operation replyOperation = true := by
  induction n with
  | zero => intro _ i _ hi; omega
  | succ n ih =>
    intro operation i h hi
    cases operation with
    | nil => unfold replyInBounds_operations at h; simp at h
    | cons head tail =>
      unfold replyInBounds_operations at h
      simp only [Bool.and_eq_true] at h
      cases i with
      | zero => exact ⟨head, rfl, h.1⟩
      | succ j =>
        obtain ⟨r, hr, hb⟩ := ih tail j h.2 (by omega)
        exact ⟨r, by
          unfold KineticProto_Command_P2POperation_OperationArray.get?
          exact hr, hb⟩

mutual
/-- With both trees in bounds the walk reads no array past its end. -/
theorem populateP2PStatusCodes_returns (env : Env) :
    ∀ (p : KineticP2P_Operation) (r : KineticProto_Command_P2POperation_Ptr),
    operationsInBounds p = true →
    (∀ t, r = KineticProto_Command_P2POperation_Ptr.ptr t → replyInBounds t = true) →
    ∃ p1, populateP2PStatusCodes env p r = some p1
  | KineticP2P_Operation.mk peer n ops, r, h, hr => by
    unfold operationsInBounds at h
    unfold populateP2PStatusCodes
    cases r with
    | null => exact ⟨_, rfl⟩
    | ptr t =>
      cases t with
      | mk rpeer rn rops =>
        have hrb := hr _ rfl
        unfold replyInBounds at hrb
        obtain ⟨ops1, h1⟩ := populateP2PStatusCodes_operations_returns env n ops 0 rn rops h hrb
        simp only [h1]
        exact ⟨_, rfl⟩
/-- The loop of the walk reads no array past its end. -/
theorem populateP2PStatusCodes_operations_returns (env : Env) :
    ∀ (n : Nat) (ops : KineticP2P_OperationArray) (i rn : Nat)
      (rops : KineticProto_Command_P2POperation_OperationArray),
    operationsInBounds_operations n ops = true → replyInBounds_operations rn rops = true →
    ∃ ops1, populateP2PStatusCodes_operations env i n ops rn rops = some ops1
  | 0, ops, i, rn, rops, _, _ => by
    unfold populateP2PStatusCodes_operations
    exact ⟨_, rfl⟩
  | _ + 1, KineticP2P_OperationArray.nil, _, _, _, h, _ => by
    unfold operationsInBounds_operations at h; simp at h
  | n + 1, KineticP2P_OperationArray.cons head tail, i, rn, rops, h, hr => by
    unfold operationsInBounds_operations at h
    simp only [Bool.and_eq_true] at h
    obtain ⟨head1, h1⟩ := populateP2PStatusCodes_operation_returns env head i rn rops h.1 hr
    obtain ⟨tail1, h2⟩ :=
      populateP2PStatusCodes_operations_returns env n tail (i + 1) rn rops h.2 hr
    unfold populateP2PStatusCodes_operations
    simp only [h1, h2]
    exact ⟨_, rfl⟩
/-- One pass of the loop reads no array past its end. -/
theorem populateP2PStatusCodes_operation_returns (env : Env) :
    ∀ (op : KineticP2P_OperationData) (i rn : Nat)
      (rops : KineticProto_Command_P2POperation_OperationArray),
    operationsInBounds_operation op = true → replyInBounds_operations rn rops = true →
    ∃ op1, populateP2PStatusCodes_operation env i op rn rops = some op1
  | KineticP2P_OperationData.mk key version newKey chained rs, i, rn, rops, h, hr => by
    unfold operationsInBounds_operation at h
    unfold populateP2PStatusCodes_operation
    by_cases hi : i < rn
    · obtain ⟨rop, hget, hrop⟩ := replyInBounds_get rn rops i hr hi
      simp only [hi, if_true, hget]
      cases rop with
      | mk a1 a2 a3 a4 a5 a6 a7 a8 p2pop status =>
        unfold replyInBounds_operation at hrop
        simp only
        cases chained with
        | null => exact ⟨_, rfl⟩
        | ptr c =>
          cases p2pop with
          | null => exact ⟨_, rfl⟩
          | ptr nested =>
            simp only at h hrop
            obtain ⟨c1, hc1⟩ := populateP2PStatusCodes_returns env c
              (KineticProto_Command_P2POperation_Ptr.ptr nested) h
              (fun t ht => by
                cases ht
                exact hrop)
            simp only [hc1]
            exact ⟨_, rfl⟩
    · simp only [hi, if_false]
      exact ⟨_, rfl⟩
end

/-- One pass of the loop leaves the operation walked. -/
theorem populateP2PStatusCodes_operation_walked (env : Env)
    (op : KineticP2P_OperationData) (i rn : Nat)
    (rops : KineticProto_Command_P2POperation_OperationArray)
    (h : operationsInBounds_operation op = true)
    (hr : replyInBounds_operations rn rops = true) :
    ∃ op1, populateP2PStatusCodes_operation env i op rn rops = some op1
      ∧ WalkedOperation env rn rops i op op1 := by
  cases op with
  | mk key version newKey chained rs =>
    unfold operationsInBounds_operation at h
    unfold populateP2PStatusCodes_operation
    by_cases hi : i < rn
    · obtain ⟨rop, hget, hrop⟩ := replyInBounds_get rn rops i hr hi
      simp only [hi, if_true, hget]
      cases rop with
      | mk a1 a2 a3 a4 a5 a6 a7 a8 p2pop status =>
        unfold replyInBounds_operation at hrop
        have hchain : replyChain rn rops i = p2pop := by
          unfold replyChain
          simp only [hi, if_true, hget]
        simp only
        cases chained with
        | null =>
          refine ⟨_, rfl, key, version, newKey, KineticP2P_OperationPtr.null, rs,
            KineticP2P_OperationPtr.null, rfl, ?_, ?_, ?_⟩
          · unfold expectedResultStatus
            simp only [hi, if_true, hget]
            cases status <;> rfl
          · intro c nested hc _
            cases hc
          · intro _
            rfl
        | ptr c =>
          cases p2pop with
          | null =>
            refine ⟨_, rfl, key, version, newKey, KineticP2P_OperationPtr.ptr c, rs,
              KineticP2P_OperationPtr.ptr c, rfl, ?_, ?_, ?_⟩
            · unfold expectedResultStatus
              simp only [hi, if_true, hget]
              cases status <;> rfl
            · intro c0 nested _ hn
              rw [hchain] at hn
              cases hn
            · intro _
              rfl
          | ptr nested =>
            simp only at h hrop
            obtain ⟨c1, hc1⟩ := populateP2PStatusCodes_returns env c
              (KineticProto_Command_P2POperation_Ptr.ptr nested) h
              (fun t ht => by
                cases ht
                exact hrop)
            simp only [hc1]
            refine ⟨_, rfl, key, version, newKey, KineticP2P_OperationPtr.ptr c, rs,
              KineticP2P_OperationPtr.ptr c1, rfl, ?_, ?_, ?_⟩
            · unfold expectedResultStatus
              simp only [hi, if_true, hget]
              cases status <;> rfl
            · intro c0 nested0 hc hn
              rw [hchain] at hn
              cases hc
              cases hn
              exact ⟨c1, hc1, rfl⟩
            · intro hor
              rw [hchain] at hor
              rcases hor with hor | hor <;> cases hor
    · simp only [hi, if_false]
      have hexp : expectedResultStatus env rn rops i = KINETIC_STATUS_INVALID := by
        unfold expectedResultStatus
        simp only [hi, if_false]
      have hchain : replyChain rn rops i = KineticProto_Command_P2POperation_Ptr.null := by
        unfold replyChain
        simp only [hi, if_false]
      refine ⟨_, rfl, key, version, newKey, chained, rs, chained, rfl, ?_, ?_, ?_⟩
      · rw [hexp]
      · intro c0 nested _ hn
        rw [hchain] at hn
        cases hn
      · intro _
        rfl

/-- The loop leaves every operation it visits walked: the operation at offset `j` of the
rest of the array is request operation `i + j`. -/
theorem populateP2PStatusCodes_operations_walked (env : Env) (rn : Nat)
    (rops : KineticProto_Command_P2POperation_OperationArray)
    (hr : replyInBounds_operations rn rops = true) (n : Nat) :
    ∀ (ops : KineticP2P_OperationArray) (i : Nat),
    operationsInBounds_operations n ops = true →
    ∃ ops1, populateP2PStatusCodes_operations env i n ops rn rops = some ops1
      ∧ ∀ j, j < n →
        ∃ requestOperation requestOperation1,
          ops.get? j = some requestOperation
          ∧ ops1.get? j = some requestOperation1
          ∧ WalkedOperation env rn rops (i + j) requestOperation requestOperation1 := by
  induction n with
  | zero =>
    intro ops i _
    refine ⟨ops, ?_, ?_⟩
    · unfold populateP2PStatusCodes_operations
      rfl
    · intro j hj
      omega
  | succ n ih =>
    intro ops i h
    cases ops with
    | nil => unfold operationsInBounds_operations at h; simp at h
    | cons head tail =>
      unfold operationsInBounds_operations at h
      simp only [Bool.and_eq_true] at h
      obtain ⟨head1, h1, hw1⟩ :=
        populateP2PStatusCodes_operation_walked env head i rn rops h.1 hr
      obtain ⟨tail1, h2, hw2⟩ := ih tail (i + 1) h.2
      refine ⟨KineticP2P_OperationArray.cons head1 tail1, ?_, ?_⟩
      · unfold populateP2PStatusCodes_operations
        simp only [h1, h2]
      · intro j hj
        cases j with
        | zero => exact ⟨head, head1, rfl, rfl, hw1⟩
        | succ k =>
          obtain ⟨ro, ro1, hg, hg1, hw⟩ := hw2 k (by omega)
          refine ⟨ro, ro1, ?_, ?_, ?_⟩
          · unfold KineticP2P_OperationArray.get?
            exact hg
          · unfold KineticP2P_OperationArray.get?
            exact hg1
          · have hidx : i + (k + 1) = i + 1 + k := by omega
            rw [hidx]
            exact hw

/-- The walk of a node against a reply leaves the node walked. -/
theorem populateP2PStatusCodes_walked (env : Env) (node : KineticP2P_Operation)
    (reply : KineticProto_Command_P2POperation)
    (h : operationsInBounds node = true) (hr : replyInBounds reply = true) :
    ∃ node1, populateP2PStatusCodes env node
        (KineticProto_Command_P2POperation_Ptr.ptr reply) = some node1
      ∧ WalkedNode env node reply node1 := by
  cases node with
  | mk peer n ops =>
    cases reply with
    | mk rpeer rn rops =>
      unfold operationsInBounds at h
      unfold replyInBounds at hr
      obtain ⟨ops1, h1, hw⟩ := populateP2PStatusCodes_operations_walked env rn rops hr n ops 0 h
      refine ⟨KineticP2P_Operation.mk peer n ops1, ?_, ?_⟩
      · unfold populateP2PStatusCodes
        simp only [h1]
      · unfold WalkedNode
        refine ⟨rfl, rfl, ?_⟩
        intro i hi
        obtain ⟨ro, ro1, hg, hg1, hwo⟩ := hw i hi
        rw [Nat.zero_add] at hwo
        exact ⟨ro, ro1, hg, hg1, hwo⟩

/-- C25: when `KineticOperation_P2POperationCallback` runs with `KINETIC_STATUS_SUCCESS`
and the response body carries a `p2pOperation`, it returns the status it was given and
leaves the request tree walked.  At every visited node (the top node against the reply,
and every chained request against the nested reply) each request operation at an index
`i` below `numOperations` gets its result status: the local status mapped from the
reply's code when `i` is below the reply's count and reply operation `i` has a status
with `has_code`, `KINETIC_STATUS_INVALID` otherwise; the walk descends into a chained
request exactly when the request operation has one and reply operation `i` has a nested
`p2pop`, and leaves the chained request alone otherwise. -/
theorem p2pOperationCallback_walks_status_codes (env : Env) (operation : KineticOperation)
    (request response : KineticPDU) (body : KineticProto_Command_Body)
    (reply : KineticProto_Command_P2POperation) (p2pOp : KineticP2P_Operation)
    (hp : operation.p2pOp = some p2pOp) (hresp : operation.response = some response)
    (hbody : response.bodyTarget = some body) (hreply : body.p2pOperation = some reply)
    (hreq : operation.request = some request) (hrb : request.bodyTarget ≠ none)
    (hB : operationsInBounds p2pOp = true) (hR : replyInBounds reply = true) :
    ∃ p2pOp1,
      KineticOperation_P2POperationCallback env operation KINETIC_STATUS_SUCCESS =
        some (KINETIC_STATUS_SUCCESS, { operation with p2pOp := some p2pOp1 })
      ∧ populateP2PStatusCodes env p2pOp
          (KineticProto_Command_P2POperation_Ptr.ptr reply) = some p2pOp1
      ∧ WalkedNode env p2pOp reply p2pOp1
      ∧ (∀ node nodeReply, operationsInBounds node = true → replyInBounds nodeReply = true →
          ∃ node1,
            populateP2PStatusCodes env node
                (KineticProto_Command_P2POperation_Ptr.ptr nodeReply) = some node1
            ∧ WalkedNode env node nodeReply node1) := by
  obtain ⟨p2pOp1, hpop, hw⟩ := populateP2PStatusCodes_walked env p2pOp reply hB hR
  refine ⟨p2pOp1, ?_, hpop, hw, ?_⟩
  · cases hbt : request.bodyTarget with
    | none => exact absurd hbt hrb
    | some requestBody =>
      unfold KineticOperation_P2POperationCallback
      simp only [if_true, hresp, hbody, hreply, hp, hpop, Option.map_some', hreq, hbt]
  · intro node nodeReply hn hnr
    exact populateP2PStatusCodes_walked env node nodeReply hn hnr

/-- The walk on the chain of two nested requests: the outer operation gets SUCCESS (code
1), the walk descends, and the nested operation gets the status of code 9. -/
theorem p2pOperationCallback_walks_status_codes_witness :
    answeredP2P.p2pOp = some (p2pChain 1)
    ∧ answeredP2P.response = some p2pResponse
    ∧ p2pResponse.bodyTarget = some { p2pOperation := some p2pReply }
    ∧ operationsInBounds (p2pChain 1) = true
    ∧ replyInBounds p2pReply = true
    ∧ populateP2PStatusCodes exampleEnv (p2pChain 1)
        (KineticProto_Command_P2POperation_Ptr.ptr p2pReply) = some walkedChain
    ∧ ∃ p2pOp1,
        KineticOperation_P2POperationCallback exampleEnv answeredP2P KINETIC_STATUS_SUCCESS =
          some (KINETIC_STATUS_SUCCESS, { answeredP2P with p2pOp := some p2pOp1 })
        ∧ populateP2PStatusCodes exampleEnv (p2pChain 1)
            (KineticProto_Command_P2POperation_Ptr.ptr p2pReply) = some p2pOp1
        ∧ WalkedNode exampleEnv (p2pChain 1) p2pReply p2pOp1 :=
  ⟨by decide, by decide, by decide, by decide, by decide, by decide,
    (p2pOperationCallback_walks_status_codes exampleEnv answeredP2P
      (answeredP2P.request.getD exampleRequest) p2pResponse
      { p2pOperation := some p2pReply } p2pReply (p2pChain 1)
      (by decide) (by decide) (by decide) rfl (by decide) (by decide) (by decide)
      (by decide)).imp (fun _ hx => ⟨hx.1, hx.2.1, hx.2.2.1⟩)⟩

/-! ## Sequence numbers of operations built one after another -/

end Kinetic
